import Mathlib

/-!
# passphrase-maker: a shallow embedding of the sentence generator

The development follows `passphrase-maker.c`.  C strings are modelled as the
list of characters that precede the terminating NUL.  The pseudo-random
generator is a stream: `rand k` is the value returned by the `k`-th call of
`rand()`, and every generating function receives the number of calls made so
far and returns the number of calls made when it is done.  Reading or writing
an array outside its bounds, using a variable that no `switch` case assigned
and incrementing an `int` beyond `INT_MAX` are undefined behaviour in C; the
model reports them as a `Fault`.  A loop that may not end takes a bound on its
iterations and yields `none` when the bound does not suffice.  Memory
allocation (`asprintf`, `malloc`, `calloc`) is assumed to succeed, and a word
file is given by its content.
-/

namespace Passphrase

/-- A C string, without its terminating NUL. -/
abbrev CStr := List Char

/-- The kinds of undefined behaviour the program can run into. -/
inductive Fault where
  /-- an array was read at an index that is not below its size -/
  | outOfBounds
  /-- a variable was used although no case of the preceding `switch` assigned it -/
  | unassigned
  /-- an `int` was incremented beyond `INT_MAX` -/
  | signedOverflow
  deriving DecidableEq, Repr

/-- The eleven global word arrays.  The global `..._count` variables hold the
sizes that `dyna_alloc` returned for them, that is, their lengths (a word file
has fewer than `2 ^ 32` words, so that the `unsigned int` count is exact). -/
structure Lexicon where
  singular_count_noun_array : List CStr
  plural_count_noun_array : List CStr
  mass_noun_array : List CStr
  adjective_array : List CStr
  intransitive_array : List CStr
  transitive_array : List CStr
  tpspi_intransitive_array : List CStr
  tpspi_transitive_array : List CStr
  past_intransitive_array : List CStr
  past_transitive_array : List CStr
  preposition_array : List CStr

namespace Lexicon

def singular_count_noun_count (L : Lexicon) : Nat := L.singular_count_noun_array.length
def plural_count_noun_count (L : Lexicon) : Nat := L.plural_count_noun_array.length
def mass_noun_count (L : Lexicon) : Nat := L.mass_noun_array.length
def adjective_count (L : Lexicon) : Nat := L.adjective_array.length
def intransitive_count (L : Lexicon) : Nat := L.intransitive_array.length
def transitive_count (L : Lexicon) : Nat := L.transitive_array.length
def tpspi_intransitive_count (L : Lexicon) : Nat := L.tpspi_intransitive_array.length
def tpspi_transitive_count (L : Lexicon) : Nat := L.tpspi_transitive_array.length
def past_intransitive_count (L : Lexicon) : Nat := L.past_intransitive_array.length
def past_transitive_count (L : Lexicon) : Nat := L.past_transitive_array.length
def preposition_count (L : Lexicon) : Nat := L.preposition_array.length

end Lexicon

/-- The `asprintf` calls whose argument list contains two calls of
`randomizer`.  C leaves the order in which the arguments of a call are
evaluated unspecified, so each such call site has its own order. -/
inductive ArgSite where
  /-- in `singular_noun_phrase`: adjective and mass noun (line 166) -/
  | snp_mass
  /-- in `singular_noun_phrase`: adjective and singular count noun (line 215) -/
  | snp_count
  /-- in `plural_noun_phrase`: adjective and plural noun without determiner (line 239) -/
  | pnp_bare
  /-- in `plural_noun_phrase`: the two digits of a numeral determiner (line 287) -/
  | pnp_digits
  /-- in `plural_noun_phrase`: adjective and plural noun after a determiner (line 294) -/
  | pnp_count
  deriving DecidableEq, Repr

/-- What the program takes from the C library and the compiler: the constant
`RAND_MAX`, the values that the successive calls of `rand()` return, and for
each two-draw call site whether the left argument is evaluated first. -/
structure Rand where
  RAND_MAX : Nat
  rand : Nat → Nat
  left_first : ArgSite → Bool

/-- The arithmetic of `randomizer`: `(int) ((r * (double) max) / (double) RAND_MAX)`
for the value `r` returned by `rand()`, as the truncated quotient.  For
`RAND_MAX = 2147483647` and `max` below `2 ^ 22` the product is exact in a
`double` and the rounded quotient has the same integer part as the exact one,
so the truncation is the quotient of the natural numbers. -/
def randomizer_value (RAND_MAX r max : Nat) : Nat := (r * max) / RAND_MAX

/-- The result of the call `randomizer(max)` that makes call number `i` of `rand()`. -/
def randomizer (R : Rand) (max : Nat) (i : Nat) : Nat :=
  randomizer_value R.RAND_MAX (R.rand i) max

/-- Two calls `randomizer(m₁)`, `randomizer(m₂)` written in this order in one
argument list, the first of them using call number `i` or `i + 1` of `rand()`
according to the evaluation order of the site. -/
def two_args (R : Rand) (s : ArgSite) (m₁ m₂ : Nat) (i : Nat) : Nat × Nat :=
  if R.left_first s then (randomizer R m₁ i, randomizer R m₂ (i + 1))
  else (randomizer R m₁ (i + 1), randomizer R m₂ i)

/-- The read `array[k]` of a word array. -/
def array_get (array : List CStr) (k : Nat) : Except Fault CStr :=
  match array[k]? with
  | some w => .ok w
  | none => .error .outOfBounds

/-- The NUL character. -/
def NUL : Char := Char.ofNat 0

/-- The string literal `"23456789"`. -/
def digits : CStr := "23456789".toList

def digit_count : Nat := 8

/-- The read `digits[k]`: the literal occupies nine bytes, the last one NUL. -/
def digits_get (k : Nat) : Except Fault Char :=
  match (digits ++ [NUL])[k]? with
  | some c => .ok c
  | none => .error .outOfBounds

/-- The C string held by a buffer into which `bytes` and a final NUL were written. -/
def cstr (bytes : List Char) : CStr := bytes.takeWhile (fun c => c != NUL)

/-- The use of a variable that a `switch` may have left unassigned. -/
def use {α : Type} : Option α → Except Fault α
  | some a => .ok a
  | none => .error .unassigned

/-- The `switch` of `singular_noun_phrase`: twelve cases and no default. -/
def singular_determiner : Nat → Option CStr
  | 0 => some "the".toList
  | 1 => some "this".toList
  | 2 => some "my".toList
  | 3 => some "your".toList
  | 4 => some "his".toList
  | 5 => some "her".toList
  | 6 => some "its".toList
  | 7 => some "our".toList
  | 8 => some "their".toList
  | 9 => some "that".toList
  | 10 => some "any".toList
  | 11 => some "every".toList
  | _ => none

def singular_noun_phrase (L : Lexicon) (R : Rand) (i : Nat) : Except Fault (CStr × Nat) :=
  if randomizer R 2 i = 0 then
    if randomizer R 4 (i + 1) = 0 then do
      let k := two_args R .snp_mass L.adjective_count L.mass_noun_count (i + 2)
      let adjective ← array_get L.adjective_array k.1
      let noun ← array_get L.mass_noun_array k.2
      pure (adjective ++ " ".toList ++ noun, i + 4)
    else do
      let noun ← array_get L.mass_noun_array (randomizer R L.mass_noun_count (i + 2))
      pure (noun, i + 3)
  else
    let determiner := singular_determiner (randomizer R 12 (i + 1))
    if randomizer R 4 (i + 2) = 0 then do
      let k := two_args R .snp_count L.adjective_count L.singular_count_noun_count (i + 3)
      let det ← use determiner
      let adjective ← array_get L.adjective_array k.1
      let noun ← array_get L.singular_count_noun_array k.2
      pure (det ++ " ".toList ++ adjective ++ " ".toList ++ noun, i + 5)
    else do
      let det ← use determiner
      let noun ← array_get L.singular_count_noun_array
        (randomizer R L.singular_count_noun_count (i + 3))
      pure (det ++ " ".toList ++ noun, i + 4)

/-- The twelve numbered cases of the `switch` of `plural_noun_phrase`; `none`
stands for its `default` case. -/
def plural_determiner : Nat → Option CStr
  | 0 => some "the".toList
  | 1 => some "these".toList
  | 2 => some "my".toList
  | 3 => some "your".toList
  | 4 => some "his".toList
  | 5 => some "her".toList
  | 6 => some "its".toList
  | 7 => some "our".toList
  | 8 => some "their".toList
  | 9 => some "those".toList
  | 10 => some "all".toList
  | 11 => some "some".toList
  | _ => none

/-- The `default` case of the `switch` of `plural_noun_phrase`: a determiner
printed with `"%c%c"` from two characters of `digits`. -/
def numeral_determiner (R : Rand) (i : Nat) : Except Fault (CStr × Nat) := do
  let k := two_args R .pnp_digits digit_count digit_count i
  let c₁ ← digits_get k.1
  let c₂ ← digits_get k.2
  pure (cstr [c₁, c₂], i + 2)

/-- The statements of `plural_noun_phrase` that follow its `switch` (lines
293 to 304): the determiner, an optional adjective and a plural noun. -/
def plural_noun_phrase_rest (L : Lexicon) (R : Rand) (determiner : CStr) (j : Nat) :
    Except Fault (CStr × Nat) :=
  if randomizer R 4 j = 0 then do
    let k := two_args R .pnp_count L.adjective_count L.plural_count_noun_count (j + 1)
    let adjective ← array_get L.adjective_array k.1
    let noun ← array_get L.plural_count_noun_array k.2
    pure (determiner ++ " ".toList ++ adjective ++ " ".toList ++ noun, j + 3)
  else do
    let noun ← array_get L.plural_count_noun_array
      (randomizer R L.plural_count_noun_count (j + 1))
    pure (determiner ++ " ".toList ++ noun, j + 2)

def plural_noun_phrase (L : Lexicon) (R : Rand) (i : Nat) : Except Fault (CStr × Nat) :=
  if randomizer R 4 i = 0 then
    if randomizer R 4 (i + 1) = 0 then do
      let k := two_args R .pnp_bare L.adjective_count L.plural_count_noun_count (i + 2)
      let adjective ← array_get L.adjective_array k.1
      let noun ← array_get L.plural_count_noun_array k.2
      pure (adjective ++ " ".toList ++ noun, i + 4)
    else do
      let noun ← array_get L.plural_count_noun_array
        (randomizer R L.plural_count_noun_count (i + 2))
      pure (noun, i + 3)
  else do
    let (determiner, j) ←
      match plural_determiner (randomizer R 20 (i + 1)) with
      | some d => pure (d, i + 2)
      | none => numeral_determiner R (i + 2)
    plural_noun_phrase_rest L R determiner j

/-- The conditional `randomizer(2) ? singular_noun_phrase() : plural_noun_phrase()`. -/
def noun_phrase (L : Lexicon) (R : Rand) (i : Nat) : Except Fault (CStr × Nat) :=
  if randomizer R 2 i ≠ 0 then singular_noun_phrase L R (i + 1)
  else plural_noun_phrase L R (i + 1)

def prepositional_phrase (L : Lexicon) (R : Rand) (i : Nat) : Except Fault (CStr × Nat) := do
  let (np, j) ← noun_phrase L R i
  let preposition ← array_get L.preposition_array (randomizer R L.preposition_count j)
  pure (preposition ++ " ".toList ++ np, j + 1)

def infinite_verb_phrase (L : Lexicon) (R : Rand) (i : Nat) : Except Fault (CStr × Nat) :=
  if randomizer R 2 i = 0 then do
    let verb ← array_get L.intransitive_array (randomizer R L.intransitive_count (i + 1))
    pure (verb, i + 2)
  else do
    let (np, j) ← noun_phrase L R (i + 1)
    let verb ← array_get L.transitive_array (randomizer R L.transitive_count j)
    pure (verb ++ " ".toList ++ np, j + 1)

def singular_verb_phrase (L : Lexicon) (R : Rand) (i : Nat) : Except Fault (CStr × Nat) :=
  match randomizer R 4 i with
  | 0 => do
    let verb ← array_get L.tpspi_intransitive_array
      (randomizer R L.tpspi_intransitive_count (i + 1))
    pure (verb, i + 2)
  | 1 => do
    let (np, j) ← noun_phrase L R (i + 1)
    let verb ← array_get L.tpspi_transitive_array (randomizer R L.tpspi_transitive_count j)
    pure (verb ++ " ".toList ++ np, j + 1)
  | 2 => do
    let verb ← array_get L.past_intransitive_array
      (randomizer R L.past_intransitive_count (i + 1))
    pure (verb, i + 2)
  | 3 => do
    let (np, j) ← noun_phrase L R (i + 1)
    let verb ← array_get L.past_transitive_array (randomizer R L.past_transitive_count j)
    pure (verb ++ " ".toList ++ np, j + 1)
  | _ => .error .unassigned

def plural_verb_phrase (L : Lexicon) (R : Rand) (i : Nat) : Except Fault (CStr × Nat) :=
  match randomizer R 4 i with
  | 0 => do
    let verb ← array_get L.intransitive_array (randomizer R L.intransitive_count (i + 1))
    pure (verb, i + 2)
  | 1 => do
    let (np, j) ← noun_phrase L R (i + 1)
    let verb ← array_get L.transitive_array (randomizer R L.transitive_count j)
    pure (verb ++ " ".toList ++ np, j + 1)
  | 2 => do
    let verb ← array_get L.past_intransitive_array
      (randomizer R L.past_intransitive_count (i + 1))
    pure (verb, i + 2)
  | 3 => do
    let (np, j) ← noun_phrase L R (i + 1)
    let verb ← array_get L.past_transitive_array (randomizer R L.past_transitive_count j)
    pure (verb ++ " ".toList ++ np, j + 1)
  | _ => .error .unassigned

def assertion (L : Lexicon) (R : Rand) (i : Nat) : Except Fault (CStr × Nat) := do
  let ((np, vp), j) ←
    if randomizer R 2 i = 0 then do
      let (np, j) ← singular_noun_phrase L R (i + 1)
      let (vp, j) ← singular_verb_phrase L R j
      pure ((np, vp), j)
    else do
      let (np, j) ← plural_noun_phrase L R (i + 1)
      let (vp, j) ← plural_verb_phrase L R j
      pure ((np, vp), j)
  pure (np ++ " ".toList ++ vp ++ ".".toList, j)

def question (L : Lexicon) (R : Rand) (i : Nat) : Except Fault (CStr × Nat) := do
  let (vp, j) ← infinite_verb_phrase L R i
  match randomizer R 11 j with
  | 0 => do
    let (np, j) ← noun_phrase L R (j + 1)
    pure ("can ".toList ++ np ++ " ".toList ++ vp ++ "?".toList, j)
  | 1 => do
    let (np, j) ← noun_phrase L R (j + 1)
    pure ("could ".toList ++ np ++ " ".toList ++ vp ++ "?".toList, j)
  | 2 => do
    let (np, j) ← noun_phrase L R (j + 1)
    pure ("did ".toList ++ np ++ " ".toList ++ vp ++ "?".toList, j)
  | 3 => do
    let (np, j) ← plural_noun_phrase L R (j + 1)
    pure ("do ".toList ++ np ++ " ".toList ++ vp ++ "?".toList, j)
  | 4 => do
    let (np, j) ← singular_noun_phrase L R (j + 1)
    pure ("does ".toList ++ np ++ " ".toList ++ vp ++ "?".toList, j)
  | 5 => do
    let (np, j) ← noun_phrase L R (j + 1)
    pure ("may ".toList ++ np ++ " ".toList ++ vp ++ "?".toList, j)
  | 6 => do
    let (np, j) ← noun_phrase L R (j + 1)
    pure ("might ".toList ++ np ++ " ".toList ++ vp ++ "?".toList, j)
  | 7 => do
    let (np, j) ← noun_phrase L R (j + 1)
    pure ("must ".toList ++ np ++ " ".toList ++ vp ++ "?".toList, j)
  | 8 => do
    let (np, j) ← noun_phrase L R (j + 1)
    pure ("should ".toList ++ np ++ " ".toList ++ vp ++ "?".toList, j)
  | 9 => do
    let (np, j) ← noun_phrase L R (j + 1)
    pure ("will ".toList ++ np ++ " ".toList ++ vp ++ "?".toList, j)
  | 10 => do
    let (np, j) ← noun_phrase L R (j + 1)
    pure ("would ".toList ++ np ++ " ".toList ++ vp ++ "?".toList, j)
  | _ => .error .unassigned

def command (L : Lexicon) (R : Rand) (i : Nat) : Except Fault (CStr × Nat) := do
  let (vp, j) ← infinite_verb_phrase L R i
  pure (vp ++ "!".toList, j)

/-- The C library's `toupper` in the "C" locale, which is the locale of a
program that never calls `setlocale`: a lower-case ASCII letter is mapped to
its upper-case letter, 32 code points below, and every other character to
itself. -/
def toupper (c : Char) : Char :=
  if c.isLower then Char.ofNat (c.toNat - 32) else c

/-- The assignment `result[0] = toupper(result[0])`; on an empty string
`result[0]` is the terminating NUL, which `toupper` leaves as it is. -/
def capitalize_first : CStr → CStr
  | [] => []
  | c :: cs => toupper c :: cs

/-- The string that `passphrase` assembles, before its last statement
`result[0] = toupper(result[0])`. -/
def passphrase_assembled (L : Lexicon) (R : Rand) (i : Nat) : Except Fault (CStr × Nat) :=
  if randomizer R 6 i = 0 then do
    let (pp, j) ← prepositional_phrase L R (i + 1)
    let (base, j) ←
      match randomizer R 6 j with
      | 0 | 1 | 2 => assertion L R (j + 1)
      | 3 | 4 => question L R (j + 1)
      | 5 => command L R (j + 1)
      | _ => .error .unassigned
    let separator := if randomizer R 2 j ≠ 0 then ':' else ','
    pure (pp ++ [separator] ++ " ".toList ++ base, j + 1)
  else
    match randomizer R 6 (i + 1) with
    | 0 | 1 | 2 => assertion L R (i + 2)
    | 3 | 4 => question L R (i + 2)
    | 5 => command L R (i + 2)
    | _ => .error .unassigned

def passphrase (L : Lexicon) (R : Rand) (i : Nat) : Except Fault (CStr × Nat) := do
  let (result, j) ← passphrase_assembled L R i
  pure (capitalize_first result, j)

/-- The inner `do ... while (pass_length < 18)` loop of `main`, run for at
most `fuel` calls of `passphrase`; `none` when the fuel does not suffice. -/
def main_do_while (L : Lexicon) (R : Rand) : Nat → Nat → Option (Except Fault (CStr × Nat))
  | 0, _ => none
  | fuel + 1, i =>
    match passphrase L R i with
    | .error f => some (.error f)
    | .ok (pass, j) =>
      if pass.length < 18 then main_do_while L R fuel j else some (.ok (pass, j))

/-! ## Hypotheses on the inputs and concrete inputs -/

/-- Every draw is in range: `rand()` never returns `RAND_MAX` itself, so that
`randomizer(n)` lies in `[0, n)` for every positive `n`. -/
def InRange (R : Rand) : Prop := 0 < R.RAND_MAX ∧ ∀ k, R.rand k < R.RAND_MAX

/-- Every word of the list satisfies `p`. -/
def AllWords (p : CStr → Prop) (L : Lexicon) : Prop :=
  (∀ w ∈ L.singular_count_noun_array, p w) ∧ (∀ w ∈ L.plural_count_noun_array, p w) ∧
  (∀ w ∈ L.mass_noun_array, p w) ∧ (∀ w ∈ L.adjective_array, p w) ∧
  (∀ w ∈ L.intransitive_array, p w) ∧ (∀ w ∈ L.transitive_array, p w) ∧
  (∀ w ∈ L.tpspi_intransitive_array, p w) ∧ (∀ w ∈ L.tpspi_transitive_array, p w) ∧
  (∀ w ∈ L.past_intransitive_array, p w) ∧ (∀ w ∈ L.past_transitive_array, p w) ∧
  (∀ w ∈ L.preposition_array, p w)

/-- A word of lower-case ASCII letters. -/
def LowerWord (w : CStr) : Prop := ∀ c ∈ w, c.isLower = true

/-- Every word of the lexicon consists of lower-case ASCII letters. -/
def LowerWords (L : Lexicon) : Prop := AllWords LowerWord L

/-- Every word of the lexicon is a non-empty string of lower-case ASCII letters. -/
def NonemptyLowerWords (L : Lexicon) : Prop := AllWords (fun w => w ≠ [] ∧ LowerWord w) L

/-- Each of the eleven word categories holds at least one word. -/
def NonemptyCategories (L : Lexicon) : Prop :=
  0 < L.singular_count_noun_count ∧ 0 < L.plural_count_noun_count ∧
  0 < L.mass_noun_count ∧ 0 < L.adjective_count ∧
  0 < L.intransitive_count ∧ 0 < L.transitive_count ∧
  0 < L.tpspi_intransitive_count ∧ 0 < L.tpspi_transitive_count ∧
  0 < L.past_intransitive_count ∧ 0 < L.past_transitive_count ∧
  0 < L.preposition_count

/-- A lexicon with one word in each category. -/
def demoLexicon : Lexicon where
  singular_count_noun_array := ["cat".toList]
  plural_count_noun_array := ["cats".toList]
  mass_noun_array := ["water".toList]
  adjective_array := ["red".toList]
  intransitive_array := ["sleep".toList]
  transitive_array := ["chase".toList]
  tpspi_intransitive_array := ["sleeps".toList]
  tpspi_transitive_array := ["chases".toList]
  past_intransitive_array := ["slept".toList]
  past_transitive_array := ["chased".toList]
  preposition_array := ["under".toList]

/-- The value of `RAND_MAX` in the GNU C library. -/
def glibc_RAND_MAX : Nat := 2147483647

/-- The least value of `rand()` for which `randomizer(n)` is `k`. -/
def raw (n k : Nat) : Nat := (k * glibc_RAND_MAX + n - 1) / n

/-- A generator that returns the listed values and then zeros, with the
arguments of every call evaluated from left to right when `ltr` holds and from
right to left otherwise. -/
def listRand (ltr : Bool) (rs : List Nat) : Rand where
  RAND_MAX := glibc_RAND_MAX
  rand := fun k => rs.getD k 0
  left_first := fun _ => ltr

/-- Draws that make `passphrase` build "The cat sleeps." from `demoLexicon`:
no prefix, an assertion, singular, determiner 0 without adjective, verb case 0. -/
def catRand : Rand :=
  listRand true [raw 6 1, raw 6 0, raw 2 0, raw 2 1, raw 12 0, raw 4 1, 0, raw 4 0, 0]

/-- Draws that make `passphrase` build "23 cats sleep." from `demoLexicon`:
no prefix, an assertion, plural, determiner draw 12 with digits 0 and 1, no
adjective, verb case 0. -/
def numeralRand : Rand :=
  listRand true [raw 6 1, raw 6 0, raw 2 1, raw 4 1, raw 20 12, raw 8 0, raw 8 1, raw 4 1, 0,
    raw 4 0, 0]

/-- A character that phrases are made of: a lower-case ASCII letter, a space
or one of the characters of `digits`. -/
def Plain (c : Char) : Prop := c.isLower = true ∨ c = ' ' ∨ c ∈ digits

/-- A string of `Plain` characters. -/
def PlainStr (s : CStr) : Prop := ∀ c ∈ s, Plain c

/-- The string ends with the character `t` and holds `t` exactly once. -/
def EndsWithOnly (t : Char) (s : CStr) : Prop := s.getLast? = some t ∧ s.count t = 1

/-- A lexicon that holds only the three words of the concrete scenarios; its
other categories are empty. -/
def scenarioLexicon : Lexicon where
  singular_count_noun_array := ["cat".toList]
  plural_count_noun_array := []
  mass_noun_array := []
  adjective_array := ["red".toList]
  intransitive_array := []
  transitive_array := []
  tpspi_intransitive_array := ["sleeps".toList]
  tpspi_transitive_array := []
  past_intransitive_array := []
  past_transitive_array := []
  preposition_array := []

/-- Draws that make `singular_noun_phrase` take its determiner branch with
determiner 0 and an adjective; arguments are evaluated from right to left. -/
def redCatRand : Rand := listRand false [raw 2 1, raw 12 0, raw 4 0, 0, 0]

/-- The twelve singular determiners, in the order of the specification. -/
def singular_determiners : List CStr :=
  ["the".toList, "this".toList, "my".toList, "your".toList, "his".toList, "her".toList,
   "its".toList, "our".toList, "their".toList, "that".toList, "any".toList, "every".toList]

/-- The twelve plural determiners that are words, in the order of the specification. -/
def plural_determiners : List CStr :=
  ["the".toList, "these".toList, "my".toList, "your".toList, "his".toList, "her".toList,
   "its".toList, "our".toList, "their".toList, "those".toList, "all".toList, "some".toList]

/-- The three kinds of base sentence. -/
inductive Sentence where
  | assertion
  | question
  | command
  deriving DecidableEq, Repr

/-- The generating function of each kind of sentence. -/
def Sentence.build (L : Lexicon) (R : Rand) : Sentence → Nat → Except Fault (CStr × Nat)
  | .assertion => Passphrase.assertion L R
  | .question => Passphrase.question L R
  | .command => Passphrase.command L R

/-- The base sentence selection of the specification: of the six outcomes
`k` of the draw, 0, 1, 2 give an assertion, 3 and 4 a question, 5 a command. -/
def base_kind (k : Nat) : Option Sentence :=
  if k < 3 then some .assertion
  else if k < 5 then some .question
  else if k = 5 then some .command
  else none

/-- The base sentence for outcome `k`, generated from call number `i` of
`rand()` on; no sentence is assigned for an outcome outside `0 .. 5`. -/
def base_sentence (L : Lexicon) (R : Rand) (k i : Nat) : Except Fault (CStr × Nat) :=
  match base_kind k with
  | some t => t.build L R i
  | none => .error .unassigned

/-- The separator after the prefix: `(randomizer(2) ? ':' : ',')`. -/
def separator (R : Rand) (i : Nat) : Char := if randomizer R 2 i ≠ 0 then ':' else ','

/-- The prefixed form of the specification: a prepositional phrase, the base
sentence selected by the next draw, then the separator draw, joined as
`<pp><separator> <base>`. -/
def prefixed_sentence (L : Lexicon) (R : Rand) (i : Nat) : Except Fault (CStr × Nat) :=
  match prepositional_phrase L R i with
  | .error f => .error f
  | .ok (pp, j) =>
    match base_sentence L R (randomizer R 6 j) (j + 1) with
    | .error f => .error f
    | .ok (base, m) => .ok (pp ++ [separator R m] ++ " ".toList ++ base, m + 1)

/-- Draws that are all 0 except the separator draw of the first passphrase,
which is 1: `passphrase` builds "Under red cats: red water sleeps." from
`demoLexicon`. -/
def colonRand : Rand :=
  listRand true [0, 0, 0, 0, 0, 0, 0, 0, 0, 0, 0, 0, 0, 0, 0, raw 2 1]

/-- The string is not empty and its first character satisfies `p`. -/
def Starts (p : Char → Prop) (s : CStr) : Prop := ∃ c cs, s = c :: cs ∧ p c

/-- A lower-case ASCII letter or one of the characters of `digits`. -/
def LowerOrDigit (c : Char) : Prop := c.isLower = true ∨ c ∈ digits

/-- An upper-case ASCII letter or one of the characters of `digits`. -/
def UpperOrDigit (c : Char) : Prop := c.isUpper = true ∨ c ∈ digits

/-- An upper-case ASCII letter. -/
def UpperLetter (c : Char) : Prop := c.isUpper = true

/-- The eleven auxiliaries of the specification, in the order of its list of
question forms. -/
def auxiliaries : List CStr :=
  ["can".toList, "could".toList, "did".toList, "do".toList, "does".toList, "may".toList,
   "might".toList, "must".toList, "should".toList, "will".toList, "would".toList]

/-- The subject of a question in the specification: a plural noun phrase after
"do", a singular one after "does", an unconstrained one after every other
auxiliary. -/
def question_subject (L : Lexicon) (R : Rand) (aux : CStr) (i : Nat) :
    Except Fault (CStr × Nat) :=
  if aux = "do".toList then plural_noun_phrase L R i
  else if aux = "does".toList then singular_noun_phrase L R i
  else noun_phrase L R i

/-- The question forms of the specification: the verb phrase is built first,
then the auxiliary is drawn, then the subject is built, and the three are
joined as `<aux> <np> <vp>?`. -/
def question_form (L : Lexicon) (R : Rand) (i : Nat) : Except Fault (CStr × Nat) :=
  match infinite_verb_phrase L R i with
  | .error f => .error f
  | .ok (vp, j) =>
    match auxiliaries[randomizer R 11 j]? with
    | none => .error .unassigned
    | some aux =>
      match question_subject L R aux (j + 1) with
      | .error f => .error f
      | .ok (np, n) => .ok (aux ++ " ".toList ++ np ++ " ".toList ++ vp ++ "?".toList, n)

/-- The two generators have the same `RAND_MAX` and evaluation orders and
return the same values in the calls number `i` to `j - 1` of `rand()`. -/
def AgreeOn (R R' : Rand) (i j : Nat) : Prop :=
  R.RAND_MAX = R'.RAND_MAX ∧ R.left_first = R'.left_first ∧
  ∀ k, i ≤ k → k < j → R.rand k = R'.rand k

/-- Draws that agree with `catRand` up to call 10 and then select auxiliary 8
in the call number 11. -/
def shouldRand : Rand :=
  listRand true [raw 6 1, raw 6 0, raw 2 0, raw 2 1, raw 12 0, raw 4 1, 0, raw 4 0, 0, 0, 0,
    raw 11 8]

/-- The C library's `isspace` in the "C" locale: space, form feed, newline,
carriage return, horizontal tab and vertical tab. -/
def isspace (c : Char) : Prop :=
  c = ' ' ∨ c = Char.ofNat 12 ∨ c = Char.ofNat 10 ∨ c = Char.ofNat 13 ∨ c = Char.ofNat 9 ∨
    c = Char.ofNat 11

/-- The string is not empty and its last character satisfies `p`. -/
def Ends (p : Char → Prop) (s : CStr) : Prop := ∃ cs c, s = cs ++ [c] ∧ p c

/-- The string is not empty and neither its first nor its last character is a
whitespace character. -/
def NoStrayWhitespace (s : CStr) : Prop :=
  Starts (fun c => ¬ isspace c) s ∧ Ends (fun c => ¬ isspace c) s

/-- The outcomes that the specification distinguishes for a phrase-building
operation: a phrase, the error `LexiconExhausted`, and, for the program,
undefined behaviour. -/
inductive Outcome where
  | phrase (s : CStr)
  | lexiconExhausted
  | undefined (f : Fault)
  deriving DecidableEq, Repr

/-- The outcome of a call of a generating function of the program, which has
no error value of its own: it returns a string or runs into undefined
behaviour. -/
def outcome : Except Fault (CStr × Nat) → Outcome
  | .ok (s, _) => .phrase s
  | .error f => .undefined f

/-- The call runs into undefined behaviour and returns no string. -/
def Undefined (r : Except Fault (CStr × Nat)) : Prop := ∃ f, r = .error f

/-- The lexicon `demoLexicon` without its mass nouns. -/
def noMassLexicon : Lexicon where
  singular_count_noun_array := ["cat".toList]
  plural_count_noun_array := ["cats".toList]
  mass_noun_array := []
  adjective_array := ["red".toList]
  intransitive_array := ["sleep".toList]
  transitive_array := ["chase".toList]
  tpspi_intransitive_array := ["sleeps".toList]
  tpspi_transitive_array := ["chases".toList]
  past_intransitive_array := ["slept".toList]
  past_transitive_array := ["chased".toList]
  preposition_array := ["under".toList]

/-- Draws that are all 0. -/
def zeroRand : Rand := listRand true []

/-- The lexicon with its two reference-form verb lists replaced. -/
def replace_reference_verbs (L : Lexicon) (intransitive transitive : List CStr) : Lexicon where
  singular_count_noun_array := L.singular_count_noun_array
  plural_count_noun_array := L.plural_count_noun_array
  mass_noun_array := L.mass_noun_array
  adjective_array := L.adjective_array
  intransitive_array := intransitive
  transitive_array := transitive
  tpspi_intransitive_array := L.tpspi_intransitive_array
  tpspi_transitive_array := L.tpspi_transitive_array
  past_intransitive_array := L.past_intransitive_array
  past_transitive_array := L.past_transitive_array
  preposition_array := L.preposition_array

/-- The lexicon with its two TPSPI verb lists replaced. -/
def replace_tpspi_verbs (L : Lexicon) (intransitive transitive : List CStr) : Lexicon where
  singular_count_noun_array := L.singular_count_noun_array
  plural_count_noun_array := L.plural_count_noun_array
  mass_noun_array := L.mass_noun_array
  adjective_array := L.adjective_array
  intransitive_array := L.intransitive_array
  transitive_array := L.transitive_array
  tpspi_intransitive_array := intransitive
  tpspi_transitive_array := transitive
  past_intransitive_array := L.past_intransitive_array
  past_transitive_array := L.past_transitive_array
  preposition_array := L.preposition_array

/-- The two lexicons have the same nouns and adjectives. -/
def SameNouns (L L' : Lexicon) : Prop :=
  L'.singular_count_noun_array = L.singular_count_noun_array ∧
  L'.plural_count_noun_array = L.plural_count_noun_array ∧
  L'.mass_noun_array = L.mass_noun_array ∧ L'.adjective_array = L.adjective_array

/-- Draws that make `singular_verb_phrase` and `plural_verb_phrase` take
case 3 and then build the noun phrase "water". -/
def pastRand : Rand := listRand true [raw 4 3, raw 2 1, 0, raw 4 1, 0, 0]

/-- Draws that make `passphrase` build the question
"Should every <noun> <verb> every <noun>?" from the first singular count noun
and the first transitive verb of any lexicon: no prefix, a question, a
transitive verb phrase, auxiliary 8, and twice a singular noun phrase with
determiner 11 and no adjective. -/
def shouldEveryRand : Rand :=
  listRand true [raw 6 1, raw 6 3, raw 2 1, raw 2 1, raw 2 1, raw 12 11, raw 4 1, 0, 0,
    raw 11 8, raw 2 1, raw 2 1, raw 12 11, raw 4 1, 0]

/-- A generator that returns the same value in every call: the least value
for which `randomizer(6)` is 5. -/
def commandRand : Rand where
  RAND_MAX := glibc_RAND_MAX
  rand := fun _ => raw 6 5
  left_first := fun _ => true

/-- The largest value of an `int` of 32 bits. -/
def INT_MAX : Int := 2147483647

/-- The largest value of a `long` of 64 bits. -/
def LONG_MAX : Int := 9223372036854775807

/-- The least value of a `long` of 64 bits. -/
def LONG_MIN : Int := -9223372036854775808

/-- A decision procedure for `isspace`. -/
instance isspace_decidable : DecidablePred isspace := fun c => by
  unfold isspace
  infer_instance

/-- The string without its leading whitespace characters. -/
def skip_space : List Char → List Char
  | [] => []
  | c :: cs => if isspace c then skip_space cs else c :: cs

/-- The value of the longest prefix of decimal digits, continued from `acc`;
it is `acc` when the string does not start with a digit. -/
def leading_number : List Char → Nat → Nat
  | [], acc => acc
  | c :: cs, acc => if c.isDigit then leading_number cs (acc * 10 + (c.toNat - 48)) else acc

/-- The C library's `strtol(s, NULL, 10)` for a `long` of 64 bits: leading
whitespace is skipped, an optional sign is read, then the longest run of
decimal digits; what follows is ignored, the value is 0 when there is no digit,
and a value outside the range of `long` is replaced by `LONG_MAX` or
`LONG_MIN`. -/
def strtol (s : CStr) : Int :=
  match skip_space s with
  | '-' :: cs => max LONG_MIN (-(leading_number cs 0 : Int))
  | '+' :: cs => min LONG_MAX (leading_number cs 0 : Int)
  | cs => min LONG_MAX (leading_number cs 0 : Int)

/-- The conversion `(int)` of a `long`: the value itself when it is in the
range of `int`, and otherwise, as GCC defines it, the value reduced modulo
`2 ^ 32` into that range. -/
def to_int (v : Int) : Int := (v + 2147483648) % 4294967296 - 2147483648

/-- The value of `number_of_passwords` that `main` computes from its
arguments; `argc` is the length of `argv`. -/
def number_of_passwords (argv : List CStr) : Nat :=
  if argv.length ≤ 1 then 1
  else
    let request := to_int (strtol (argv.getD 1 []))
    if 0 < request then request.toNat else 1

/-- The loop `while (counter++ < number_of_passwords)` of `main`, which prints
one passphrase and a newline in each iteration; the result holds the strings
printed, in order.  `inner` bounds the iterations of each retry loop and
`steps` the number of evaluations of the loop condition; `none` when one of
the two does not suffice.  The increment of `counter` beyond `INT_MAX` is
undefined. -/
def main_while (L : Lexicon) (R : Rand) (number_of_passwords inner : Nat) :
    Nat → Nat → Nat → Option (Except Fault (List CStr × Nat))
  | 0, _, _ => none
  | steps + 1, counter, i =>
    if INT_MAX ≤ (counter : Int) then some (.error .signedOverflow)
    else if counter < number_of_passwords then
      match main_do_while L R inner i with
      | none => none
      | some (.error f) => some (.error f)
      | some (.ok (pass, j)) =>
        match main_while L R number_of_passwords inner steps (counter + 1) j with
        | none => none
        | some (.error f) => some (.error f)
        | some (.ok (out, k)) => some (.ok ((pass ++ "\n".toList) :: out, k))
    else some (.ok ([], i))

/-- The output of the specification: `n` passphrases, each followed by a
newline, in generation order. -/
def passphrase_lines (L : Lexicon) (R : Rand) (inner : Nat) :
    Nat → Nat → Option (Except Fault (List CStr × Nat))
  | 0, i => some (.ok ([], i))
  | n + 1, i =>
    match main_do_while L R inner i with
    | none => none
    | some (.error f) => some (.error f)
    | some (.ok (pass, j)) =>
      match passphrase_lines L R inner n j with
      | none => none
      | some (.error f) => some (.error f)
      | some (.ok (out, k)) => some (.ok ((pass ++ "\n".toList) :: out, k))

/-- The value of a string of decimal digits. -/
def decimal_value (s : List Char) : Nat := s.foldl (fun acc c => acc * 10 + (c.toNat - 48)) 0

/-- The constant `MAXWORD`. -/
def MAXWORD : Nat := 70

/-- The loop of `read_word`: `source` is what is left of the file, `word` the
static buffer of `MAXWORD + 1` characters, `position` the index of the next
character to store.  The result is the buffer, the position and the rest of
the file after the newline; it is `none` when the file ends before a newline,
where `getc` returns `EOF` for ever and the loop does not end. -/
def read_word_loop : List Char → List Char → Nat → Option (List Char × Nat × List Char)
  | [], _, _ => none
  | ch :: source, word, position =>
    if ch = '\n' then some (word, position, source)
    else if position ≤ MAXWORD then read_word_loop source (word.set position ch) (position + 1)
    else read_word_loop source word position

/-- The function `read_word`: after the loop, `word[position] = 0` is a write
outside the buffer when `position` exceeds `MAXWORD`; the result is the copy
that `asprintf` makes of the string in the buffer.  The function returns the
copy, the buffer, which is static, and the rest of the file. -/
def read_word (source word : List Char) : Option (Except Fault (CStr × List Char × List Char)) :=
  match read_word_loop source word 0 with
  | none => none
  | some (word, position, source) =>
    if position ≤ MAXWORD then
      some (.ok (cstr (word.set position NUL), word.set position NUL, source))
    else some (.error .outOfBounds)

/-- The first loop of `dyna_alloc`: while the file has a character left, a
word is read and put in front of the linked list, and the `unsigned int`
`word_count` is incremented.  Every iteration takes at least one character, so
`fuel` need not exceed the length of the file. -/
def dyna_alloc_loop : Nat → List Char → List Char → List CStr → Nat →
    Option (Except Fault (List CStr × Nat × List Char))
  | _, [], word, list, word_count => some (.ok (list, word_count, word))
  | 0, _ :: _, _, _, _ => none
  | fuel + 1, ch :: source, word, list, word_count =>
    match read_word (ch :: source) word with
    | none => none
    | some (.error f) => some (.error f)
    | some (.ok (new_word, word, source)) =>
      dyna_alloc_loop fuel source word (new_word :: list) ((word_count + 1) % 2 ^ 32)

/-- The second loop of `dyna_alloc`: the words of the linked list are stored
at `position`, `position - 1`, ... of the array, `position` being an
`unsigned int`; a store at an index that is not below the size of the array
is out of bounds. -/
def dyna_alloc_fill : List CStr → List (Option CStr) → Nat → Except Fault (List (Option CStr))
  | [], result, _ => .ok result
  | w :: list, result, position =>
    if position < result.length then
      dyna_alloc_fill list (result.set position (some w)) ((position + 2 ^ 32 - 1) % 2 ^ 32)
    else .error .outOfBounds

/-- The function `dyna_alloc` on a file that `fopen` has opened, given with
its content: the number of words and the array, whose entries are `none`
where `calloc` has left a null pointer, together with the static buffer of
`read_word`. -/
def dyna_alloc (source word : List Char) :
    Option (Except Fault (Nat × List (Option CStr) × List Char)) :=
  match dyna_alloc_loop source.length source word [] 0 with
  | none => none
  | some (.error f) => some (.error f)
  | some (.ok (list, word_count, word)) =>
    match dyna_alloc_fill list (List.replicate word_count none)
        ((word_count + 2 ^ 32 - 1) % 2 ^ 32) with
    | .error f => some (.error f)
    | .ok result => some (.ok (word_count, result, word))

/-- The word file that holds the given words, each followed by a newline. -/
def word_file : List CStr → List Char
  | [] => []
  | w :: ws => w ++ '\n' :: word_file ws

/-- A word that a word file can hold as a line and `read_word` can return: at
most `MAXWORD` characters, none of them a newline or NUL. -/
def FileWord (w : CStr) : Prop := w.length ≤ MAXWORD ∧ '\n' ∉ w ∧ NUL ∉ w

/-- The static buffer of `read_word` when the program starts. -/
def initial_word : List Char := List.replicate (MAXWORD + 1) NUL

/-- A line of `MAXWORD + 1` letters, one more than a word may have. -/
def long_line : List Char := List.replicate (MAXWORD + 1) 'a'

/-- A line of `MAXWORD` letters, the longest word allowed. -/
def full_line : List Char := List.replicate MAXWORD 'a'

/-! ## Basic facts -/

theorem randomizer_lt {R : Rand} (h : InRange R) {n : Nat} (i : Nat) (hn : 0 < n) :
    randomizer R n i < n := by
  unfold randomizer randomizer_value
  rw [Nat.div_lt_iff_lt_mul h.1]
  have := h.2 i
  rw [Nat.mul_comm]
  exact Nat.mul_lt_mul_of_pos_left this hn

theorem randomizer_le {R : Rand} (h : InRange R) (n i : Nat) : randomizer R n i ≤ n := by
  rcases Nat.eq_zero_or_pos n with rfl | hn
  · simp [randomizer, randomizer_value]
  · exact (randomizer_lt h i hn).le

theorem array_get_eq_ok {a : List CStr} {k : Nat} {w : CStr} :
    array_get a k = .ok w ↔ a[k]? = some w := by
  unfold array_get
  cases h : a[k]? <;> simp

theorem array_get_mem {a : List CStr} {k : Nat} {w : CStr} (h : array_get a k = .ok w) :
    w ∈ a :=
  List.getElem?_mem (array_get_eq_ok.1 h)

theorem array_get_of_lt {a : List CStr} {k : Nat} (h : k < a.length) :
    ∃ w, array_get a k = .ok w :=
  ⟨a[k], array_get_eq_ok.2 (List.getElem?_eq_getElem h)⟩

theorem listRand_inRange (ltr : Bool) (rs : List Nat) (h : ∀ r ∈ rs, r < glibc_RAND_MAX) :
    InRange (listRand ltr rs) := by
  refine ⟨(by decide : 0 < glibc_RAND_MAX), fun k => ?_⟩
  show rs.getD k 0 < glibc_RAND_MAX
  rw [List.getD_eq_getElem?_getD]
  cases hk : rs[k]? with
  | none => decide
  | some r => exact h r (List.getElem?_mem hk)

theorem demoLexicon_words : NonemptyLowerWords demoLexicon := by
  simp only [NonemptyLowerWords, AllWords, LowerWord, demoLexicon]
  decide

theorem demoLexicon_categories : NonemptyCategories demoLexicon := by
  simp only [NonemptyCategories]
  decide

theorem catRand_inRange : InRange catRand :=
  listRand_inRange _ _ (by decide)

theorem numeralRand_inRange : InRange numeralRand :=
  listRand_inRange _ _ (by decide)

theorem AllWords.imp {p q : CStr → Prop} {L : Lexicon} (h : AllWords p L)
    (hpq : ∀ w, p w → q w) : AllWords q L := by
  obtain ⟨h1, h2, h3, h4, h5, h6, h7, h8, h9, h10, h11⟩ := h
  exact ⟨fun w hw => hpq w (h1 w hw), fun w hw => hpq w (h2 w hw), fun w hw => hpq w (h3 w hw),
    fun w hw => hpq w (h4 w hw), fun w hw => hpq w (h5 w hw), fun w hw => hpq w (h6 w hw),
    fun w hw => hpq w (h7 w hw), fun w hw => hpq w (h8 w hw), fun w hw => hpq w (h9 w hw),
    fun w hw => hpq w (h10 w hw), fun w hw => hpq w (h11 w hw)⟩

theorem NonemptyLowerWords.lowerWords {L : Lexicon} (h : NonemptyLowerWords L) :
    LowerWords L :=
  AllWords.imp h (fun _ hw => hw.2)

theorem redCatRand_inRange : InRange redCatRand :=
  listRand_inRange _ _ (by decide)

theorem singular_determiner_eq (d : Nat) :
    singular_determiner d = singular_determiners[d]? := by
  unfold singular_determiner
  split <;> try rfl
  rename_i h0 h1 h2 h3 h4 h5 h6 h7 h8 h9 h10 h11
  have : 12 ≤ d := by
    by_contra hlt
    push_neg at hlt
    interval_cases d <;> simp_all
  exact (List.getElem?_eq_none (by simpa [singular_determiners] using this)).symm

theorem plural_determiner_eq (d : Nat) :
    plural_determiner d = plural_determiners[d]? := by
  unfold plural_determiner
  split <;> try rfl
  rename_i h0 h1 h2 h3 h4 h5 h6 h7 h8 h9 h10 h11
  have : 12 ≤ d := by
    by_contra hlt
    push_neg at hlt
    interval_cases d <;> simp_all
  exact (List.getElem?_eq_none (by simpa [plural_determiners] using this)).symm

theorem colonRand_inRange : InRange colonRand :=
  listRand_inRange _ _ (by decide)

theorem bind_eq_ok {α β : Type} {x : Except Fault α} {f : α → Except Fault β} {b : β} :
    (x >>= f) = .ok b ↔ ∃ a, x = .ok a ∧ f a = .ok b := by
  cases x <;> simp [bind, Except.bind]

theorem pure_eq_ok {α : Type} {a b : α} : (pure a : Except Fault α) = .ok b ↔ a = b := by
  simp [pure, Except.pure]

theorem use_eq_ok {α : Type} {o : Option α} {a : α} : use o = .ok a ↔ o = some a := by
  cases o <;> simp [use]

theorem two_args_lt {R : Rand} (h : InRange R) (s : ArgSite) {m₁ m₂ : Nat} (i : Nat)
    (h1 : 0 < m₁) (h2 : 0 < m₂) :
    (two_args R s m₁ m₂ i).1 < m₁ ∧ (two_args R s m₁ m₂ i).2 < m₂ := by
  unfold two_args
  split <;> exact ⟨randomizer_lt h _ h1, randomizer_lt h _ h2⟩

theorem singular_determiner_of_lt {d : Nat} (h : d < 12) :
    ∃ det, singular_determiner d = some det := by
  interval_cases d <;> exact ⟨_, rfl⟩

theorem digits_get_of_lt {k : Nat} (h : k < 8) : ∃ c, digits_get k = .ok c ∧ c ∈ digits := by
  interval_cases k <;> exact ⟨_, rfl, by decide⟩

theorem digits_get_mem {k : Nat} {c : Char} (h : digits_get k = .ok c) :
    c ∈ digits ∨ c = NUL := by
  unfold digits_get at h
  split at h
  · rename_i w hw
    simp only [Except.ok.injEq] at h
    subst h
    simpa using List.getElem?_mem hw
  · simp at h

theorem cstr_digits {c₁ c₂ : Char} (h1 : c₁ ∈ digits) (h2 : c₂ ∈ digits) :
    cstr [c₁, c₂] = [c₁, c₂] := by
  have hne : ∀ c ∈ digits, (c != NUL) = true := by decide
  simp [cstr, List.takeWhile, hne c₁ h1, hne c₂ h2]

theorem mem_cstr {bytes : List Char} {c : Char} (h : c ∈ cstr bytes) : c ∈ bytes ∧ c ≠ NUL := by
  refine ⟨List.takeWhile_subset _ h, ?_⟩
  simpa using List.mem_takeWhile_imp h

/-! ## Under in-range draws on non-empty categories no fault occurs -/

theorem numeral_determiner_ok {R : Rand} (hR : InRange R) (i : Nat) :
    ∃ c₁ c₂, c₁ ∈ digits ∧ c₂ ∈ digits ∧ numeral_determiner R i = .ok ([c₁, c₂], i + 2) := by
  have h := two_args_lt hR .pnp_digits i (by decide : 0 < digit_count)
    (by decide : 0 < digit_count)
  obtain ⟨c₁, e1, m1⟩ := digits_get_of_lt h.1
  obtain ⟨c₂, e2, m2⟩ := digits_get_of_lt h.2
  refine ⟨c₁, c₂, m1, m2, ?_⟩
  simp [numeral_determiner, bind, Except.bind, pure, Except.pure, e1, e2, cstr_digits m1 m2]

theorem singular_noun_phrase_ok {L : Lexicon} {R : Rand} (hR : InRange R)
    (hL : NonemptyCategories L) (i : Nat) : ∃ s j, singular_noun_phrase L R i = .ok (s, j) := by
  obtain ⟨h1, h2, h3, h4, h5, h6, h7, h8, h9, h10, h11⟩ := hL
  obtain ⟨det, hdet⟩ :=
    singular_determiner_of_lt (randomizer_lt hR (i + 1) (by norm_num : 0 < 12))
  have hm := two_args_lt hR .snp_mass (i + 2) h4 h3
  have hc := two_args_lt hR .snp_count (i + 3) h4 h1
  obtain ⟨a1, ha1⟩ := array_get_of_lt hm.1
  obtain ⟨n1, hn1⟩ := array_get_of_lt hm.2
  obtain ⟨a2, ha2⟩ := array_get_of_lt hc.1
  obtain ⟨n2, hn2⟩ := array_get_of_lt hc.2
  obtain ⟨n3, hn3⟩ := array_get_of_lt (randomizer_lt hR (i + 2) h3)
  obtain ⟨n4, hn4⟩ := array_get_of_lt (randomizer_lt hR (i + 3) h1)
  unfold singular_noun_phrase
  simp only [Lexicon.adjective_count, Lexicon.mass_noun_count,
    Lexicon.singular_count_noun_count] at *
  split_ifs <;> simp [bind, Except.bind, pure, Except.pure, use, *]

theorem plural_noun_phrase_rest_ok {L : Lexicon} {R : Rand} (hR : InRange R)
    (hL : NonemptyCategories L) (det : CStr) (j : Nat) :
    ∃ s k, plural_noun_phrase_rest L R det j = .ok (s, k) := by
  obtain ⟨h1, h2, h3, h4, h5, h6, h7, h8, h9, h10, h11⟩ := hL
  have hc := two_args_lt hR .pnp_count (j + 1) h4 h2
  obtain ⟨a2, ha2⟩ := array_get_of_lt hc.1
  obtain ⟨n2, hn2⟩ := array_get_of_lt hc.2
  obtain ⟨n4, hn4⟩ := array_get_of_lt (randomizer_lt hR (j + 1) h2)
  unfold plural_noun_phrase_rest
  simp only [Lexicon.adjective_count, Lexicon.plural_count_noun_count] at *
  split_ifs <;> simp [bind, Except.bind, pure, Except.pure, *]

theorem plural_noun_phrase_ok {L : Lexicon} {R : Rand} (hR : InRange R)
    (hL : NonemptyCategories L) (i : Nat) : ∃ s j, plural_noun_phrase L R i = .ok (s, j) := by
  have hrest := fun det j => plural_noun_phrase_rest_ok hR hL det j
  obtain ⟨h1, h2, h3, h4, h5, h6, h7, h8, h9, h10, h11⟩ := hL
  have hm := two_args_lt hR .pnp_bare (i + 2) h4 h2
  obtain ⟨a1, ha1⟩ := array_get_of_lt hm.1
  obtain ⟨n1, hn1⟩ := array_get_of_lt hm.2
  obtain ⟨n3, hn3⟩ := array_get_of_lt (randomizer_lt hR (i + 2) h2)
  obtain ⟨c₁, c₂, -, -, hnum⟩ := numeral_determiner_ok hR (i + 2)
  unfold plural_noun_phrase
  simp only [Lexicon.adjective_count, Lexicon.plural_count_noun_count] at *
  split_ifs
  · simp [bind, Except.bind, pure, Except.pure, *]
  · simp [bind, Except.bind, pure, Except.pure, *]
  · split
    · simpa [bind, Except.bind, pure, Except.pure] using hrest _ _
    · simpa [bind, Except.bind, pure, Except.pure, hnum] using hrest _ _

theorem noun_phrase_ok {L : Lexicon} {R : Rand} (hR : InRange R)
    (hL : NonemptyCategories L) (i : Nat) : ∃ s j, noun_phrase L R i = .ok (s, j) := by
  unfold noun_phrase
  split_ifs
  · exact singular_noun_phrase_ok hR hL _
  · exact plural_noun_phrase_ok hR hL _

theorem prepositional_phrase_ok {L : Lexicon} {R : Rand} (hR : InRange R)
    (hL : NonemptyCategories L) (i : Nat) :
    ∃ s j, prepositional_phrase L R i = .ok (s, j) := by
  obtain ⟨np, j, hnp⟩ := noun_phrase_ok hR hL i
  obtain ⟨w, hw⟩ := array_get_of_lt (randomizer_lt hR j hL.2.2.2.2.2.2.2.2.2.2)
  simp [prepositional_phrase, bind, Except.bind, pure, Except.pure, hnp,
    Lexicon.preposition_count, hw]

theorem infinite_verb_phrase_ok {L : Lexicon} {R : Rand} (hR : InRange R)
    (hL : NonemptyCategories L) (i : Nat) :
    ∃ s j, infinite_verb_phrase L R i = .ok (s, j) := by
  obtain ⟨np, j, hnp⟩ := noun_phrase_ok hR hL (i + 1)
  obtain ⟨h1, h2, h3, h4, h5, h6, h7, h8, h9, h10, h11⟩ := hL
  obtain ⟨w, hw⟩ := array_get_of_lt (randomizer_lt hR (i + 1) h5)
  obtain ⟨v, hv⟩ := array_get_of_lt (randomizer_lt hR j h6)
  unfold infinite_verb_phrase
  simp only [Lexicon.intransitive_count, Lexicon.transitive_count] at *
  split_ifs <;> simp [bind, Except.bind, pure, Except.pure, *]

theorem singular_verb_phrase_ok {L : Lexicon} {R : Rand} (hR : InRange R)
    (hL : NonemptyCategories L) (i : Nat) :
    ∃ s j, singular_verb_phrase L R i = .ok (s, j) := by
  obtain ⟨np, j, hnp⟩ := noun_phrase_ok hR hL (i + 1)
  obtain ⟨h1, h2, h3, h4, h5, h6, h7, h8, h9, h10, h11⟩ := hL
  obtain ⟨w0, hw0⟩ := array_get_of_lt (randomizer_lt hR (i + 1) h7)
  obtain ⟨w1, hw1⟩ := array_get_of_lt (randomizer_lt hR j h8)
  obtain ⟨w2, hw2⟩ := array_get_of_lt (randomizer_lt hR (i + 1) h9)
  obtain ⟨w3, hw3⟩ := array_get_of_lt (randomizer_lt hR j h10)
  have hk := randomizer_lt hR i (by norm_num : 0 < 4)
  unfold singular_verb_phrase
  simp only [Lexicon.tpspi_intransitive_count, Lexicon.tpspi_transitive_count,
    Lexicon.past_intransitive_count, Lexicon.past_transitive_count] at *
  generalize randomizer R 4 i = k at hk
  interval_cases k <;> simp [bind, Except.bind, pure, Except.pure, *]

theorem plural_verb_phrase_ok {L : Lexicon} {R : Rand} (hR : InRange R)
    (hL : NonemptyCategories L) (i : Nat) :
    ∃ s j, plural_verb_phrase L R i = .ok (s, j) := by
  obtain ⟨np, j, hnp⟩ := noun_phrase_ok hR hL (i + 1)
  obtain ⟨h1, h2, h3, h4, h5, h6, h7, h8, h9, h10, h11⟩ := hL
  obtain ⟨w0, hw0⟩ := array_get_of_lt (randomizer_lt hR (i + 1) h5)
  obtain ⟨w1, hw1⟩ := array_get_of_lt (randomizer_lt hR j h6)
  obtain ⟨w2, hw2⟩ := array_get_of_lt (randomizer_lt hR (i + 1) h9)
  obtain ⟨w3, hw3⟩ := array_get_of_lt (randomizer_lt hR j h10)
  have hk := randomizer_lt hR i (by norm_num : 0 < 4)
  unfold plural_verb_phrase
  simp only [Lexicon.intransitive_count, Lexicon.transitive_count,
    Lexicon.past_intransitive_count, Lexicon.past_transitive_count] at *
  generalize randomizer R 4 i = k at hk
  interval_cases k <;> simp [bind, Except.bind, pure, Except.pure, *]

theorem assertion_ok {L : Lexicon} {R : Rand} (hR : InRange R)
    (hL : NonemptyCategories L) (i : Nat) : ∃ s j, assertion L R i = .ok (s, j) := by
  obtain ⟨np1, j1, hnp1⟩ := singular_noun_phrase_ok hR hL (i + 1)
  obtain ⟨vp1, k1, hvp1⟩ := singular_verb_phrase_ok hR hL j1
  obtain ⟨np2, j2, hnp2⟩ := plural_noun_phrase_ok hR hL (i + 1)
  obtain ⟨vp2, k2, hvp2⟩ := plural_verb_phrase_ok hR hL j2
  unfold assertion
  split_ifs <;> simp [bind, Except.bind, pure, Except.pure, *]

theorem question_ok {L : Lexicon} {R : Rand} (hR : InRange R)
    (hL : NonemptyCategories L) (i : Nat) : ∃ s j, question L R i = .ok (s, j) := by
  obtain ⟨vp, j, hvp⟩ := infinite_verb_phrase_ok hR hL i
  obtain ⟨np, k, hnp⟩ := noun_phrase_ok hR hL (j + 1)
  obtain ⟨np1, k1, hnp1⟩ := singular_noun_phrase_ok hR hL (j + 1)
  obtain ⟨np2, k2, hnp2⟩ := plural_noun_phrase_ok hR hL (j + 1)
  have hk := randomizer_lt hR j (by norm_num : 0 < 11)
  unfold question
  simp only [hvp, bind, Except.bind]
  generalize randomizer R 11 j = a at hk
  interval_cases a <;> simp [pure, Except.pure, *]

theorem command_ok {L : Lexicon} {R : Rand} (hR : InRange R)
    (hL : NonemptyCategories L) (i : Nat) : ∃ s j, command L R i = .ok (s, j) := by
  obtain ⟨vp, j, hvp⟩ := infinite_verb_phrase_ok hR hL i
  simp [command, bind, Except.bind, pure, Except.pure, hvp]

theorem passphrase_assembled_ok {L : Lexicon} {R : Rand} (hR : InRange R)
    (hL : NonemptyCategories L) (i : Nat) :
    ∃ s j, passphrase_assembled L R i = .ok (s, j) := by
  obtain ⟨pp, j, hpp⟩ := prepositional_phrase_ok hR hL (i + 1)
  obtain ⟨a1, m1, ha1⟩ := assertion_ok hR hL (j + 1)
  obtain ⟨q1, n1, hq1⟩ := question_ok hR hL (j + 1)
  obtain ⟨c1, o1, hc1⟩ := command_ok hR hL (j + 1)
  obtain ⟨a2, m2, ha2⟩ := assertion_ok hR hL (i + 2)
  obtain ⟨q2, n2, hq2⟩ := question_ok hR hL (i + 2)
  obtain ⟨c2, o2, hc2⟩ := command_ok hR hL (i + 2)
  have hk1 := randomizer_lt hR j (by norm_num : 0 < 6)
  have hk2 := randomizer_lt hR (i + 1) (by norm_num : 0 < 6)
  unfold passphrase_assembled
  split_ifs
  · simp only [hpp, bind, Except.bind]
    generalize randomizer R 6 j = a at hk1
    interval_cases a <;> simp [pure, Except.pure, *]
  · generalize randomizer R 6 (i + 1) = a at hk2
    interval_cases a <;> simp [*]

theorem passphrase_ok {L : Lexicon} {R : Rand} (hR : InRange R)
    (hL : NonemptyCategories L) (i : Nat) : ∃ s j, passphrase L R i = .ok (s, j) := by
  obtain ⟨s, j, h⟩ := passphrase_assembled_ok hR hL i
  exact ⟨capitalize_first s, j, by simp [passphrase, bind, Except.bind, pure, Except.pure, h]⟩

/-! ## The first character of a phrase -/

theorem Starts.append {p : Char → Prop} {a : CStr} (h : Starts p a) (b : CStr) :
    Starts p (a ++ b) := by
  obtain ⟨c, cs, rfl, hc⟩ := h
  exact ⟨c, cs ++ b, rfl, hc⟩

theorem Starts.mono {p q : Char → Prop} {a : CStr} (h : Starts p a)
    (hpq : ∀ c, p c → q c) : Starts q a := by
  obtain ⟨c, cs, rfl, hc⟩ := h
  exact ⟨c, cs, rfl, hpq c hc⟩

theorem Starts.lowerOrDigit {a : CStr} (h : Starts (fun c => c.isLower = true) a) :
    Starts LowerOrDigit a :=
  h.mono (fun _ => Or.inl)

theorem starts_of_word {w : CStr} (h : w ≠ [] ∧ LowerWord w) :
    Starts (fun c => c.isLower = true) w := by
  obtain ⟨hne, hl⟩ := h
  cases w with
  | nil => exact absurd rfl hne
  | cons c cs => exact ⟨c, cs, rfl, hl c (List.mem_cons_self _ _)⟩

theorem starts_of_array_get {a : List CStr} {k : Nat} {w : CStr}
    (ha : ∀ w ∈ a, w ≠ [] ∧ LowerWord w) (h : array_get a k = .ok w) :
    Starts (fun c => c.isLower = true) w :=
  starts_of_word (ha w (array_get_mem h))

theorem singular_determiner_starts {d : Nat} {det : CStr}
    (h : singular_determiner d = some det) : Starts (fun c => c.isLower = true) det := by
  unfold singular_determiner at h
  split at h <;> simp at h <;> subst h <;> exact ⟨_, _, rfl, by decide⟩

theorem plural_determiner_starts {d : Nat} {det : CStr}
    (h : plural_determiner d = some det) : Starts (fun c => c.isLower = true) det := by
  unfold plural_determiner at h
  split at h <;> simp at h <;> subst h <;> exact ⟨_, _, rfl, by decide⟩

theorem numeral_determiner_starts {R : Rand} (hR : InRange R) {i j : Nat} {det : CStr}
    (h : numeral_determiner R i = .ok (det, j)) : Starts (fun c => c ∈ digits) det := by
  obtain ⟨c₁, c₂, m1, -, e⟩ := numeral_determiner_ok hR i
  rw [e] at h
  simp only [Except.ok.injEq, Prod.mk.injEq] at h
  exact ⟨c₁, [c₂], h.1.symm, m1⟩

theorem singular_noun_phrase_starts {L : Lexicon} {R : Rand} {i j : Nat} {s : CStr}
    (hL : NonemptyLowerWords L) (h : singular_noun_phrase L R i = .ok (s, j)) :
    Starts (fun c => c.isLower = true) s := by
  obtain ⟨h1, h2, h3, h4, h5, h6, h7, h8, h9, h10, h11⟩ := hL
  unfold singular_noun_phrase at h
  split_ifs at h
  all_goals simp only [bind_eq_ok, pure_eq_ok, use_eq_ok, Prod.mk.injEq] at h
  · obtain ⟨a, ha, n, hn, rfl, -⟩ := h
    simpa using (starts_of_array_get h4 ha).append _
  · obtain ⟨n, hn, rfl, -⟩ := h
    exact starts_of_array_get h3 hn
  · obtain ⟨d, hd, a, ha, n, hn, rfl, -⟩ := h
    simpa using (singular_determiner_starts hd).append _
  · obtain ⟨d, hd, n, hn, rfl, -⟩ := h
    simpa using (singular_determiner_starts hd).append _

theorem plural_noun_phrase_rest_starts {L : Lexicon} {R : Rand} {det : CStr} {i j : Nat}
    {s : CStr} {p : Char → Prop} (hd : Starts p det)
    (h : plural_noun_phrase_rest L R det i = .ok (s, j)) : Starts p s := by
  unfold plural_noun_phrase_rest at h
  split_ifs at h
  all_goals simp only [bind_eq_ok, pure_eq_ok, Prod.mk.injEq] at h
  · obtain ⟨a, ha, n, hn, rfl, -⟩ := h
    simpa using hd.append _
  · obtain ⟨n, hn, rfl, -⟩ := h
    simpa using hd.append _

theorem plural_noun_phrase_starts {L : Lexicon} {R : Rand} {i j : Nat} {s : CStr}
    (hL : NonemptyLowerWords L) (hR : InRange R) (h : plural_noun_phrase L R i = .ok (s, j)) :
    Starts LowerOrDigit s := by
  obtain ⟨h1, h2, h3, h4, h5, h6, h7, h8, h9, h10, h11⟩ := hL
  unfold plural_noun_phrase at h
  split_ifs at h
  · simp only [bind_eq_ok, pure_eq_ok, Prod.mk.injEq] at h
    obtain ⟨a, ha, n, hn, rfl, -⟩ := h
    simpa using ((starts_of_array_get h4 ha).append _).mono (fun _ => Or.inl)
  · simp only [bind_eq_ok, pure_eq_ok, Prod.mk.injEq] at h
    obtain ⟨n, hn, rfl, -⟩ := h
    exact (starts_of_array_get h2 hn).mono (fun _ => Or.inl)
  · split at h
    · rename_i d hd
      simp only [bind_eq_ok, pure_eq_ok] at h
      obtain ⟨⟨det, k⟩, hdet, hrest⟩ := h
      simp only [Prod.mk.injEq] at hdet
      obtain ⟨rfl, -⟩ := hdet
      exact plural_noun_phrase_rest_starts
        ((plural_determiner_starts hd).mono (fun _ => Or.inl)) hrest
    · simp only [bind_eq_ok] at h
      obtain ⟨⟨det, k⟩, hdet, hrest⟩ := h
      exact plural_noun_phrase_rest_starts
        ((numeral_determiner_starts hR hdet).mono (fun _ => Or.inr)) hrest

theorem noun_phrase_starts {L : Lexicon} {R : Rand} {i j : Nat} {s : CStr}
    (hL : NonemptyLowerWords L) (hR : InRange R) (h : noun_phrase L R i = .ok (s, j)) :
    Starts LowerOrDigit s := by
  unfold noun_phrase at h
  split_ifs at h
  · exact (singular_noun_phrase_starts hL h).mono (fun _ => Or.inl)
  · exact plural_noun_phrase_starts hL hR h

theorem prepositional_phrase_starts {L : Lexicon} {R : Rand} {i j : Nat} {s : CStr}
    (hL : NonemptyLowerWords L) (h : prepositional_phrase L R i = .ok (s, j)) :
    Starts (fun c => c.isLower = true) s := by
  unfold prepositional_phrase at h
  simp only [bind_eq_ok, pure_eq_ok, Prod.mk.injEq] at h
  obtain ⟨⟨np, k⟩, -, w, hw, rfl, -⟩ := h
  simpa using (starts_of_array_get hL.2.2.2.2.2.2.2.2.2.2 hw).append _

theorem infinite_verb_phrase_starts {L : Lexicon} {R : Rand} {i j : Nat} {s : CStr}
    (hL : NonemptyLowerWords L) (h : infinite_verb_phrase L R i = .ok (s, j)) :
    Starts (fun c => c.isLower = true) s := by
  obtain ⟨h1, h2, h3, h4, h5, h6, h7, h8, h9, h10, h11⟩ := hL
  unfold infinite_verb_phrase at h
  split_ifs at h
  all_goals simp only [bind_eq_ok, pure_eq_ok, Prod.mk.injEq] at h
  · obtain ⟨w, hw, rfl, -⟩ := h
    exact starts_of_array_get h5 hw
  · obtain ⟨⟨np, k⟩, -, w, hw, rfl, -⟩ := h
    simpa using (starts_of_array_get h6 hw).append _

theorem assertion_starts {L : Lexicon} {R : Rand} {i j : Nat} {s : CStr}
    (hL : NonemptyLowerWords L) (hR : InRange R) (h : assertion L R i = .ok (s, j)) :
    Starts LowerOrDigit s := by
  unfold assertion at h
  split_ifs at h
  all_goals simp only [bind_eq_ok, pure_eq_ok, Prod.mk.injEq] at h
  · obtain ⟨⟨np, k⟩, h1, _, _, _, ⟨rfl, _⟩, rfl, _⟩ := h
    exact (((singular_noun_phrase_starts hL h1).lowerOrDigit.append _).append _).append _
  · obtain ⟨⟨np, k⟩, h1, _, _, _, ⟨rfl, _⟩, rfl, _⟩ := h
    exact (((plural_noun_phrase_starts hL hR h1).append _).append _).append _

theorem question_starts {L : Lexicon} {R : Rand} {i j : Nat} {s : CStr}
    (h : question L R i = .ok (s, j)) : Starts (fun c => c.isLower = true) s := by
  unfold question at h
  simp only [bind_eq_ok] at h
  obtain ⟨⟨vp, k⟩, -, hm⟩ := h
  split at hm
  all_goals simp only [bind_eq_ok, pure_eq_ok, Prod.mk.injEq, reduceCtorEq] at hm
  all_goals obtain ⟨⟨np, k'⟩, -, rfl, -⟩ := hm
  all_goals exact Starts.append (Starts.append (Starts.append (Starts.append
    ⟨_, _, rfl, by decide⟩ _) _) _) _

theorem command_starts {L : Lexicon} {R : Rand} {i j : Nat} {s : CStr}
    (hL : NonemptyLowerWords L) (h : command L R i = .ok (s, j)) :
    Starts (fun c => c.isLower = true) s := by
  unfold command at h
  simp only [bind_eq_ok, pure_eq_ok, Prod.mk.injEq] at h
  obtain ⟨⟨vp, k⟩, hvp, rfl, -⟩ := h
  exact (infinite_verb_phrase_starts hL hvp).append _

theorem passphrase_assembled_starts {L : Lexicon} {R : Rand} {i j : Nat} {s : CStr}
    (hL : NonemptyLowerWords L) (hR : InRange R)
    (h : passphrase_assembled L R i = .ok (s, j)) : Starts LowerOrDigit s := by
  unfold passphrase_assembled at h
  split_ifs at h
  · simp only [bind_eq_ok] at h
    obtain ⟨⟨pp, k⟩, hpp, h⟩ := h
    have hs := (prepositional_phrase_starts hL hpp).lowerOrDigit
    split at h
    all_goals simp only [bind_eq_ok, pure_eq_ok, Prod.mk.injEq, reduceCtorEq, false_and,
      exists_false] at h
    all_goals obtain ⟨_, _, rfl, -⟩ := h
    all_goals exact ((hs.append _).append _).append _
  · split at h
    · exact assertion_starts hL hR h
    · exact assertion_starts hL hR h
    · exact assertion_starts hL hR h
    · exact (question_starts h).mono (fun _ => Or.inl)
    · exact (question_starts h).mono (fun _ => Or.inl)
    · exact (command_starts hL h).mono (fun _ => Or.inl)
    · simp at h

theorem isUpper_ofNat {n : Nat} (h1 : 65 ≤ n) (h2 : n ≤ 90) :
    (Char.ofNat n).isUpper = true := by
  interval_cases n <;> rfl

theorem toupper_isUpper {c : Char} (h : c.isLower = true) : (toupper c).isUpper = true := by
  unfold toupper
  rw [if_pos h]
  simp only [Char.isLower, Bool.and_eq_true, decide_eq_true_eq] at h
  have h1 : 97 ≤ c.toNat := h.1
  have h2 : c.toNat ≤ 122 := h.2
  exact isUpper_ofNat (by omega) (by omega)

theorem toupper_digit {c : Char} (h : c ∈ digits) : toupper c = c := by
  have : ∀ d ∈ digits, toupper d = d := by decide
  exact this c h

theorem capitalize_first_starts {s : CStr} (h : Starts LowerOrDigit s) :
    Starts UpperOrDigit (capitalize_first s) := by
  obtain ⟨c, cs, rfl, hc⟩ := h
  refine ⟨toupper c, cs, rfl, ?_⟩
  rcases hc with hc | hc
  · exact Or.inl (toupper_isUpper hc)
  · exact Or.inr (by rw [toupper_digit hc]; exact hc)

/-! ## The characters of a phrase -/

theorem PlainStr.concat {a b : CStr} (ha : PlainStr a) (hb : PlainStr b) :
    PlainStr (a ++ b) := by
  intro c hc
  rcases List.mem_append.1 hc with h | h
  · exact ha c h
  · exact hb c h

theorem plainStr_space : PlainStr " ".toList := by
  unfold PlainStr Plain
  decide

theorem plainStr_of_array_get {a : List CStr} {k : Nat} {w : CStr}
    (ha : ∀ w ∈ a, LowerWord w) (h : array_get a k = .ok w) : PlainStr w :=
  fun c hc => Or.inl (ha w (array_get_mem h) c hc)

theorem singular_determiner_plain {d : Nat} {det : CStr}
    (h : singular_determiner d = some det) : PlainStr det := by
  unfold singular_determiner at h
  split at h <;> simp at h <;> subst h <;> unfold PlainStr Plain <;> decide

theorem plural_determiner_plain {d : Nat} {det : CStr}
    (h : plural_determiner d = some det) : PlainStr det := by
  unfold plural_determiner at h
  split at h <;> simp at h <;> subst h <;> unfold PlainStr Plain <;> decide

theorem numeral_determiner_plain {R : Rand} {i j : Nat} {det : CStr}
    (h : numeral_determiner R i = .ok (det, j)) : PlainStr det := by
  unfold numeral_determiner at h
  simp only [bind_eq_ok, pure_eq_ok, Prod.mk.injEq] at h
  obtain ⟨c₁, h1, c₂, h2, rfl, -⟩ := h
  intro c hc
  obtain ⟨hmem, hne⟩ := mem_cstr hc
  simp only [List.mem_cons, List.mem_singleton, List.not_mem_nil, or_false] at hmem
  rcases hmem with rfl | rfl
  · exact Or.inr (Or.inr ((digits_get_mem h1).resolve_right hne))
  · exact Or.inr (Or.inr ((digits_get_mem h2).resolve_right hne))

theorem singular_noun_phrase_plain {L : Lexicon} {R : Rand} {i j : Nat} {s : CStr}
    (hL : LowerWords L) (h : singular_noun_phrase L R i = .ok (s, j)) : PlainStr s := by
  obtain ⟨h1, h2, h3, h4, h5, h6, h7, h8, h9, h10, h11⟩ := hL
  unfold singular_noun_phrase at h
  split_ifs at h
  all_goals simp only [bind_eq_ok, pure_eq_ok, use_eq_ok, Prod.mk.injEq] at h
  · obtain ⟨a, ha, n, hn, rfl, -⟩ := h
    exact ((plainStr_of_array_get h4 ha).concat plainStr_space).concat
      (plainStr_of_array_get h3 hn)
  · obtain ⟨n, hn, rfl, -⟩ := h
    exact plainStr_of_array_get h3 hn
  · obtain ⟨d, hd, a, ha, n, hn, rfl, -⟩ := h
    exact ((((singular_determiner_plain hd).concat plainStr_space).concat
      (plainStr_of_array_get h4 ha)).concat plainStr_space).concat
      (plainStr_of_array_get h1 hn)
  · obtain ⟨d, hd, n, hn, rfl, -⟩ := h
    exact ((singular_determiner_plain hd).concat plainStr_space).concat
      (plainStr_of_array_get h1 hn)

theorem plural_noun_phrase_rest_plain {L : Lexicon} {R : Rand} {det : CStr} {i j : Nat}
    {s : CStr} (hL : LowerWords L) (hd : PlainStr det)
    (h : plural_noun_phrase_rest L R det i = .ok (s, j)) : PlainStr s := by
  obtain ⟨h1, h2, h3, h4, h5, h6, h7, h8, h9, h10, h11⟩ := hL
  unfold plural_noun_phrase_rest at h
  split_ifs at h
  all_goals simp only [bind_eq_ok, pure_eq_ok, Prod.mk.injEq] at h
  · obtain ⟨a, ha, n, hn, rfl, -⟩ := h
    exact (((hd.concat plainStr_space).concat (plainStr_of_array_get h4 ha)).concat
      plainStr_space).concat (plainStr_of_array_get h2 hn)
  · obtain ⟨n, hn, rfl, -⟩ := h
    exact (hd.concat plainStr_space).concat (plainStr_of_array_get h2 hn)

theorem plural_noun_phrase_plain {L : Lexicon} {R : Rand} {i j : Nat} {s : CStr}
    (hL : LowerWords L) (h : plural_noun_phrase L R i = .ok (s, j)) : PlainStr s := by
  have hrest := fun det i j s => @plural_noun_phrase_rest_plain L R det i j s hL
  obtain ⟨h1, h2, h3, h4, h5, h6, h7, h8, h9, h10, h11⟩ := hL
  unfold plural_noun_phrase at h
  split_ifs at h
  · simp only [bind_eq_ok, pure_eq_ok, Prod.mk.injEq] at h
    obtain ⟨a, ha, n, hn, rfl, -⟩ := h
    exact ((plainStr_of_array_get h4 ha).concat plainStr_space).concat
      (plainStr_of_array_get h2 hn)
  · simp only [bind_eq_ok, pure_eq_ok, Prod.mk.injEq] at h
    obtain ⟨n, hn, rfl, -⟩ := h
    exact plainStr_of_array_get h2 hn
  · split at h
    · rename_i d hd
      simp only [bind_eq_ok, pure_eq_ok] at h
      obtain ⟨⟨det, k⟩, hdet, hr⟩ := h
      simp only [Prod.mk.injEq] at hdet
      obtain ⟨rfl, -⟩ := hdet
      exact hrest _ _ _ _ (plural_determiner_plain hd) hr
    · simp only [bind_eq_ok] at h
      obtain ⟨⟨det, k⟩, hdet, hr⟩ := h
      exact hrest _ _ _ _ (numeral_determiner_plain hdet) hr

theorem noun_phrase_plain {L : Lexicon} {R : Rand} {i j : Nat} {s : CStr}
    (hL : LowerWords L) (h : noun_phrase L R i = .ok (s, j)) : PlainStr s := by
  unfold noun_phrase at h
  split_ifs at h
  · exact singular_noun_phrase_plain hL h
  · exact plural_noun_phrase_plain hL h

theorem infinite_verb_phrase_plain {L : Lexicon} {R : Rand} {i j : Nat} {s : CStr}
    (hL : LowerWords L) (h : infinite_verb_phrase L R i = .ok (s, j)) : PlainStr s := by
  have hnp := fun i j s => @noun_phrase_plain L R i j s hL
  obtain ⟨h1, h2, h3, h4, h5, h6, h7, h8, h9, h10, h11⟩ := hL
  unfold infinite_verb_phrase at h
  split_ifs at h
  all_goals simp only [bind_eq_ok, pure_eq_ok, Prod.mk.injEq] at h
  · obtain ⟨w, hw, rfl, -⟩ := h
    exact plainStr_of_array_get h5 hw
  · obtain ⟨⟨np, k⟩, hn, w, hw, rfl, -⟩ := h
    exact ((plainStr_of_array_get h6 hw).concat plainStr_space).concat (hnp _ _ _ hn)

theorem singular_verb_phrase_plain {L : Lexicon} {R : Rand} {i j : Nat} {s : CStr}
    (hL : LowerWords L) (h : singular_verb_phrase L R i = .ok (s, j)) : PlainStr s := by
  have hnp := fun i j s => @noun_phrase_plain L R i j s hL
  obtain ⟨h1, h2, h3, h4, h5, h6, h7, h8, h9, h10, h11⟩ := hL
  unfold singular_verb_phrase at h
  split at h
  all_goals simp only [bind_eq_ok, pure_eq_ok, Prod.mk.injEq, reduceCtorEq] at h
  · obtain ⟨w, hw, rfl, -⟩ := h
    exact plainStr_of_array_get h7 hw
  · obtain ⟨⟨np, k⟩, hn, w, hw, rfl, -⟩ := h
    exact ((plainStr_of_array_get h8 hw).concat plainStr_space).concat (hnp _ _ _ hn)
  · obtain ⟨w, hw, rfl, -⟩ := h
    exact plainStr_of_array_get h9 hw
  · obtain ⟨⟨np, k⟩, hn, w, hw, rfl, -⟩ := h
    exact ((plainStr_of_array_get h10 hw).concat plainStr_space).concat (hnp _ _ _ hn)

theorem plural_verb_phrase_plain {L : Lexicon} {R : Rand} {i j : Nat} {s : CStr}
    (hL : LowerWords L) (h : plural_verb_phrase L R i = .ok (s, j)) : PlainStr s := by
  have hnp := fun i j s => @noun_phrase_plain L R i j s hL
  obtain ⟨h1, h2, h3, h4, h5, h6, h7, h8, h9, h10, h11⟩ := hL
  unfold plural_verb_phrase at h
  split at h
  all_goals simp only [bind_eq_ok, pure_eq_ok, Prod.mk.injEq, reduceCtorEq] at h
  · obtain ⟨w, hw, rfl, -⟩ := h
    exact plainStr_of_array_get h5 hw
  · obtain ⟨⟨np, k⟩, hn, w, hw, rfl, -⟩ := h
    exact ((plainStr_of_array_get h6 hw).concat plainStr_space).concat (hnp _ _ _ hn)
  · obtain ⟨w, hw, rfl, -⟩ := h
    exact plainStr_of_array_get h9 hw
  · obtain ⟨⟨np, k⟩, hn, w, hw, rfl, -⟩ := h
    exact ((plainStr_of_array_get h10 hw).concat plainStr_space).concat (hnp _ _ _ hn)

/-! ## The terminator of a sentence -/

theorem endsWithOnly_of_plain {body : CStr} {t : Char} (hb : PlainStr body)
    (ht : ¬ Plain t) : EndsWithOnly t (body ++ [t]) := by
  refine ⟨List.getLast?_concat body, ?_⟩
  have : t ∉ body := fun hmem => ht (hb t hmem)
  simp [List.count_append, List.count_eq_zero.2 this]

theorem not_plain_terminators : ¬ Plain '.' ∧ ¬ Plain '?' ∧ ¬ Plain '!' := by
  unfold Plain
  decide

theorem assertion_body {L : Lexicon} {R : Rand} {i j : Nat} {s : CStr}
    (hL : LowerWords L) (h : assertion L R i = .ok (s, j)) :
    ∃ body, PlainStr body ∧ s = body ++ ".".toList := by
  unfold assertion at h
  split_ifs at h
  all_goals simp only [bind_eq_ok, pure_eq_ok, Prod.mk.injEq] at h
  · obtain ⟨⟨np, k⟩, h1, ⟨vp, m⟩, h2, _, ⟨rfl, _⟩, rfl, _⟩ := h
    exact ⟨_, ((singular_noun_phrase_plain hL h1).concat plainStr_space).concat
      (singular_verb_phrase_plain hL h2), rfl⟩
  · obtain ⟨⟨np, k⟩, h1, ⟨vp, m⟩, h2, _, ⟨rfl, _⟩, rfl, _⟩ := h
    exact ⟨_, ((plural_noun_phrase_plain hL h1).concat plainStr_space).concat
      (plural_verb_phrase_plain hL h2), rfl⟩

theorem plainStr_auxiliaries :
    PlainStr "can ".toList ∧ PlainStr "could ".toList ∧ PlainStr "did ".toList ∧
    PlainStr "do ".toList ∧ PlainStr "does ".toList ∧ PlainStr "may ".toList ∧
    PlainStr "might ".toList ∧ PlainStr "must ".toList ∧ PlainStr "should ".toList ∧
    PlainStr "will ".toList ∧ PlainStr "would ".toList := by
  unfold PlainStr Plain
  decide

theorem question_body {L : Lexicon} {R : Rand} {i j : Nat} {s : CStr}
    (hL : LowerWords L) (h : question L R i = .ok (s, j)) :
    ∃ body, PlainStr body ∧ s = body ++ "?".toList := by
  obtain ⟨a0, a1, a2, a3, a4, a5, a6, a7, a8, a9, a10⟩ := plainStr_auxiliaries
  unfold question at h
  simp only [bind_eq_ok] at h
  obtain ⟨⟨vp, k⟩, hvp, hm⟩ := h
  have hv := infinite_verb_phrase_plain hL hvp
  split at hm
  all_goals simp only [bind_eq_ok, pure_eq_ok, Prod.mk.injEq, reduceCtorEq] at hm
  all_goals obtain ⟨⟨np, k'⟩, hnp, rfl, -⟩ := hm
  all_goals first
    | have hn := noun_phrase_plain hL hnp
    | have hn := plural_noun_phrase_plain hL hnp
    | have hn := singular_noun_phrase_plain hL hnp
  all_goals refine ⟨_, PlainStr.concat (PlainStr.concat (PlainStr.concat ?_ hn)
    plainStr_space) hv, rfl⟩
  all_goals assumption

theorem command_body {L : Lexicon} {R : Rand} {i j : Nat} {s : CStr}
    (hL : LowerWords L) (h : command L R i = .ok (s, j)) :
    ∃ body, PlainStr body ∧ s = body ++ "!".toList := by
  unfold command at h
  simp only [bind_eq_ok, pure_eq_ok, Prod.mk.injEq] at h
  obtain ⟨⟨vp, k⟩, hvp, rfl, -⟩ := h
  exact ⟨_, infinite_verb_phrase_plain hL hvp, rfl⟩

/-! ## The two branches of `passphrase` -/

theorem base_kind_of_ge {k : Nat} (h : 6 ≤ k) : base_kind k = none := by
  unfold base_kind
  rw [if_neg (by omega), if_neg (by omega), if_neg (by omega)]

theorem passphrase_assembled_unprefixed {L : Lexicon} {R : Rand} {i : Nat}
    (h : randomizer R 6 i ≠ 0) :
    passphrase_assembled L R i = base_sentence L R (randomizer R 6 (i + 1)) (i + 2) := by
  unfold passphrase_assembled
  rw [if_neg h]
  generalize randomizer R 6 (i + 1) = k
  split
  case h_7 =>
    rename_i h0 h1 h2 h3 h4 h5
    have : 6 ≤ k := by
      by_contra hlt
      push_neg at hlt
      interval_cases k <;> simp_all
    simp [base_sentence, base_kind_of_ge this]
  all_goals rfl

theorem passphrase_assembled_prefixed {L : Lexicon} {R : Rand} {i : Nat}
    (h : randomizer R 6 i = 0) :
    passphrase_assembled L R i = prefixed_sentence L R (i + 1) := by
  unfold passphrase_assembled prefixed_sentence
  rw [if_pos h]
  cases hpp : prepositional_phrase L R (i + 1) with
  | error f => rfl
  | ok p =>
    obtain ⟨pp, j⟩ := p
    simp only [bind, Except.bind]
    generalize randomizer R 6 j = k
    split
    case h_7 =>
      rename_i h0 h1 h2 h3 h4 h5
      have : 6 ≤ k := by
        by_contra hlt
        push_neg at hlt
        interval_cases k <;> simp_all
      simp [base_sentence, base_kind_of_ge this]
    all_goals
      simp only [base_sentence, base_kind, Sentence.build, separator, pure, Except.pure]
      split <;> simp_all

/-! ## The minimum length -/

/-- The passphrase that leaves the loop is a result of `passphrase` and is not
shorter than 18 characters. -/
theorem main_do_while_spec (L : Lexicon) (R : Rand) :
    ∀ (fuel i : Nat) (pass : CStr) (j : Nat), main_do_while L R fuel i = some (.ok (pass, j)) →
      18 ≤ pass.length ∧ ∃ k, passphrase L R k = .ok (pass, j) := by
  intro fuel
  induction fuel with
  | zero => intro i pass j h; simp [main_do_while] at h
  | succ n ih =>
    intro i pass j h
    unfold main_do_while at h
    split at h
    · simp at h
    · rename_i p k hp
      split at h
      · exact ih _ _ _ h
      · rename_i hlen
        simp only [Option.some.injEq, Except.ok.injEq, Prod.mk.injEq] at h
        obtain ⟨rfl, rfl⟩ := h
        exact ⟨Nat.le_of_not_lt hlen, i, hp⟩

/-- C1: whenever the `do ... while (pass_length < 18)` loop of `main` ends with
a passphrase, whatever the lexicon, the random values and the number of
iterations, that passphrase is the result of a call of `passphrase` and has at
least 18 characters. -/
theorem length_invariant (L : Lexicon) (R : Rand) (fuel i : Nat) (pass : CStr) (j : Nat)
    (h : main_do_while L R fuel i = some (.ok (pass, j))) :
    18 ≤ pass.length ∧ ∃ k, passphrase L R k = .ok (pass, j) :=
  main_do_while_spec L R fuel i pass j h

/-- Witness of C1: the loop discards "The cat sleeps." (15 characters) and
ends with the next passphrase, which has 33 characters. -/
theorem length_invariant_witness :
    passphrase demoLexicon catRand 0 = .ok ("The cat sleeps.".toList, 9) ∧
    main_do_while demoLexicon catRand 5 0 =
      some (.ok ("Under red cats, red water sleeps.".toList, 25)) ∧
    18 ≤ "Under red cats, red water sleeps.".toList.length :=
  ⟨rfl, rfl, (length_invariant demoLexicon catRand 5 0 _ 25 rfl).1⟩

/-! ## The first character of a passphrase -/

/-- C2 as stated fails: on a lexicon of non-empty lower-case words and in-range
draws, `passphrase` returns "23 cats sleep.", whose first character is the
digit of a numeral determiner and not an upper-case letter. -/
theorem capitalization_counterexample :
    NonemptyLowerWords demoLexicon ∧ InRange numeralRand ∧
    passphrase demoLexicon numeralRand 0 = .ok ("23 cats sleep.".toList, 11) ∧
    ¬ Starts UpperLetter "23 cats sleep.".toList := by
  refine ⟨demoLexicon_words, numeralRand_inRange, rfl, ?_⟩
  rintro ⟨c, cs, h, hc⟩
  have hc2 : c = '2' := by
    have := congrArg List.head? h
    simpa using this.symm
  subst hc2
  exact absurd hc (by unfold UpperLetter; decide)

/-- C2, amended: for a lexicon of non-empty lower-case words and in-range
draws, the sentence that `passphrase` assembles starts with a lower-case
letter or with a digit of `digits` (the first digit of a numeral determiner),
and the string `passphrase` returns starts with an upper-case letter or with
such a digit; when every category is non-empty `passphrase` does return a
string. -/
theorem capitalization_invariant (L : Lexicon) (R : Rand) (i : Nat)
    (hL : NonemptyLowerWords L) (hR : InRange R) :
    (∀ s j, passphrase_assembled L R i = .ok (s, j) → Starts LowerOrDigit s) ∧
    (∀ s j, passphrase L R i = .ok (s, j) → Starts UpperOrDigit s) ∧
    (NonemptyCategories L → ∃ s j, passphrase L R i = .ok (s, j)) := by
  refine ⟨fun s j h => passphrase_assembled_starts hL hR h, fun s j h => ?_,
    fun hC => passphrase_ok hR hC i⟩
  unfold passphrase at h
  simp only [bind_eq_ok, pure_eq_ok, Prod.mk.injEq] at h
  obtain ⟨⟨a, k⟩, ha, rfl, -⟩ := h
  exact capitalize_first_starts (passphrase_assembled_starts hL hR ha)

/-- Witness of C2: the amended invariant on "The cat sleeps.". -/
theorem capitalization_invariant_witness :
    NonemptyLowerWords demoLexicon ∧ InRange catRand ∧
    passphrase demoLexicon catRand 0 = .ok ("The cat sleeps.".toList, 9) ∧
    Starts UpperOrDigit "The cat sleeps.".toList :=
  ⟨demoLexicon_words, catRand_inRange, rfl,
    (capitalization_invariant demoLexicon catRand 0 demoLexicon_words catRand_inRange).2.1
      _ _ rfl⟩

/-! ## The terminator of a sentence, as a whole -/

/-- C3: for a lexicon of lower-case words and in-range draws, every string
returned by `assertion` ends with `.` and holds `.` exactly once, every string
returned by `question` ends with `?` and holds `?` exactly once, every string
returned by `command` ends with `!` and holds `!` exactly once; and on
non-empty categories each of the three does return a string. -/
theorem terminator_invariant (L : Lexicon) (R : Rand) (i : Nat)
    (hL : LowerWords L) (hR : InRange R) :
    (∀ s j, assertion L R i = .ok (s, j) → EndsWithOnly '.' s) ∧
    (∀ s j, question L R i = .ok (s, j) → EndsWithOnly '?' s) ∧
    (∀ s j, command L R i = .ok (s, j) → EndsWithOnly '!' s) ∧
    (NonemptyCategories L →
      (∃ s j, assertion L R i = .ok (s, j)) ∧ (∃ s j, question L R i = .ok (s, j)) ∧
      (∃ s j, command L R i = .ok (s, j))) := by
  refine ⟨fun s j h => ?_, fun s j h => ?_, fun s j h => ?_, fun hC =>
    ⟨assertion_ok hR hC i, question_ok hR hC i, command_ok hR hC i⟩⟩
  · obtain ⟨body, hb, rfl⟩ := assertion_body hL h
    exact endsWithOnly_of_plain hb not_plain_terminators.1
  · obtain ⟨body, hb, rfl⟩ := question_body hL h
    exact endsWithOnly_of_plain hb not_plain_terminators.2.1
  · obtain ⟨body, hb, rfl⟩ := command_body hL h
    exact endsWithOnly_of_plain hb not_plain_terminators.2.2

/-- Witness of C3: an assertion, a question and a command built from
`demoLexicon`, each with its terminator at the end and nowhere else. -/
theorem terminator_invariant_witness :
    LowerWords demoLexicon ∧ InRange catRand ∧
    (assertion demoLexicon catRand 2 = .ok ("the cat sleeps.".toList, 9) ∧
      EndsWithOnly '.' "the cat sleeps.".toList) ∧
    (question demoLexicon catRand 9 = .ok ("can red cats sleep?".toList, 17) ∧
      EndsWithOnly '?' "can red cats sleep?".toList) ∧
    (command demoLexicon catRand 9 = .ok ("sleep!".toList, 11) ∧
      EndsWithOnly '!' "sleep!".toList) :=
  ⟨demoLexicon_words.lowerWords, catRand_inRange,
    ⟨rfl, (terminator_invariant demoLexicon catRand 2 demoLexicon_words.lowerWords
      catRand_inRange).1 _ _ rfl⟩,
    ⟨rfl, (terminator_invariant demoLexicon catRand 9 demoLexicon_words.lowerWords
      catRand_inRange).2.1 _ _ rfl⟩,
    ⟨rfl, (terminator_invariant demoLexicon catRand 9 demoLexicon_words.lowerWords
      catRand_inRange).2.2.1 _ _ rfl⟩⟩

/-! ## Agreement in number -/

/-- C4: for in-range draws the first draw `randomizer(2)` of `assertion` is 0
or 1.  When it is 0, `assertion` returns a string exactly when
`singular_noun_phrase` on the following draws returns `np` and then
`singular_verb_phrase` returns `vp`, and the string is `np ++ " " ++ vp ++ "."`;
when it is 1, the same holds with `plural_noun_phrase` and
`plural_verb_phrase`.  So a singular noun phrase is paired with
`singular_verb_phrase` only and a plural one with `plural_verb_phrase` only. -/
theorem agreement_invariant (L : Lexicon) (R : Rand) (i : Nat) (hR : InRange R) :
    (randomizer R 2 i = 0 ∨ randomizer R 2 i = 1) ∧
    (randomizer R 2 i = 0 → ∀ s k, assertion L R i = .ok (s, k) ↔
      ∃ np j vp, singular_noun_phrase L R (i + 1) = .ok (np, j) ∧
        singular_verb_phrase L R j = .ok (vp, k) ∧
        s = np ++ " ".toList ++ vp ++ ".".toList) ∧
    (randomizer R 2 i = 1 → ∀ s k, assertion L R i = .ok (s, k) ↔
      ∃ np j vp, plural_noun_phrase L R (i + 1) = .ok (np, j) ∧
        plural_verb_phrase L R j = .ok (vp, k) ∧
        s = np ++ " ".toList ++ vp ++ ".".toList) := by
  refine ⟨?_, fun h0 s k => ?_, fun h1 s k => ?_⟩
  · have := randomizer_lt hR i (by norm_num : 0 < 2)
    omega
  · unfold assertion
    rw [if_pos h0]
    simp only [bind_eq_ok, pure_eq_ok, Prod.mk.injEq, Prod.exists]
    constructor
    · rintro ⟨np, j, hnp, vp, k', hvp, a, b, c, ⟨⟨rfl, rfl⟩, rfl⟩, rfl, rfl⟩
      exact ⟨np, j, vp, hnp, hvp, rfl⟩
    · rintro ⟨np, j, vp, hnp, hvp, rfl⟩
      exact ⟨np, j, hnp, vp, k, hvp, np, vp, k, ⟨⟨rfl, rfl⟩, rfl⟩, rfl, rfl⟩
  · unfold assertion
    rw [if_neg (by omega)]
    simp only [bind_eq_ok, pure_eq_ok, Prod.mk.injEq, Prod.exists]
    constructor
    · rintro ⟨np, j, hnp, vp, k', hvp, a, b, c, ⟨⟨rfl, rfl⟩, rfl⟩, rfl, rfl⟩
      exact ⟨np, j, vp, hnp, hvp, rfl⟩
    · rintro ⟨np, j, vp, hnp, hvp, rfl⟩
      exact ⟨np, j, hnp, vp, k, hvp, np, vp, k, ⟨⟨rfl, rfl⟩, rfl⟩, rfl, rfl⟩

/-- Witness of C4: a singular assertion ("the cat sleeps.") and a plural one
("23 cats sleep."), each obtained from its pair of phrases. -/
theorem agreement_invariant_witness :
    InRange catRand ∧ InRange numeralRand ∧
    (randomizer catRand 2 2 = 0 ∧
      assertion demoLexicon catRand 2 = .ok ("the cat sleeps.".toList, 9)) ∧
    (randomizer numeralRand 2 2 = 1 ∧
      assertion demoLexicon numeralRand 2 = .ok ("23 cats sleep.".toList, 11)) :=
  ⟨catRand_inRange, numeralRand_inRange,
    ⟨by decide, ((agreement_invariant demoLexicon catRand 2 catRand_inRange).2.1
      (by decide) _ _).2 ⟨"the cat".toList, 7, "sleeps".toList, rfl, rfl, rfl⟩⟩,
    ⟨by decide, ((agreement_invariant demoLexicon numeralRand 2 numeralRand_inRange).2.2
      (by decide) _ _).2 ⟨"23 cats".toList, 9, "sleep".toList, rfl, rfl, rfl⟩⟩⟩

/-! ## The range of `randomizer` -/

/-- C5: `randomizer(max)` is not always below `max`: when `rand()` returns
`RAND_MAX`, which it may, the truncated quotient `r * max / RAND_MAX` is `max`
itself; here `randomizer(2)` is 2 for `RAND_MAX = 2147483647`. -/
theorem randomizer_reaches_max :
    (listRand true [glibc_RAND_MAX]).rand 0 ≤ (listRand true [glibc_RAND_MAX]).RAND_MAX ∧
    randomizer (listRand true [glibc_RAND_MAX]) 2 0 = 2 ∧
    ¬ randomizer (listRand true [glibc_RAND_MAX]) 2 0 < 2 := by
  decide

/-! ## The concrete scenarios -/

/-- C6: when the draws of `passphrase` select no prefix (first `randomizer(6)`
not 0), an assertion (second `randomizer(6)` below 3), the singular branch
(`randomizer(2)` is 0), the determiner branch of `singular_noun_phrase` with
determiner number `d` of the twelve and no adjective, and case 0 of
`singular_verb_phrase`, then `passphrase` returns
`det ++ " " ++ noun ++ " " ++ verb ++ "."` with its first character upper-cased,
`noun` being the drawn singular count noun and `verb` the drawn TPSPI
intransitive verb; nine values of `rand()` are used. -/
theorem singular_assertion_scenario (L : Lexicon) (R : Rand) (i d : Nat)
    (det noun verb : CStr)
    (h1 : randomizer R 6 i ≠ 0) (h2 : randomizer R 6 (i + 1) < 3)
    (h3 : randomizer R 2 (i + 2) = 0) (h4 : randomizer R 2 (i + 3) ≠ 0)
    (h5 : randomizer R 12 (i + 4) = d) (hd : singular_determiners[d]? = some det)
    (h6 : randomizer R 4 (i + 5) ≠ 0)
    (h7 : L.singular_count_noun_array[randomizer R L.singular_count_noun_count (i + 6)]? =
      some noun)
    (h8 : randomizer R 4 (i + 7) = 0)
    (h9 : L.tpspi_intransitive_array[randomizer R L.tpspi_intransitive_count (i + 8)]? =
      some verb) :
    passphrase L R i =
      .ok (capitalize_first (det ++ " ".toList ++ noun ++ " ".toList ++ verb ++ ".".toList),
        i + 9) := by
  have hnp : singular_noun_phrase L R (i + 3) = .ok (det ++ " ".toList ++ noun, i + 7) := by
    unfold singular_noun_phrase
    rw [if_neg h4]
    simp only [show i + 3 + 1 = i + 4 by omega, show i + 3 + 2 = i + 5 by omega,
      show i + 3 + 3 = i + 6 by omega, h5, singular_determiner_eq, hd, if_neg h6,
      array_get_eq_ok.2 h7, use, bind, Except.bind, pure, Except.pure]
  have hvp : singular_verb_phrase L R (i + 7) = .ok (verb, i + 9) := by
    unfold singular_verb_phrase
    simp only [h8, show i + 7 + 1 = i + 8 by omega, array_get_eq_ok.2 h9, bind, Except.bind,
      pure, Except.pure]
  have has : assertion L R (i + 2) =
      .ok (det ++ " ".toList ++ noun ++ " ".toList ++ verb ++ ".".toList, i + 9) := by
    unfold assertion
    rw [if_pos h3]
    simp only [show i + 2 + 1 = i + 3 by omega, hnp, hvp, bind, Except.bind, pure, Except.pure]
  unfold passphrase passphrase_assembled
  rw [if_neg h1]
  generalize randomizer R 6 (i + 1) = k at h2
  interval_cases k <;> simp only [has, bind, Except.bind, pure, Except.pure]

/-- Witness of C6: with the single noun "cat" and the single TPSPI verb
"sleeps" and determiner 0, `passphrase` returns exactly "The cat sleeps.". -/
theorem singular_assertion_scenario_witness :
    passphrase scenarioLexicon catRand 0 = .ok ("The cat sleeps.".toList, 9) :=
  singular_assertion_scenario scenarioLexicon catRand 0 0 "the".toList "cat".toList
    "sleeps".toList (by decide) (by decide) (by decide) (by decide) (by decide) (by decide)
    (by decide) (by decide) (by decide) (by decide)

/-- C7: for in-range draws the determiner draw `d = randomizer(12)` of
`singular_noun_phrase` selects one of the twelve determiners the, this, my,
your, his, her, its, our, their, that, any, every, and the function returns
(i) when its first draw `randomizer(2)` is 0: `adj ++ " " ++ mass` if the next
`randomizer(4)` is 0 and the mass noun alone otherwise; (ii) when the first
draw is not 0: `det ++ " " ++ adj ++ " " ++ noun` if the `randomizer(4)` after
the determiner draw is 0 and `det ++ " " ++ noun` otherwise, `noun` being a
singular count noun.  The words are those at the drawn indices; the two draws
of an adjective and a noun are made in the order of the call site. -/
theorem singular_noun_phrase_form (L : Lexicon) (R : Rand) (i : Nat) (hR : InRange R) :
    (∃ det, singular_determiners[randomizer R 12 (i + 1)]? = some det) ∧
    (∀ adj mass, randomizer R 2 i = 0 → randomizer R 4 (i + 1) = 0 →
      L.adjective_array[(two_args R .snp_mass L.adjective_count L.mass_noun_count
        (i + 2)).1]? = some adj →
      L.mass_noun_array[(two_args R .snp_mass L.adjective_count L.mass_noun_count
        (i + 2)).2]? = some mass →
      singular_noun_phrase L R i = .ok (adj ++ " ".toList ++ mass, i + 4)) ∧
    (∀ mass, randomizer R 2 i = 0 → randomizer R 4 (i + 1) ≠ 0 →
      L.mass_noun_array[randomizer R L.mass_noun_count (i + 2)]? = some mass →
      singular_noun_phrase L R i = .ok (mass, i + 3)) ∧
    (∀ det adj noun, randomizer R 2 i ≠ 0 →
      singular_determiners[randomizer R 12 (i + 1)]? = some det →
      randomizer R 4 (i + 2) = 0 →
      L.adjective_array[(two_args R .snp_count L.adjective_count L.singular_count_noun_count
        (i + 3)).1]? = some adj →
      L.singular_count_noun_array[(two_args R .snp_count L.adjective_count
        L.singular_count_noun_count (i + 3)).2]? = some noun →
      singular_noun_phrase L R i =
        .ok (det ++ " ".toList ++ adj ++ " ".toList ++ noun, i + 5)) ∧
    (∀ det noun, randomizer R 2 i ≠ 0 →
      singular_determiners[randomizer R 12 (i + 1)]? = some det →
      randomizer R 4 (i + 2) ≠ 0 →
      L.singular_count_noun_array[randomizer R L.singular_count_noun_count (i + 3)]? =
        some noun →
      singular_noun_phrase L R i = .ok (det ++ " ".toList ++ noun, i + 4)) := by
  refine ⟨?_, ?_, ?_, ?_, ?_⟩
  · have hlt := randomizer_lt hR (i + 1) (by norm_num : 0 < 12)
    exact ⟨singular_determiners[randomizer R 12 (i + 1)],
      List.getElem?_eq_getElem (by simpa [singular_determiners] using hlt)⟩
  · intro adj mass h1 h2 ha hm
    unfold singular_noun_phrase
    rw [if_pos h1, if_pos h2]
    simp only [array_get_eq_ok.2 ha, array_get_eq_ok.2 hm, bind, Except.bind, pure,
      Except.pure]
  · intro mass h1 h2 hm
    unfold singular_noun_phrase
    rw [if_pos h1, if_neg h2]
    simp only [array_get_eq_ok.2 hm, bind, Except.bind, pure, Except.pure]
  · intro det adj noun h1 hd h2 ha hn
    unfold singular_noun_phrase
    rw [if_neg h1]
    simp only [if_pos h2, singular_determiner_eq, hd, array_get_eq_ok.2 ha,
      array_get_eq_ok.2 hn, use, bind, Except.bind, pure, Except.pure]
  · intro det noun h1 hd h2 hn
    unfold singular_noun_phrase
    rw [if_neg h1]
    simp only [if_neg h2, singular_determiner_eq, hd, array_get_eq_ok.2 hn, use, bind,
      Except.bind, pure, Except.pure]

/-- Witness of C7: with the single noun "cat", the single adjective "red",
determiner 0 and the adjective branch taken, `singular_noun_phrase` returns
exactly "the red cat". -/
theorem singular_noun_phrase_form_witness :
    InRange redCatRand ∧
    singular_noun_phrase scenarioLexicon redCatRand 0 = .ok ("the red cat".toList, 5) :=
  ⟨redCatRand_inRange,
    (singular_noun_phrase_form scenarioLexicon redCatRand 0 redCatRand_inRange).2.2.2.1
      "the".toList "red".toList "cat".toList (by decide) (by decide) (by decide) (by decide)
      (by decide)⟩

/-! ## The prefixed form and the base sentence -/

/-- C8: for in-range draws the first draw `randomizer(6)` of `passphrase` is
one of 0 .. 5, and the prefixed form is taken exactly when it is 0:
`passphrase` then returns `pp ++ sep ++ " " ++ base` with its first character
upper-cased, `pp` being the result of `prepositional_phrase`, `base` the base
sentence selected by the next `randomizer(6)`, and `sep` the character `,` when
the following `randomizer(2)` is 0 and `:` when it is 1; when the first draw is
not 0, `passphrase` returns the selected base sentence alone with its first
character upper-cased. -/
theorem prefixed_form (L : Lexicon) (R : Rand) (i : Nat) (hR : InRange R) :
    randomizer R 6 i < 6 ∧
    (randomizer R 6 i = 0 → ∀ s n, passphrase L R i = .ok (s, n) ↔
      ∃ pp j base m, prepositional_phrase L R (i + 1) = .ok (pp, j) ∧
        base_sentence L R (randomizer R 6 j) (j + 1) = .ok (base, m) ∧
        s = capitalize_first (pp ++ [separator R m] ++ " ".toList ++ base) ∧ n = m + 1) ∧
    (∀ m, (randomizer R 2 m = 0 ∧ separator R m = ',') ∨
      (randomizer R 2 m = 1 ∧ separator R m = ':')) ∧
    (randomizer R 6 i ≠ 0 → ∀ s n, passphrase L R i = .ok (s, n) ↔
      ∃ base, base_sentence L R (randomizer R 6 (i + 1)) (i + 2) = .ok (base, n) ∧
        s = capitalize_first base) := by
  refine ⟨randomizer_lt hR i (by norm_num), fun h0 s n => ?_, fun m => ?_, fun h0 s n => ?_⟩
  · unfold passphrase
    rw [passphrase_assembled_prefixed h0]
    unfold prefixed_sentence
    constructor
    · intro h
      cases hpp : prepositional_phrase L R (i + 1) with
      | error f => simp [hpp, bind, Except.bind] at h
      | ok p =>
        obtain ⟨pp, j⟩ := p
        cases hb : base_sentence L R (randomizer R 6 j) (j + 1) with
        | error f => simp [hpp, hb, bind, Except.bind] at h
        | ok b =>
          obtain ⟨base, m⟩ := b
          simp only [hpp, hb, bind, Except.bind, pure, Except.pure, Except.ok.injEq,
            Prod.mk.injEq] at h
          exact ⟨pp, j, base, m, rfl, hb, h.1.symm, h.2.symm⟩
    · rintro ⟨pp, j, base, m, hpp, hb, rfl, rfl⟩
      simp only [hpp, hb, bind, Except.bind, pure, Except.pure]
  · have := randomizer_lt hR m (by norm_num : 0 < 2)
    unfold separator
    rcases Nat.eq_zero_or_pos (randomizer R 2 m) with h | h
    · exact Or.inl ⟨h, by simp [h]⟩
    · exact Or.inr ⟨by omega, by rw [if_pos (by omega)]⟩
  · unfold passphrase
    rw [passphrase_assembled_unprefixed h0]
    constructor
    · intro h
      cases hb : base_sentence L R (randomizer R 6 (i + 1)) (i + 2) with
      | error f => simp [hb, bind, Except.bind] at h
      | ok b =>
        obtain ⟨base, m⟩ := b
        simp only [hb, bind, Except.bind, pure, Except.pure, Except.ok.injEq,
          Prod.mk.injEq] at h
        obtain ⟨rfl, rfl⟩ := h
        exact ⟨base, rfl, rfl⟩
    · rintro ⟨base, hb, rfl⟩
      simp only [hb, bind, Except.bind, pure, Except.pure]

/-- Witness of C8: a prefixed passphrase with separator `,`, one with
separator `:`, and an unprefixed one. -/
theorem prefixed_form_witness :
    InRange colonRand ∧ InRange catRand ∧
    (randomizer colonRand 6 0 = 0 ∧ randomizer colonRand 2 15 = 1 ∧
      passphrase demoLexicon colonRand 0 =
        .ok ("Under red cats: red water sleeps.".toList, 16)) ∧
    (randomizer catRand 6 9 = 0 ∧ randomizer catRand 2 24 = 0 ∧
      passphrase demoLexicon catRand 9 =
        .ok ("Under red cats, red water sleeps.".toList, 25)) ∧
    (randomizer catRand 6 0 ≠ 0 ∧
      passphrase demoLexicon catRand 0 = .ok ("The cat sleeps.".toList, 9)) :=
  ⟨colonRand_inRange, catRand_inRange,
    ⟨by decide, by decide, ((prefixed_form demoLexicon colonRand 0 colonRand_inRange).2.1
      (by decide) _ _).2
      ⟨"under red cats".toList, 7, "red water sleeps.".toList, 15, rfl, rfl, rfl, rfl⟩⟩,
    ⟨by decide, by decide, ((prefixed_form demoLexicon catRand 9 catRand_inRange).2.1
      (by decide) _ _).2
      ⟨"under red cats".toList, 16, "red water sleeps.".toList, 24, rfl, rfl, rfl, rfl⟩⟩,
    ⟨by decide, ((prefixed_form demoLexicon catRand 0 catRand_inRange).2.2.2
      (by decide) _ _).2 ⟨"the cat sleeps.".toList, rfl, rfl⟩⟩⟩

/-- C9: in both branches of `passphrase` the base sentence is selected by one
draw `k = randomizer(6)`, the same way: in the unprefixed branch the assembled
string is the base sentence for `k`, in the prefixed branch it is the
prepositional phrase, the separator, a space and the base sentence for `k`;
`k` in 0, 1, 2 gives `assertion`, `k` in 3, 4 gives `question`, `k = 5` gives
`command`.  So of the six outcomes three select an assertion, two a question
and one a command: the fractions 1/2, 1/3 and 1/6. -/
theorem base_sentence_selection (L : Lexicon) (R : Rand) (i : Nat) :
    (randomizer R 6 i ≠ 0 →
      passphrase_assembled L R i = base_sentence L R (randomizer R 6 (i + 1)) (i + 2)) ∧
    (randomizer R 6 i = 0 → ∀ pp j, prepositional_phrase L R (i + 1) = .ok (pp, j) →
      passphrase_assembled L R i =
        match base_sentence L R (randomizer R 6 j) (j + 1) with
        | .error f => .error f
        | .ok (base, m) => .ok (pp ++ [separator R m] ++ " ".toList ++ base, m + 1)) ∧
    (∀ k j, (k = 0 ∨ k = 1 ∨ k = 2 → base_sentence L R k j = assertion L R j) ∧
      (k = 3 ∨ k = 4 → base_sentence L R k j = question L R j) ∧
      (k = 5 → base_sentence L R k j = command L R j)) ∧
    ((List.range 6).filter (fun k => base_kind k = some .assertion)).length = 3 ∧
    ((List.range 6).filter (fun k => base_kind k = some .question)).length = 2 ∧
    ((List.range 6).filter (fun k => base_kind k = some .command)).length = 1 ∧
    ((3 : ℚ) / 6 = 1 / 2 ∧ (2 : ℚ) / 6 = 1 / 3 ∧ (1 : ℚ) / 6 = 1 / 6) := by
  refine ⟨passphrase_assembled_unprefixed, fun h0 pp j hpp => ?_, fun k j => ⟨?_, ?_, ?_⟩,
    by decide, by decide, by decide, by norm_num⟩
  · rw [passphrase_assembled_prefixed h0]
    unfold prefixed_sentence
    rw [hpp]
  · rintro (rfl | rfl | rfl) <;> rfl
  · rintro (rfl | rfl) <;> rfl
  · rintro rfl
    rfl

/-- Witness of C9: the same draw value 0 selects an assertion without prefix
and after a prefix. -/
theorem base_sentence_selection_witness :
    (randomizer catRand 6 0 ≠ 0 ∧ randomizer catRand 6 1 = 0 ∧
      passphrase_assembled demoLexicon catRand 0 = assertion demoLexicon catRand 2) ∧
    (randomizer catRand 6 9 = 0 ∧ randomizer catRand 6 16 = 0 ∧
      prepositional_phrase demoLexicon catRand 10 = .ok ("under red cats".toList, 16) ∧
      assertion demoLexicon catRand 17 = .ok ("red water sleeps.".toList, 24) ∧
      passphrase_assembled demoLexicon catRand 9 =
        .ok ("under red cats, red water sleeps.".toList, 25)) :=
  ⟨⟨by decide, by decide,
      (base_sentence_selection demoLexicon catRand 0).1 (by decide)⟩,
    ⟨by decide, by decide, rfl, rfl,
      (base_sentence_selection demoLexicon catRand 9).2.1 (by decide)
        "under red cats".toList 16 rfl⟩⟩

/-! ## The numeral determiner -/

theorem plural_determiner_none_iff (b : Nat) : plural_determiner b = none ↔ 12 ≤ b := by
  rw [plural_determiner_eq, List.getElem?_eq_none_iff]
  simp [plural_determiners]

theorem plural_determiners_nodup : plural_determiners.Nodup := by
  decide

/-- C10: in `plural_noun_phrase`, with `a` the first draw `randomizer(4)` and
`b` the determiner draw `randomizer(20)`: when `a` is not 0 and `b` is at least
12 the determiner is the synthesized numeral; when `a` is not 0 and `b` is below
12 it is the fixed determiner number `b` and no numeral is made; when `a` is 0
the phrase has no determiner at all.  The `default` case of the `switch` is
taken exactly for `b` at least 12.  Of the 80 pairs `(a, b)` with `a` below 4
and `b` below 20 exactly 24 use the numeral, the fraction 3/4 * 8/20 = 3/10,
and each of the twelve fixed plural determiners is selected by exactly one
value of `b`. -/
theorem numeral_determiner_distribution :
    (∀ (L : Lexicon) (R : Rand) (i : Nat), randomizer R 4 i ≠ 0 →
      12 ≤ randomizer R 20 (i + 1) →
      plural_noun_phrase L R i =
        match numeral_determiner R (i + 2) with
        | .error f => .error f
        | .ok (det, j) => plural_noun_phrase_rest L R det j) ∧
    (∀ (L : Lexicon) (R : Rand) (i : Nat) (det : CStr), randomizer R 4 i ≠ 0 →
      plural_determiners[randomizer R 20 (i + 1)]? = some det →
      plural_noun_phrase L R i = plural_noun_phrase_rest L R det (i + 2)) ∧
    (∀ (L : Lexicon) (R : Rand) (i : Nat) (s : CStr) (j : Nat), randomizer R 4 i = 0 →
      plural_noun_phrase L R i = .ok (s, j) →
      (∃ noun ∈ L.plural_count_noun_array, s = noun) ∨
      (∃ adj ∈ L.adjective_array, ∃ noun ∈ L.plural_count_noun_array,
        s = adj ++ " ".toList ++ noun)) ∧
    (∀ b, plural_determiner b = none ↔ 12 ≤ b) ∧
    ((Finset.range 4 ×ˢ Finset.range 20).filter
      (fun p => p.1 ≠ 0 ∧ plural_determiner p.2 = none)).card = 24 ∧
    (Finset.range 4 ×ˢ Finset.range 20).card = 80 ∧
    ((24 : ℚ) / 80 = 3 / 10 ∧ (3 : ℚ) / 4 * (8 / 20) = 3 / 10) ∧
    (∀ det ∈ plural_determiners, ∃! b, plural_determiner b = some det) := by
  refine ⟨fun L R i ha hb => ?_, fun L R i det ha hb => ?_, fun L R i s j ha h => ?_,
    plural_determiner_none_iff, by decide, by decide, by norm_num, fun det hdet => ?_⟩
  · unfold plural_noun_phrase
    rw [if_neg ha, (plural_determiner_none_iff _).2 hb]
    cases numeral_determiner R (i + 2) with
    | error f => rfl
    | ok p => rfl
  · unfold plural_noun_phrase
    rw [if_neg ha, plural_determiner_eq, hb]
    rfl
  · unfold plural_noun_phrase at h
    rw [if_pos ha] at h
    split_ifs at h
    all_goals simp only [bind_eq_ok, pure_eq_ok, Prod.mk.injEq] at h
    · obtain ⟨adj, hadj, noun, hnoun, rfl, -⟩ := h
      exact Or.inr ⟨adj, array_get_mem hadj, noun, array_get_mem hnoun, rfl⟩
    · obtain ⟨noun, hnoun, rfl, -⟩ := h
      exact Or.inl ⟨noun, array_get_mem hnoun, rfl⟩
  · obtain ⟨b, hb⟩ := List.getElem?_of_mem hdet
    refine ⟨b, (plural_determiner_eq b).trans hb, fun b' hb' => ?_⟩
    replace hb' : plural_determiners[b']? = plural_determiners[b]? :=
      ((plural_determiner_eq b').symm.trans hb').trans hb.symm
    have hlt : b < plural_determiners.length := by
      by_contra hge
      rw [List.getElem?_eq_none (Nat.le_of_not_lt hge)] at hb
      exact absurd hb (by simp)
    exact (List.getElem?_inj hlt plural_determiners_nodup hb'.symm).symm

/-- Witness of C10: draws with `a = 1`, `b = 12` give the numeral determiner
"23"; draws with `a = 1`, `b = 0` give the fixed determiner "the". -/
theorem numeral_determiner_distribution_witness :
    (randomizer numeralRand 4 3 = 1 ∧ randomizer numeralRand 20 4 = 12 ∧
      numeral_determiner numeralRand 5 = .ok ("23".toList, 7) ∧
      plural_noun_phrase demoLexicon numeralRand 3 =
        plural_noun_phrase_rest demoLexicon numeralRand "23".toList 7) ∧
    (randomizer (listRand true [raw 4 1]) 4 0 = 1 ∧ randomizer (listRand true [raw 4 1]) 20 1 = 0 ∧
      plural_noun_phrase demoLexicon (listRand true [raw 4 1]) 0 =
        plural_noun_phrase_rest demoLexicon (listRand true [raw 4 1]) "the".toList 2) :=
  ⟨⟨by decide, by decide, rfl,
      numeral_determiner_distribution.1 demoLexicon numeralRand 3 (by decide) (by decide)⟩,
    ⟨by decide, by decide,
      numeral_determiner_distribution.2.1 demoLexicon (listRand true [raw 4 1]) 0 "the".toList
        (by decide) (by decide)⟩⟩

/-! ## The forms of a question -/

theorem auxiliaries_none_of_ge {k : Nat} (h : 11 ≤ k) : auxiliaries[k]? = none :=
  List.getElem?_eq_none (by simpa [auxiliaries] using h)

theorem question_eq_form (L : Lexicon) (R : Rand) (i : Nat) :
    question L R i = question_form L R i := by
  unfold question question_form
  cases hvp : infinite_verb_phrase L R i with
  | error f => rfl
  | ok p =>
    obtain ⟨vp, j⟩ := p
    simp only [bind, Except.bind]
    generalize randomizer R 11 j = k
    by_cases hk : k < 11
    · interval_cases k
      all_goals simp only [auxiliaries, question_subject, List.getElem?_cons_zero,
        List.getElem?_cons_succ]
      all_goals first
        | (cases noun_phrase L R (j + 1) <;> rfl)
        | (cases plural_noun_phrase L R (j + 1) <;> rfl)
        | (cases singular_noun_phrase L R (j + 1) <;> rfl)
    · rw [auxiliaries_none_of_ge (Nat.le_of_not_lt hk)]
      split
      all_goals first
        | rfl
        | (exfalso; omega)

theorem question_form_eq_ok {L : Lexicon} {R : Rand} {i n : Nat} {s : CStr} :
    question_form L R i = .ok (s, n) ↔
      ∃ vp j aux np, infinite_verb_phrase L R i = .ok (vp, j) ∧
        auxiliaries[randomizer R 11 j]? = some aux ∧
        question_subject L R aux (j + 1) = .ok (np, n) ∧
        s = aux ++ " ".toList ++ np ++ " ".toList ++ vp ++ "?".toList := by
  unfold question_form
  constructor
  · intro h
    cases hvp : infinite_verb_phrase L R i with
    | error f => simp [hvp] at h
    | ok p =>
      obtain ⟨vp, j⟩ := p
      cases haux : auxiliaries[randomizer R 11 j]? with
      | none => simp [hvp, haux] at h
      | some aux =>
        cases hnp : question_subject L R aux (j + 1) with
        | error f => simp [hvp, haux, hnp] at h
        | ok q =>
          obtain ⟨np, m⟩ := q
          simp only [hvp, haux, hnp, Except.ok.injEq, Prod.mk.injEq] at h
          obtain ⟨rfl, rfl⟩ := h
          exact ⟨vp, j, aux, np, rfl, haux, hnp, rfl⟩
  · rintro ⟨vp, j, aux, np, hvp, haux, hnp, rfl⟩
    simp only [hvp, haux, hnp]

/-- C11: `question` returns a string exactly when `infinite_verb_phrase`
returns `vp`, the next draw `k = randomizer(11)` selects the auxiliary number
`k` of the list can, could, did, do, does, may, might, must, should, will,
would, and the subject built after it returns `np`: the result of
`plural_noun_phrase` after "do", of `singular_noun_phrase` after "does", of
`noun_phrase` after each of the other nine; the string is
`aux ++ " " ++ np ++ " " ++ vp ++ "?"`.  For in-range draws `k` is below 11, so
an auxiliary is selected, and on non-empty categories `question` returns a
string. -/
theorem question_forms (L : Lexicon) (R : Rand) (i : Nat) (hR : InRange R) :
    (∀ j, ∃ aux, auxiliaries[randomizer R 11 j]? = some aux) ∧
    (∀ s n, question L R i = .ok (s, n) ↔
      ∃ vp j aux np, infinite_verb_phrase L R i = .ok (vp, j) ∧
        auxiliaries[randomizer R 11 j]? = some aux ∧
        question_subject L R aux (j + 1) = .ok (np, n) ∧
        s = aux ++ " ".toList ++ np ++ " ".toList ++ vp ++ "?".toList) ∧
    (∀ j, question_subject L R "do".toList j = plural_noun_phrase L R j ∧
      question_subject L R "does".toList j = singular_noun_phrase L R j ∧
      ∀ aux ∈ auxiliaries, aux ≠ "do".toList → aux ≠ "does".toList →
        question_subject L R aux j = noun_phrase L R j) ∧
    (NonemptyCategories L → ∃ s n, question L R i = .ok (s, n)) := by
  refine ⟨fun j => ?_, fun s n => ?_, fun j => ⟨rfl, rfl, fun aux _ h1 h2 => ?_⟩,
    fun hC => question_ok hR hC i⟩
  · have hlt := randomizer_lt hR j (by norm_num : 0 < 11)
    exact ⟨auxiliaries[randomizer R 11 j],
      List.getElem?_eq_getElem (by simpa [auxiliaries] using hlt)⟩
  · rw [question_eq_form]
    exact question_form_eq_ok
  · unfold question_subject
    rw [if_neg h1, if_neg h2]

/-- Witness of C11: the draws after those of "The cat sleeps." are zeros and
give the question "can red cats sleep?": verb phrase "sleep", auxiliary 0,
subject "red cats". -/
theorem question_forms_witness :
    InRange catRand ∧
    infinite_verb_phrase demoLexicon catRand 9 = .ok ("sleep".toList, 11) ∧
    randomizer catRand 11 11 = 0 ∧
    noun_phrase demoLexicon catRand 12 = .ok ("red cats".toList, 17) ∧
    question demoLexicon catRand 9 = .ok ("can red cats sleep?".toList, 17) :=
  ⟨catRand_inRange, rfl, by decide, rfl,
    ((question_forms demoLexicon catRand 9 catRand_inRange).2.1 _ _).2
      ⟨"sleep".toList, 11, "can".toList, "red cats".toList, rfl, rfl, rfl, rfl⟩⟩

/-! ## The draws that a phrase depends on -/

theorem AgreeOn.randomizer_eq {R R' : Rand} {i j : Nat} (h : AgreeOn R R' i j) (n : Nat)
    {k : Nat} (h1 : i ≤ k) (h2 : k < j) : randomizer R' n k = randomizer R n k := by
  unfold randomizer
  rw [← h.1, h.2.2 k h1 h2]

theorem AgreeOn.two_args_eq {R R' : Rand} {i j : Nat} (h : AgreeOn R R' i j) (s : ArgSite)
    (m₁ m₂ : Nat) {k : Nat} (h1 : i ≤ k) (h2 : k + 1 < j) :
    two_args R' s m₁ m₂ k = two_args R s m₁ m₂ k := by
  unfold two_args
  rw [← h.2.1, h.randomizer_eq m₁ h1 (by omega), h.randomizer_eq m₂ h1 (by omega),
    h.randomizer_eq m₁ (by omega : i ≤ k + 1) h2, h.randomizer_eq m₂ (by omega : i ≤ k + 1) h2]

theorem AgreeOn.restrict {R R' : Rand} {i j i' j' : Nat} (h : AgreeOn R R' i j) (h1 : i ≤ i')
    (h2 : j' ≤ j) : AgreeOn R R' i' j' :=
  ⟨h.1, h.2.1, fun k hk1 hk2 => h.2.2 k (by omega) (by omega)⟩

theorem numeral_determiner_local {R R' : Rand} {i j : Nat} {s : CStr}
    (h : numeral_determiner R i = .ok (s, j)) (hA : AgreeOn R R' i j) :
    j = i + 2 ∧ numeral_determiner R' i = .ok (s, j) := by
  have hj : j = i + 2 := by
    unfold numeral_determiner at h
    simp only [bind_eq_ok, pure_eq_ok, Prod.mk.injEq] at h
    obtain ⟨_, _, _, _, _, rfl⟩ := h
    rfl
  subst hj
  refine ⟨rfl, ?_⟩
  unfold numeral_determiner at h ⊢
  rw [hA.two_args_eq _ _ _ (Nat.le_refl i) (by omega)]
  exact h

theorem singular_noun_phrase_local {L : Lexicon} {R R' : Rand} {i j : Nat} {s : CStr}
    (h : singular_noun_phrase L R i = .ok (s, j)) (hA : AgreeOn R R' i j) :
    i < j ∧ singular_noun_phrase L R' i = .ok (s, j) := by
  have hj : i + 3 ≤ j := by
    unfold singular_noun_phrase at h
    split_ifs at h
    all_goals simp only [bind_eq_ok, pure_eq_ok, use_eq_ok, Prod.mk.injEq] at h
    · obtain ⟨_, _, _, _, _, rfl⟩ := h; omega
    · obtain ⟨_, _, _, rfl⟩ := h; omega
    · obtain ⟨_, _, _, _, _, _, _, rfl⟩ := h; omega
    · obtain ⟨_, _, _, _, _, rfl⟩ := h; omega
  refine ⟨by omega, ?_⟩
  have e0 := hA.randomizer_eq 2 (Nat.le_refl i) (by omega)
  have e1 := hA.randomizer_eq 4 (by omega : i ≤ i + 1) (by omega)
  have e1' := hA.randomizer_eq 12 (by omega : i ≤ i + 1) (by omega)
  have e2 := fun n => hA.randomizer_eq n (by omega : i ≤ i + 2) (by omega)
  unfold singular_noun_phrase at h ⊢
  rw [e0, e1, e1', e2 4, e2 L.mass_noun_count]
  split_ifs at h ⊢
  · have hj4 : j = i + 4 := by
      simp only [bind_eq_ok, pure_eq_ok, Prod.mk.injEq] at h
      obtain ⟨_, _, _, _, _, rfl⟩ := h; rfl
    rw [hA.two_args_eq _ _ _ (by omega : i ≤ i + 2) (by omega)]
    exact h
  · exact h
  · have hj5 : j = i + 5 := by
      simp only [bind_eq_ok, pure_eq_ok, use_eq_ok, Prod.mk.injEq] at h
      obtain ⟨_, _, _, _, _, _, _, rfl⟩ := h; rfl
    rw [hA.two_args_eq _ _ _ (by omega : i ≤ i + 3) (by omega)]
    exact h
  · have hj4 : j = i + 4 := by
      simp only [bind_eq_ok, pure_eq_ok, use_eq_ok, Prod.mk.injEq] at h
      obtain ⟨_, _, _, _, _, rfl⟩ := h; rfl
    rw [hA.randomizer_eq _ (by omega : i ≤ i + 3) (by omega)]
    exact h

theorem AgreeOn.refl (R : Rand) (i j : Nat) : AgreeOn R R i j :=
  ⟨rfl, rfl, fun _ _ _ => rfl⟩

theorem plural_noun_phrase_rest_local {L : Lexicon} {R R' : Rand} {det : CStr} {i j : Nat}
    {s : CStr} (h : plural_noun_phrase_rest L R det i = .ok (s, j)) (hA : AgreeOn R R' i j) :
    i < j ∧ plural_noun_phrase_rest L R' det i = .ok (s, j) := by
  have hj : i + 2 ≤ j := by
    unfold plural_noun_phrase_rest at h
    split_ifs at h
    all_goals simp only [bind_eq_ok, pure_eq_ok, Prod.mk.injEq] at h
    · obtain ⟨_, _, _, _, _, rfl⟩ := h; omega
    · obtain ⟨_, _, _, rfl⟩ := h; omega
  refine ⟨by omega, ?_⟩
  have e0 := hA.randomizer_eq 4 (Nat.le_refl i) (by omega)
  have e1 := fun n => hA.randomizer_eq n (by omega : i ≤ i + 1) (by omega)
  unfold plural_noun_phrase_rest at h ⊢
  rw [e0, e1 L.plural_count_noun_count]
  split_ifs at h ⊢
  · have hj3 : j = i + 3 := by
      simp only [bind_eq_ok, pure_eq_ok, Prod.mk.injEq] at h
      obtain ⟨_, _, _, _, _, rfl⟩ := h; rfl
    rw [hA.two_args_eq _ _ _ (by omega : i ≤ i + 1) (by omega)]
    exact h
  · exact h

theorem plural_noun_phrase_local {L : Lexicon} {R R' : Rand} {i j : Nat} {s : CStr}
    (h : plural_noun_phrase L R i = .ok (s, j)) (hA : AgreeOn R R' i j) :
    i < j ∧ plural_noun_phrase L R' i = .ok (s, j) := by
  unfold plural_noun_phrase at h ⊢
  split_ifs at h with h0 h1
  · have hj : j = i + 4 := by
      simp only [bind_eq_ok, pure_eq_ok, Prod.mk.injEq] at h
      obtain ⟨_, _, _, _, _, rfl⟩ := h; rfl
    refine ⟨by omega, ?_⟩
    rw [hA.randomizer_eq 4 (Nat.le_refl i) (by omega), if_pos h0,
      hA.randomizer_eq 4 (by omega : i ≤ i + 1) (by omega), if_pos h1,
      hA.two_args_eq _ _ _ (by omega : i ≤ i + 2) (by omega)]
    exact h
  · have hj : j = i + 3 := by
      simp only [bind_eq_ok, pure_eq_ok, Prod.mk.injEq] at h
      obtain ⟨_, _, _, rfl⟩ := h; rfl
    refine ⟨by omega, ?_⟩
    rw [hA.randomizer_eq 4 (Nat.le_refl i) (by omega), if_pos h0,
      hA.randomizer_eq 4 (by omega : i ≤ i + 1) (by omega), if_neg h1,
      hA.randomizer_eq _ (by omega : i ≤ i + 2) (by omega)]
    exact h
  · split at h
    · rename_i d hd
      simp only [bind_eq_ok, pure_eq_ok] at h
      obtain ⟨⟨det, k⟩, hdet, hr⟩ := h
      simp only [Prod.mk.injEq] at hdet
      obtain ⟨rfl, rfl⟩ := hdet
      have hm := (plural_noun_phrase_rest_local hr (AgreeOn.refl R _ _)).1
      have hr' := (plural_noun_phrase_rest_local hr (hA.restrict (by omega) (Nat.le_refl j))).2
      refine ⟨by omega, ?_⟩
      rw [hA.randomizer_eq 4 (Nat.le_refl i) (by omega), if_neg h0,
        hA.randomizer_eq 20 (by omega : i ≤ i + 1) (by omega), hd]
      simpa only [bind, Except.bind, pure, Except.pure] using hr'
    · rename_i hd
      simp only [bind_eq_ok] at h
      obtain ⟨⟨det, k⟩, hdet, hr⟩ := h
      have hk := (numeral_determiner_local hdet (AgreeOn.refl R _ _)).1
      subst hk
      have hm := (plural_noun_phrase_rest_local hr (AgreeOn.refl R _ _)).1
      have hdet' := (numeral_determiner_local hdet (hA.restrict (by omega) (by omega))).2
      have hr' := (plural_noun_phrase_rest_local hr (hA.restrict (by omega) (Nat.le_refl j))).2
      refine ⟨by omega, ?_⟩
      rw [hA.randomizer_eq 4 (Nat.le_refl i) (by omega), if_neg h0,
        hA.randomizer_eq 20 (by omega : i ≤ i + 1) (by omega), hd]
      simpa only [hdet', bind, Except.bind] using hr'

theorem noun_phrase_local {L : Lexicon} {R R' : Rand} {i j : Nat} {s : CStr}
    (h : noun_phrase L R i = .ok (s, j)) (hA : AgreeOn R R' i j) :
    i < j ∧ noun_phrase L R' i = .ok (s, j) := by
  unfold noun_phrase at h ⊢
  split_ifs at h with h0
  · have hm := (singular_noun_phrase_local h (AgreeOn.refl R _ _)).1
    refine ⟨by omega, ?_⟩
    rw [hA.randomizer_eq 2 (Nat.le_refl i) (by omega), if_pos h0]
    exact (singular_noun_phrase_local h (hA.restrict (by omega) (Nat.le_refl j))).2
  · have hm := (plural_noun_phrase_local h (AgreeOn.refl R _ _)).1
    refine ⟨by omega, ?_⟩
    rw [hA.randomizer_eq 2 (Nat.le_refl i) (by omega), if_neg h0]
    exact (plural_noun_phrase_local h (hA.restrict (by omega) (Nat.le_refl j))).2

theorem infinite_verb_phrase_local {L : Lexicon} {R R' : Rand} {i j : Nat} {s : CStr}
    (h : infinite_verb_phrase L R i = .ok (s, j)) (hA : AgreeOn R R' i j) :
    i < j ∧ infinite_verb_phrase L R' i = .ok (s, j) := by
  unfold infinite_verb_phrase at h ⊢
  split_ifs at h with h0
  · have hj : j = i + 2 := by
      simp only [bind_eq_ok, pure_eq_ok, Prod.mk.injEq] at h
      obtain ⟨_, _, _, rfl⟩ := h; rfl
    refine ⟨by omega, ?_⟩
    rw [hA.randomizer_eq 2 (Nat.le_refl i) (by omega), if_pos h0,
      hA.randomizer_eq _ (by omega : i ≤ i + 1) (by omega)]
    exact h
  · simp only [bind_eq_ok, pure_eq_ok, Prod.mk.injEq] at h
    obtain ⟨⟨np, k⟩, hnp, w, hw, rfl, rfl⟩ := h
    have hm := (noun_phrase_local hnp (AgreeOn.refl R _ _)).1
    have hnp' := (noun_phrase_local hnp (hA.restrict (by omega) (by omega))).2
    refine ⟨by omega, ?_⟩
    rw [hA.randomizer_eq 2 (Nat.le_refl i) (by omega), if_neg h0]
    simp only [hnp', bind, Except.bind, pure, Except.pure,
      hA.randomizer_eq L.transitive_count (by omega : i ≤ k) (by omega), hw]

theorem question_subject_lt {L : Lexicon} {R : Rand} {aux : CStr} {j n : Nat} {np : CStr}
    (h : question_subject L R aux j = .ok (np, n)) : j < n := by
  unfold question_subject at h
  split_ifs at h
  · exact (plural_noun_phrase_local h (AgreeOn.refl R _ _)).1
  · exact (singular_noun_phrase_local h (AgreeOn.refl R _ _)).1
  · exact (noun_phrase_local h (AgreeOn.refl R _ _)).1

/-- C16: when `question`, started at call number `i` of `rand()`, returns a
string, the calls `i .. j - 1` are those of `infinite_verb_phrase`, call `j`
is the auxiliary draw `randomizer(11)` and the calls `j + 1 .. n - 1` are those
of the subject, while the string is `aux ++ " " ++ np ++ " " ++ vp ++ "?"` with
the noun phrase before the verb phrase.  The verb phrase depends on the calls
`i .. j - 1` only: with any other values from call `j` on, whichever auxiliary
and subject they select, `infinite_verb_phrase` returns the same `vp` and every
string that `question` returns contains that `vp` before the question mark. -/
theorem question_draw_order (L : Lexicon) (R : Rand) (i : Nat) :
    (∀ s n, question L R i = .ok (s, n) →
      ∃ vp j aux np, infinite_verb_phrase L R i = .ok (vp, j) ∧ i < j ∧
        auxiliaries[randomizer R 11 j]? = some aux ∧
        question_subject L R aux (j + 1) = .ok (np, n) ∧ j + 1 < n ∧
        s = aux ++ " ".toList ++ np ++ " ".toList ++ vp ++ "?".toList) ∧
    (∀ vp j, infinite_verb_phrase L R i = .ok (vp, j) → ∀ R', AgreeOn R R' i j →
      infinite_verb_phrase L R' i = .ok (vp, j) ∧
      ∀ s n, question L R' i = .ok (s, n) →
        ∃ aux np, auxiliaries[randomizer R' 11 j]? = some aux ∧
          question_subject L R' aux (j + 1) = .ok (np, n) ∧
          s = aux ++ " ".toList ++ np ++ " ".toList ++ vp ++ "?".toList) := by
  constructor
  · intro s n h
    rw [question_eq_form] at h
    obtain ⟨vp, j, aux, np, hvp, haux, hnp, rfl⟩ := question_form_eq_ok.1 h
    exact ⟨vp, j, aux, np, hvp, (infinite_verb_phrase_local hvp (AgreeOn.refl R _ _)).1, haux,
      hnp, question_subject_lt hnp, rfl⟩
  · intro vp j hvp R' hA
    have hvp' := (infinite_verb_phrase_local hvp hA).2
    refine ⟨hvp', fun s n h => ?_⟩
    rw [question_eq_form] at h
    obtain ⟨vp', j', aux, np, hvp'', haux, hnp, rfl⟩ := question_form_eq_ok.1 h
    rw [hvp'] at hvp''
    simp only [Except.ok.injEq, Prod.mk.injEq] at hvp''
    obtain ⟨rfl, rfl⟩ := hvp''
    exact ⟨aux, np, haux, hnp, rfl⟩

theorem shouldRand_agrees : AgreeOn catRand shouldRand 9 11 := by
  refine ⟨rfl, rfl, fun k h1 h2 => ?_⟩
  interval_cases k <;> rfl

/-- Witness of C16: two draw sequences that agree on the two draws of the verb
phrase "sleep" and select the auxiliaries "can" and "should". -/
theorem question_draw_order_witness :
    infinite_verb_phrase demoLexicon catRand 9 = .ok ("sleep".toList, 11) ∧
    AgreeOn catRand shouldRand 9 11 ∧
    question demoLexicon catRand 9 = .ok ("can red cats sleep?".toList, 17) ∧
    question demoLexicon shouldRand 9 = .ok ("should red cats sleep?".toList, 17) ∧
    infinite_verb_phrase demoLexicon shouldRand 9 = .ok ("sleep".toList, 11) :=
  ⟨rfl, shouldRand_agrees, rfl, rfl,
    ((question_draw_order demoLexicon catRand 9).2 "sleep".toList 11 rfl shouldRand
      shouldRand_agrees).1⟩

/-! ## The last character of a phrase -/

theorem ends_append {p : Char → Prop} {b : CStr} (h : Ends p b) (a : CStr) :
    Ends p (a ++ b) := by
  obtain ⟨cs, c, rfl, hc⟩ := h
  exact ⟨a ++ cs, c, (List.append_assoc a cs [c]).symm, hc⟩

theorem ends_of_word {w : CStr} (h : w ≠ [] ∧ LowerWord w) :
    Ends (fun c => c.isLower = true) w := by
  obtain ⟨hne, hl⟩ := h
  refine ⟨w.dropLast, w.getLast hne, (List.dropLast_append_getLast hne).symm, ?_⟩
  exact hl _ (List.getLast_mem hne)

theorem ends_of_array_get {a : List CStr} {k : Nat} {w : CStr}
    (ha : ∀ w ∈ a, w ≠ [] ∧ LowerWord w) (h : array_get a k = .ok w) :
    Ends (fun c => c.isLower = true) w :=
  ends_of_word (ha w (array_get_mem h))

theorem singular_noun_phrase_ends {L : Lexicon} {R : Rand} {i j : Nat} {s : CStr}
    (hL : NonemptyLowerWords L) (h : singular_noun_phrase L R i = .ok (s, j)) :
    Ends (fun c => c.isLower = true) s := by
  obtain ⟨h1, h2, h3, h4, h5, h6, h7, h8, h9, h10, h11⟩ := hL
  unfold singular_noun_phrase at h
  split_ifs at h
  all_goals simp only [bind_eq_ok, pure_eq_ok, use_eq_ok, Prod.mk.injEq] at h
  · obtain ⟨a, ha, n, hn, rfl, -⟩ := h
    exact ends_append (ends_of_array_get h3 hn) _
  · obtain ⟨n, hn, rfl, -⟩ := h
    exact ends_of_array_get h3 hn
  · obtain ⟨d, hd, a, ha, n, hn, rfl, -⟩ := h
    exact ends_append (ends_of_array_get h1 hn) _
  · obtain ⟨d, hd, n, hn, rfl, -⟩ := h
    exact ends_append (ends_of_array_get h1 hn) _

theorem plural_noun_phrase_rest_ends {L : Lexicon} {R : Rand} {det : CStr} {i j : Nat}
    {s : CStr} (hL : NonemptyLowerWords L)
    (h : plural_noun_phrase_rest L R det i = .ok (s, j)) :
    Ends (fun c => c.isLower = true) s := by
  obtain ⟨h1, h2, h3, h4, h5, h6, h7, h8, h9, h10, h11⟩ := hL
  unfold plural_noun_phrase_rest at h
  split_ifs at h
  all_goals simp only [bind_eq_ok, pure_eq_ok, Prod.mk.injEq] at h
  · obtain ⟨a, ha, n, hn, rfl, -⟩ := h
    exact ends_append (ends_of_array_get h2 hn) _
  · obtain ⟨n, hn, rfl, -⟩ := h
    exact ends_append (ends_of_array_get h2 hn) _

theorem plural_noun_phrase_ends {L : Lexicon} {R : Rand} {i j : Nat} {s : CStr}
    (hL : NonemptyLowerWords L) (h : plural_noun_phrase L R i = .ok (s, j)) :
    Ends (fun c => c.isLower = true) s := by
  have hrest := fun det i j s => @plural_noun_phrase_rest_ends L R det i j s hL
  obtain ⟨h1, h2, h3, h4, h5, h6, h7, h8, h9, h10, h11⟩ := hL
  unfold plural_noun_phrase at h
  split_ifs at h
  · simp only [bind_eq_ok, pure_eq_ok, Prod.mk.injEq] at h
    obtain ⟨a, ha, n, hn, rfl, -⟩ := h
    exact ends_append (ends_of_array_get h2 hn) _
  · simp only [bind_eq_ok, pure_eq_ok, Prod.mk.injEq] at h
    obtain ⟨n, hn, rfl, -⟩ := h
    exact ends_of_array_get h2 hn
  · split at h
    all_goals simp only [bind_eq_ok, pure_eq_ok] at h
    all_goals obtain ⟨⟨det, k⟩, -, hr⟩ := h
    all_goals exact hrest _ _ _ _ hr

theorem noun_phrase_ends {L : Lexicon} {R : Rand} {i j : Nat} {s : CStr}
    (hL : NonemptyLowerWords L) (h : noun_phrase L R i = .ok (s, j)) :
    Ends (fun c => c.isLower = true) s := by
  unfold noun_phrase at h
  split_ifs at h
  · exact singular_noun_phrase_ends hL h
  · exact plural_noun_phrase_ends hL h

theorem prepositional_phrase_ends {L : Lexicon} {R : Rand} {i j : Nat} {s : CStr}
    (hL : NonemptyLowerWords L) (h : prepositional_phrase L R i = .ok (s, j)) :
    Ends (fun c => c.isLower = true) s := by
  unfold prepositional_phrase at h
  simp only [bind_eq_ok, pure_eq_ok, Prod.mk.injEq] at h
  obtain ⟨⟨np, k⟩, hnp, w, hw, rfl, -⟩ := h
  exact ends_append (noun_phrase_ends hL hnp) _

theorem infinite_verb_phrase_ends {L : Lexicon} {R : Rand} {i j : Nat} {s : CStr}
    (hL : NonemptyLowerWords L) (h : infinite_verb_phrase L R i = .ok (s, j)) :
    Ends (fun c => c.isLower = true) s := by
  unfold infinite_verb_phrase at h
  split_ifs at h
  all_goals simp only [bind_eq_ok, pure_eq_ok, Prod.mk.injEq] at h
  · obtain ⟨w, hw, rfl, -⟩ := h
    exact ends_of_array_get hL.2.2.2.2.1 hw
  · obtain ⟨⟨np, k⟩, hnp, w, hw, rfl, -⟩ := h
    exact ends_append (noun_phrase_ends hL hnp) _

theorem not_isspace_of_lowerOrDigit {c : Char} (h : LowerOrDigit c) : ¬ isspace c := by
  have hd : ∀ d ∈ digits, ¬ isspace d := by
    unfold isspace
    decide
  rcases h with h | h
  · unfold isspace
    rintro (rfl | rfl | rfl | rfl | rfl | rfl) <;> exact absurd h (by decide)
  · exact hd c h

theorem noStray_of_starts_ends {s : CStr} (h1 : Starts LowerOrDigit s)
    (h2 : Ends (fun c => c.isLower = true) s) : NoStrayWhitespace s := by
  obtain ⟨c, cs, e1, hc⟩ := h1
  obtain ⟨ds, d, e2, hd⟩ := h2
  exact ⟨⟨c, cs, e1, not_isspace_of_lowerOrDigit hc⟩,
    ⟨ds, d, e2, not_isspace_of_lowerOrDigit (Or.inl hd)⟩⟩

/-- C12: on a lexicon whose categories are all non-empty and whose words are
non-empty strings of lower-case ASCII letters, with in-range draws, each of
`singular_noun_phrase`, `plural_noun_phrase`, `noun_phrase`,
`prepositional_phrase` and `infinite_verb_phrase` returns a string, and that
string neither begins nor ends with a whitespace character. -/
theorem no_stray_whitespace (L : Lexicon) (R : Rand) (i : Nat)
    (hW : NonemptyLowerWords L) (hC : NonemptyCategories L) (hR : InRange R) :
    (∃ s j, singular_noun_phrase L R i = .ok (s, j) ∧ NoStrayWhitespace s) ∧
    (∃ s j, plural_noun_phrase L R i = .ok (s, j) ∧ NoStrayWhitespace s) ∧
    (∃ s j, noun_phrase L R i = .ok (s, j) ∧ NoStrayWhitespace s) ∧
    (∃ s j, prepositional_phrase L R i = .ok (s, j) ∧ NoStrayWhitespace s) ∧
    (∃ s j, infinite_verb_phrase L R i = .ok (s, j) ∧ NoStrayWhitespace s) := by
  obtain ⟨s1, j1, e1⟩ := singular_noun_phrase_ok hR hC i
  obtain ⟨s2, j2, e2⟩ := plural_noun_phrase_ok hR hC i
  obtain ⟨s3, j3, e3⟩ := noun_phrase_ok hR hC i
  obtain ⟨s4, j4, e4⟩ := prepositional_phrase_ok hR hC i
  obtain ⟨s5, j5, e5⟩ := infinite_verb_phrase_ok hR hC i
  exact ⟨⟨s1, j1, e1, noStray_of_starts_ends (singular_noun_phrase_starts hW e1).lowerOrDigit
      (singular_noun_phrase_ends hW e1)⟩,
    ⟨s2, j2, e2, noStray_of_starts_ends (plural_noun_phrase_starts hW hR e2)
      (plural_noun_phrase_ends hW e2)⟩,
    ⟨s3, j3, e3, noStray_of_starts_ends (noun_phrase_starts hW hR e3)
      (noun_phrase_ends hW e3)⟩,
    ⟨s4, j4, e4, noStray_of_starts_ends (prepositional_phrase_starts hW e4).lowerOrDigit
      (prepositional_phrase_ends hW e4)⟩,
    ⟨s5, j5, e5, noStray_of_starts_ends (infinite_verb_phrase_starts hW e5).lowerOrDigit
      (infinite_verb_phrase_ends hW e5)⟩⟩

/-- Witness of C12: the five phrases built from `demoLexicon` on the draws
of "23 cats sleep.", among them the plural noun phrase "23 cats". -/
theorem no_stray_whitespace_witness :
    NonemptyLowerWords demoLexicon ∧ NonemptyCategories demoLexicon ∧ InRange numeralRand ∧
    plural_noun_phrase demoLexicon numeralRand 3 = .ok ("23 cats".toList, 9) ∧
    (∃ s j, plural_noun_phrase demoLexicon numeralRand 3 = .ok (s, j) ∧
      NoStrayWhitespace s) :=
  ⟨demoLexicon_words, demoLexicon_categories, numeralRand_inRange, rfl,
    (no_stray_whitespace demoLexicon numeralRand 3 demoLexicon_words demoLexicon_categories
      numeralRand_inRange).2.1⟩

/-! ## Empty categories -/

theorem randomizer_zero_max (R : Rand) (i : Nat) : randomizer R 0 i = 0 := by
  simp [randomizer, randomizer_value]

theorem array_get_nil (k : Nat) : array_get [] k = .error .outOfBounds := rfl

theorem array_get_of_length_zero {a : List CStr} (h : a.length = 0) (k : Nat) :
    array_get a k = .error .outOfBounds := by
  rw [List.length_eq_zero.1 h]
  rfl

theorem undefined_bind_left {α : Type} {x : Except Fault α}
    {f : α → Except Fault (CStr × Nat)} (h : ∃ e, x = .error e) : Undefined (x >>= f) := by
  obtain ⟨e, rfl⟩ := h
  exact ⟨e, rfl⟩

theorem undefined_bind_right {α : Type} {x : Except Fault α}
    {f : α → Except Fault (CStr × Nat)} (h : ∀ a, Undefined (f a)) : Undefined (x >>= f) := by
  cases x with
  | error e => exact ⟨e, rfl⟩
  | ok a => exact h a

theorem undefined_array_get_bind {a : List CStr} (h : a.length = 0) (k : Nat)
    (f : CStr → Except Fault (CStr × Nat)) : Undefined (array_get a k >>= f) :=
  undefined_bind_left ⟨_, array_get_of_length_zero h k⟩

theorem singular_noun_phrase_empty (L : Lexicon) (R : Rand) (i : Nat) :
    (randomizer R 2 i = 0 → L.mass_noun_count = 0 →
      Undefined (singular_noun_phrase L R i)) ∧
    (randomizer R 2 i = 0 → randomizer R 4 (i + 1) = 0 → L.adjective_count = 0 →
      Undefined (singular_noun_phrase L R i)) ∧
    (randomizer R 2 i ≠ 0 → L.singular_count_noun_count = 0 →
      Undefined (singular_noun_phrase L R i)) ∧
    (randomizer R 2 i ≠ 0 → randomizer R 4 (i + 2) = 0 → L.adjective_count = 0 →
      Undefined (singular_noun_phrase L R i)) := by
  refine ⟨fun h0 he => ?_, fun h0 h1 he => ?_, fun h0 he => ?_, fun h0 h1 he => ?_⟩
  · unfold singular_noun_phrase
    rw [if_pos h0]
    split_ifs
    · exact undefined_bind_right fun _ => undefined_array_get_bind he _ _
    · exact undefined_array_get_bind he _ _
  · unfold singular_noun_phrase
    rw [if_pos h0, if_pos h1]
    exact undefined_array_get_bind he _ _
  · unfold singular_noun_phrase
    rw [if_neg h0]
    split_ifs
    · exact undefined_bind_right fun _ => undefined_bind_right fun _ =>
        undefined_array_get_bind he _ _
    · exact undefined_bind_right fun _ => undefined_array_get_bind he _ _
  · unfold singular_noun_phrase
    rw [if_neg h0]
    simp only [if_pos h1]
    exact undefined_bind_right fun _ => undefined_array_get_bind he _ _

theorem plural_noun_phrase_rest_empty (L : Lexicon) (R : Rand) (det : CStr) (j : Nat) :
    (L.plural_count_noun_count = 0 → Undefined (plural_noun_phrase_rest L R det j)) ∧
    (randomizer R 4 j = 0 → L.adjective_count = 0 →
      Undefined (plural_noun_phrase_rest L R det j)) := by
  refine ⟨fun he => ?_, fun h0 he => ?_⟩
  · unfold plural_noun_phrase_rest
    split_ifs
    · exact undefined_bind_right fun _ => undefined_array_get_bind he _ _
    · exact undefined_array_get_bind he _ _
  · unfold plural_noun_phrase_rest
    rw [if_pos h0]
    exact undefined_array_get_bind he _ _

theorem plural_noun_phrase_empty (L : Lexicon) (R : Rand) (i : Nat) :
    (L.plural_count_noun_count = 0 → Undefined (plural_noun_phrase L R i)) ∧
    (randomizer R 4 i = 0 → randomizer R 4 (i + 1) = 0 → L.adjective_count = 0 →
      Undefined (plural_noun_phrase L R i)) ∧
    (randomizer R 4 i ≠ 0 → plural_determiner (randomizer R 20 (i + 1)) ≠ none →
      randomizer R 4 (i + 2) = 0 → L.adjective_count = 0 →
      Undefined (plural_noun_phrase L R i)) ∧
    (randomizer R 4 i ≠ 0 → plural_determiner (randomizer R 20 (i + 1)) = none →
      randomizer R 4 (i + 4) = 0 → L.adjective_count = 0 →
      Undefined (plural_noun_phrase L R i)) := by
  refine ⟨fun he => ?_, fun h0 h1 he => ?_, fun h0 hd h1 he => ?_, fun h0 hd h1 he => ?_⟩
  · unfold plural_noun_phrase
    split_ifs
    · exact undefined_bind_right fun _ => undefined_array_get_bind he _ _
    · exact undefined_array_get_bind he _ _
    · split
      · exact (plural_noun_phrase_rest_empty L R _ _).1 he
      · exact undefined_bind_right fun _ => (plural_noun_phrase_rest_empty L R _ _).1 he
  · unfold plural_noun_phrase
    rw [if_pos h0, if_pos h1]
    exact undefined_array_get_bind he _ _
  · unfold plural_noun_phrase
    rw [if_neg h0]
    split
    · exact (plural_noun_phrase_rest_empty L R _ _).2 h1 he
    · rename_i hn
      exact absurd hn hd
  · unfold plural_noun_phrase
    rw [if_neg h0, hd]
    cases hnum : numeral_determiner R (i + 2) with
    | error f => exact ⟨f, rfl⟩
    | ok p =>
      obtain ⟨det, k⟩ := p
      have hk := (numeral_determiner_local hnum (AgreeOn.refl R _ _)).1
      subst hk
      exact (plural_noun_phrase_rest_empty L R _ _).2 h1 he

theorem prepositional_phrase_empty (L : Lexicon) (R : Rand) (i : Nat) :
    (L.preposition_count = 0 → Undefined (prepositional_phrase L R i)) ∧
    (Undefined (noun_phrase L R i) → Undefined (prepositional_phrase L R i)) := by
  refine ⟨fun he => ?_, fun hn => ?_⟩
  · unfold prepositional_phrase
    exact undefined_bind_right fun _ => undefined_array_get_bind he _ _
  · unfold prepositional_phrase
    exact undefined_bind_left hn

theorem infinite_verb_phrase_empty (L : Lexicon) (R : Rand) (i : Nat) :
    (randomizer R 2 i = 0 → L.intransitive_count = 0 →
      Undefined (infinite_verb_phrase L R i)) ∧
    (randomizer R 2 i ≠ 0 → L.transitive_count = 0 →
      Undefined (infinite_verb_phrase L R i)) ∧
    (randomizer R 2 i ≠ 0 → Undefined (noun_phrase L R (i + 1)) →
      Undefined (infinite_verb_phrase L R i)) := by
  refine ⟨fun h0 he => ?_, fun h0 he => ?_, fun h0 hn => ?_⟩
  · unfold infinite_verb_phrase
    rw [if_pos h0]
    exact undefined_array_get_bind he _ _
  · unfold infinite_verb_phrase
    rw [if_neg h0]
    exact undefined_bind_right fun _ => undefined_array_get_bind he _ _
  · unfold infinite_verb_phrase
    rw [if_neg h0]
    exact undefined_bind_left hn

theorem singular_verb_phrase_empty (L : Lexicon) (R : Rand) (i : Nat) :
    (randomizer R 4 i = 0 → L.tpspi_intransitive_count = 0 →
      Undefined (singular_verb_phrase L R i)) ∧
    (randomizer R 4 i = 1 → L.tpspi_transitive_count = 0 →
      Undefined (singular_verb_phrase L R i)) ∧
    (randomizer R 4 i = 2 → L.past_intransitive_count = 0 →
      Undefined (singular_verb_phrase L R i)) ∧
    (randomizer R 4 i = 3 → L.past_transitive_count = 0 →
      Undefined (singular_verb_phrase L R i)) ∧
    (randomizer R 4 i = 1 ∨ randomizer R 4 i = 3 → Undefined (noun_phrase L R (i + 1)) →
      Undefined (singular_verb_phrase L R i)) := by
  refine ⟨fun h0 he => ?_, fun h0 he => ?_, fun h0 he => ?_, fun h0 he => ?_, fun h0 hn => ?_⟩
  · unfold singular_verb_phrase
    rw [h0]
    exact undefined_array_get_bind he _ _
  · unfold singular_verb_phrase
    rw [h0]
    exact undefined_bind_right fun _ => undefined_array_get_bind he _ _
  · unfold singular_verb_phrase
    rw [h0]
    exact undefined_array_get_bind he _ _
  · unfold singular_verb_phrase
    rw [h0]
    exact undefined_bind_right fun _ => undefined_array_get_bind he _ _
  · unfold singular_verb_phrase
    rcases h0 with h0 | h0 <;> rw [h0] <;> exact undefined_bind_left hn

theorem plural_verb_phrase_empty (L : Lexicon) (R : Rand) (i : Nat) :
    (randomizer R 4 i = 0 → L.intransitive_count = 0 →
      Undefined (plural_verb_phrase L R i)) ∧
    (randomizer R 4 i = 1 → L.transitive_count = 0 →
      Undefined (plural_verb_phrase L R i)) ∧
    (randomizer R 4 i = 2 → L.past_intransitive_count = 0 →
      Undefined (plural_verb_phrase L R i)) ∧
    (randomizer R 4 i = 3 → L.past_transitive_count = 0 →
      Undefined (plural_verb_phrase L R i)) ∧
    (randomizer R 4 i = 1 ∨ randomizer R 4 i = 3 → Undefined (noun_phrase L R (i + 1)) →
      Undefined (plural_verb_phrase L R i)) := by
  refine ⟨fun h0 he => ?_, fun h0 he => ?_, fun h0 he => ?_, fun h0 he => ?_, fun h0 hn => ?_⟩
  · unfold plural_verb_phrase
    rw [h0]
    exact undefined_array_get_bind he _ _
  · unfold plural_verb_phrase
    rw [h0]
    exact undefined_bind_right fun _ => undefined_array_get_bind he _ _
  · unfold plural_verb_phrase
    rw [h0]
    exact undefined_array_get_bind he _ _
  · unfold plural_verb_phrase
    rw [h0]
    exact undefined_bind_right fun _ => undefined_array_get_bind he _ _
  · unfold plural_verb_phrase
    rcases h0 with h0 | h0 <;> rw [h0] <;> exact undefined_bind_left hn

theorem noun_phrase_undefined (L : Lexicon) (R : Rand) (i : Nat) :
    (randomizer R 2 i ≠ 0 → Undefined (singular_noun_phrase L R (i + 1)) →
      Undefined (noun_phrase L R i)) ∧
    (randomizer R 2 i = 0 → Undefined (plural_noun_phrase L R (i + 1)) →
      Undefined (noun_phrase L R i)) := by
  refine ⟨fun h0 h => ?_, fun h0 h => ?_⟩
  · unfold noun_phrase
    rw [if_pos h0]
    exact h
  · unfold noun_phrase
    rw [if_neg (not_not.2 h0)]
    exact h

/-- C13 as stated fails: the program has no `LexiconExhausted` error.  With no
mass nouns and draws that select the mass-noun branch, `singular_noun_phrase`
calls `randomizer(0)`, which is 0, and reads `mass_noun_array[0]` outside the
bounds of the empty array: undefined behaviour, not a reported error. -/
theorem empty_category_counterexample :
    noMassLexicon.mass_noun_count = 0 ∧ randomizer zeroRand 2 0 = 0 ∧
    randomizer zeroRand noMassLexicon.mass_noun_count 3 = 0 ∧
    singular_noun_phrase noMassLexicon zeroRand 0 = .error .outOfBounds ∧
    outcome (singular_noun_phrase noMassLexicon zeroRand 0) ≠ .lexiconExhausted := by
  refine ⟨rfl, by decide, by decide, rfl, ?_⟩
  have h : singular_noun_phrase noMassLexicon zeroRand 0 = .error .outOfBounds := rfl
  rw [h]
  simp [outcome]

/-- C13, amended: no phrase-building operation checks for an empty category.
`randomizer(0)` is 0 and a read of an empty array is out of bounds, so when
the word category that an operation samples from on its path is empty, or
when a noun phrase built on that path is undefined, the call is undefined
behaviour and no `LexiconExhausted` error is reported. -/
theorem empty_category_undefined (L : Lexicon) (R : Rand) (i : Nat) :
    (randomizer R 0 i = 0 ∧ ∀ k, array_get [] k = .error .outOfBounds) ∧
    ((randomizer R 2 i = 0 → L.mass_noun_count = 0 →
        Undefined (singular_noun_phrase L R i)) ∧
      (randomizer R 2 i = 0 → randomizer R 4 (i + 1) = 0 → L.adjective_count = 0 →
        Undefined (singular_noun_phrase L R i)) ∧
      (randomizer R 2 i ≠ 0 → L.singular_count_noun_count = 0 →
        Undefined (singular_noun_phrase L R i)) ∧
      (randomizer R 2 i ≠ 0 → randomizer R 4 (i + 2) = 0 → L.adjective_count = 0 →
        Undefined (singular_noun_phrase L R i))) ∧
    ((L.plural_count_noun_count = 0 → Undefined (plural_noun_phrase L R i)) ∧
      (randomizer R 4 i = 0 → randomizer R 4 (i + 1) = 0 → L.adjective_count = 0 →
        Undefined (plural_noun_phrase L R i)) ∧
      (randomizer R 4 i ≠ 0 → plural_determiner (randomizer R 20 (i + 1)) ≠ none →
        randomizer R 4 (i + 2) = 0 → L.adjective_count = 0 →
        Undefined (plural_noun_phrase L R i)) ∧
      (randomizer R 4 i ≠ 0 → plural_determiner (randomizer R 20 (i + 1)) = none →
        randomizer R 4 (i + 4) = 0 → L.adjective_count = 0 →
        Undefined (plural_noun_phrase L R i))) ∧
    ((randomizer R 2 i ≠ 0 → Undefined (singular_noun_phrase L R (i + 1)) →
        Undefined (noun_phrase L R i)) ∧
      (randomizer R 2 i = 0 → Undefined (plural_noun_phrase L R (i + 1)) →
        Undefined (noun_phrase L R i))) ∧
    ((L.preposition_count = 0 → Undefined (prepositional_phrase L R i)) ∧
      (Undefined (noun_phrase L R i) → Undefined (prepositional_phrase L R i))) ∧
    ((randomizer R 2 i = 0 → L.intransitive_count = 0 →
        Undefined (infinite_verb_phrase L R i)) ∧
      (randomizer R 2 i ≠ 0 → L.transitive_count = 0 →
        Undefined (infinite_verb_phrase L R i)) ∧
      (randomizer R 2 i ≠ 0 → Undefined (noun_phrase L R (i + 1)) →
        Undefined (infinite_verb_phrase L R i))) ∧
    ((randomizer R 4 i = 0 → L.tpspi_intransitive_count = 0 →
        Undefined (singular_verb_phrase L R i)) ∧
      (randomizer R 4 i = 1 → L.tpspi_transitive_count = 0 →
        Undefined (singular_verb_phrase L R i)) ∧
      (randomizer R 4 i = 2 → L.past_intransitive_count = 0 →
        Undefined (singular_verb_phrase L R i)) ∧
      (randomizer R 4 i = 3 → L.past_transitive_count = 0 →
        Undefined (singular_verb_phrase L R i)) ∧
      (randomizer R 4 i = 1 ∨ randomizer R 4 i = 3 → Undefined (noun_phrase L R (i + 1)) →
        Undefined (singular_verb_phrase L R i))) ∧
    ((randomizer R 4 i = 0 → L.intransitive_count = 0 →
        Undefined (plural_verb_phrase L R i)) ∧
      (randomizer R 4 i = 1 → L.transitive_count = 0 →
        Undefined (plural_verb_phrase L R i)) ∧
      (randomizer R 4 i = 2 → L.past_intransitive_count = 0 →
        Undefined (plural_verb_phrase L R i)) ∧
      (randomizer R 4 i = 3 → L.past_transitive_count = 0 →
        Undefined (plural_verb_phrase L R i)) ∧
      (randomizer R 4 i = 1 ∨ randomizer R 4 i = 3 → Undefined (noun_phrase L R (i + 1)) →
        Undefined (plural_verb_phrase L R i))) :=
  ⟨⟨randomizer_zero_max R i, array_get_nil⟩, singular_noun_phrase_empty L R i,
    plural_noun_phrase_empty L R i, noun_phrase_undefined L R i,
    prepositional_phrase_empty L R i, infinite_verb_phrase_empty L R i,
    singular_verb_phrase_empty L R i, plural_verb_phrase_empty L R i⟩

/-- Witness of C13: without mass nouns and with the mass-noun branch drawn,
`singular_noun_phrase` is undefined. -/
theorem empty_category_undefined_witness :
    randomizer zeroRand 2 0 = 0 ∧ noMassLexicon.mass_noun_count = 0 ∧
    Undefined (singular_noun_phrase noMassLexicon zeroRand 0) :=
  ⟨by decide, rfl, (empty_category_undefined noMassLexicon zeroRand 0).2.1.1 (by decide) rfl⟩

/-! ## The forms of a verb phrase -/

theorem noun_phrase_congr {L L' : Lexicon} (h : SameNouns L L') (R : Rand) (i : Nat) :
    noun_phrase L' R i = noun_phrase L R i := by
  obtain ⟨h1, h2, h3, h4⟩ := h
  simp only [noun_phrase, singular_noun_phrase, plural_noun_phrase, plural_noun_phrase_rest,
    Lexicon.singular_count_noun_count, Lexicon.plural_count_noun_count,
    Lexicon.mass_noun_count, Lexicon.adjective_count, h1, h2, h3, h4]

theorem singular_verb_phrase_frame (L : Lexicon) (a b : List CStr) (R : Rand) (i : Nat) :
    singular_verb_phrase (replace_reference_verbs L a b) R i = singular_verb_phrase L R i := by
  have hn : ∀ j, noun_phrase (replace_reference_verbs L a b) R j = noun_phrase L R j :=
    fun j => noun_phrase_congr ⟨rfl, rfl, rfl, rfl⟩ R j
  unfold singular_verb_phrase
  simp only [hn]
  rfl

theorem plural_verb_phrase_frame (L : Lexicon) (a b : List CStr) (R : Rand) (i : Nat) :
    plural_verb_phrase (replace_tpspi_verbs L a b) R i = plural_verb_phrase L R i := by
  have hn : ∀ j, noun_phrase (replace_tpspi_verbs L a b) R j = noun_phrase L R j :=
    fun j => noun_phrase_congr ⟨rfl, rfl, rfl, rfl⟩ R j
  unfold plural_verb_phrase
  simp only [hn]
  rfl

theorem verb_phrase_past_eq (L : Lexicon) (R : Rand) (i : Nat)
    (h : randomizer R 4 i = 2 ∨ randomizer R 4 i = 3) :
    singular_verb_phrase L R i = plural_verb_phrase L R i := by
  unfold singular_verb_phrase plural_verb_phrase
  rcases h with h | h <;> rw [h]

theorem intransitive_form {a : List CStr} {k i : Nat} {verb : CStr} (h : a[k]? = some verb) :
    (do let verb ← array_get a k; pure (verb, i + 2) : Except Fault (CStr × Nat)) =
      .ok (verb, i + 2) := by
  simp only [array_get_eq_ok.2 h, bind, Except.bind, pure, Except.pure]

theorem transitive_form {L : Lexicon} {R : Rand} {a : List CStr} {i j : Nat} {np verb : CStr}
    (hnp : noun_phrase L R i = .ok (np, j)) (h : a[randomizer R a.length j]? = some verb) :
    (do
      let (np, j) ← noun_phrase L R i
      let verb ← array_get a (randomizer R a.length j)
      pure (verb ++ " ".toList ++ np, j + 1) : Except Fault (CStr × Nat)) =
      .ok (verb ++ " ".toList ++ np, j + 1) := by
  simp only [hnp, array_get_eq_ok.2 h, bind, Except.bind, pure, Except.pure]

/-- C17: for in-range draws the first draw `k = randomizer(4)` of a verb
phrase is below 4.  `singular_verb_phrase` returns the drawn TPSPI intransitive
verb alone (`k = 0`), the drawn TPSPI transitive verb, a space and the result
of `noun_phrase` (`k = 1`), the drawn past intransitive verb alone (`k = 2`),
or the drawn past transitive verb, a space and the result of `noun_phrase`
(`k = 3`).  `plural_verb_phrase` returns the same with the reference-form
intransitive and transitive lists in the cases 0 and 1.  For `k` in 2, 3 the
two functions agree; `singular_verb_phrase` does not depend on the
reference-form lists and `plural_verb_phrase` does not depend on the TPSPI
lists. -/
theorem verb_phrase_forms (L : Lexicon) (R : Rand) (i : Nat) (hR : InRange R) :
    randomizer R 4 i < 4 ∧
    ((∀ verb, randomizer R 4 i = 0 →
        L.tpspi_intransitive_array[randomizer R L.tpspi_intransitive_count (i + 1)]? =
          some verb →
        singular_verb_phrase L R i = .ok (verb, i + 2)) ∧
      (∀ np j verb, randomizer R 4 i = 1 → noun_phrase L R (i + 1) = .ok (np, j) →
        L.tpspi_transitive_array[randomizer R L.tpspi_transitive_count j]? = some verb →
        singular_verb_phrase L R i = .ok (verb ++ " ".toList ++ np, j + 1)) ∧
      (∀ verb, randomizer R 4 i = 2 →
        L.past_intransitive_array[randomizer R L.past_intransitive_count (i + 1)]? =
          some verb →
        singular_verb_phrase L R i = .ok (verb, i + 2)) ∧
      (∀ np j verb, randomizer R 4 i = 3 → noun_phrase L R (i + 1) = .ok (np, j) →
        L.past_transitive_array[randomizer R L.past_transitive_count j]? = some verb →
        singular_verb_phrase L R i = .ok (verb ++ " ".toList ++ np, j + 1))) ∧
    ((∀ verb, randomizer R 4 i = 0 →
        L.intransitive_array[randomizer R L.intransitive_count (i + 1)]? = some verb →
        plural_verb_phrase L R i = .ok (verb, i + 2)) ∧
      (∀ np j verb, randomizer R 4 i = 1 → noun_phrase L R (i + 1) = .ok (np, j) →
        L.transitive_array[randomizer R L.transitive_count j]? = some verb →
        plural_verb_phrase L R i = .ok (verb ++ " ".toList ++ np, j + 1)) ∧
      (∀ verb, randomizer R 4 i = 2 →
        L.past_intransitive_array[randomizer R L.past_intransitive_count (i + 1)]? =
          some verb →
        plural_verb_phrase L R i = .ok (verb, i + 2)) ∧
      (∀ np j verb, randomizer R 4 i = 3 → noun_phrase L R (i + 1) = .ok (np, j) →
        L.past_transitive_array[randomizer R L.past_transitive_count j]? = some verb →
        plural_verb_phrase L R i = .ok (verb ++ " ".toList ++ np, j + 1))) ∧
    (randomizer R 4 i = 2 ∨ randomizer R 4 i = 3 →
      singular_verb_phrase L R i = plural_verb_phrase L R i) ∧
    (∀ a b, singular_verb_phrase (replace_reference_verbs L a b) R i =
      singular_verb_phrase L R i) ∧
    (∀ a b, plural_verb_phrase (replace_tpspi_verbs L a b) R i =
      plural_verb_phrase L R i) := by
  refine ⟨randomizer_lt hR i (by norm_num), ⟨?_, ?_, ?_, ?_⟩, ⟨?_, ?_, ?_, ?_⟩,
    verb_phrase_past_eq L R i, fun a b => singular_verb_phrase_frame L a b R i,
    fun a b => plural_verb_phrase_frame L a b R i⟩
  · intro verb h0 hv
    unfold singular_verb_phrase
    rw [h0]
    exact intransitive_form hv
  · intro np j verb h0 hnp hv
    unfold singular_verb_phrase
    rw [h0]
    exact transitive_form hnp hv
  · intro verb h0 hv
    unfold singular_verb_phrase
    rw [h0]
    exact intransitive_form hv
  · intro np j verb h0 hnp hv
    unfold singular_verb_phrase
    rw [h0]
    exact transitive_form hnp hv
  · intro verb h0 hv
    unfold plural_verb_phrase
    rw [h0]
    exact intransitive_form hv
  · intro np j verb h0 hnp hv
    unfold plural_verb_phrase
    rw [h0]
    exact transitive_form hnp hv
  · intro verb h0 hv
    unfold plural_verb_phrase
    rw [h0]
    exact intransitive_form hv
  · intro np j verb h0 hnp hv
    unfold plural_verb_phrase
    rw [h0]
    exact transitive_form hnp hv

theorem pastRand_inRange : InRange pastRand :=
  listRand_inRange _ _ (by decide)

/-- Witness of C17: with `k = 3` both functions return "chased water"; with
`k = 0` the singular one returns "sleeps" and the plural one "sleep". -/
theorem verb_phrase_forms_witness :
    InRange pastRand ∧ InRange zeroRand ∧
    (randomizer pastRand 4 0 = 3 ∧
      singular_verb_phrase demoLexicon pastRand 0 = .ok ("chased water".toList, 6) ∧
      singular_verb_phrase demoLexicon pastRand 0 = plural_verb_phrase demoLexicon pastRand 0) ∧
    (randomizer zeroRand 4 0 = 0 ∧
      singular_verb_phrase demoLexicon zeroRand 0 = .ok ("sleeps".toList, 2) ∧
      plural_verb_phrase demoLexicon zeroRand 0 = .ok ("sleep".toList, 2)) :=
  ⟨pastRand_inRange, listRand_inRange _ _ (by decide),
    ⟨by decide,
      (verb_phrase_forms demoLexicon pastRand 0 pastRand_inRange).2.1.2.2.2
        "water".toList 5 "chased".toList (by decide) rfl (by decide),
      (verb_phrase_forms demoLexicon pastRand 0 pastRand_inRange).2.2.2.1
        (Or.inr (by decide))⟩,
    ⟨by decide,
      (verb_phrase_forms demoLexicon zeroRand 0 (listRand_inRange _ _ (by decide))).2.1.1
        "sleeps".toList (by decide) (by decide),
      (verb_phrase_forms demoLexicon zeroRand 0 (listRand_inRange _ _ (by decide))).2.2.1.1
        "sleep".toList (by decide) (by decide)⟩⟩

/-! ## The effect of the capitalization -/

theorem toupper_eq_toUpper (c : Char) : toupper c = c.toUpper := by
  unfold toupper Char.toUpper Char.isLower
  by_cases h : c.val ≥ 97 ∧ c.val ≤ 122
  · have h' : (97 ≤ c.toNat ∧ c.toNat ≤ 122) := ⟨h.1, h.2⟩
    simp [h.1, h.2, h'.1, h'.2]
  · have h' : ¬ (97 ≤ c.toNat ∧ c.toNat ≤ 122) := fun hh => h ⟨hh.1, hh.2⟩
    simp only [Bool.and_eq_true, decide_eq_true_eq, if_neg h, ge_iff_le, if_neg h']

theorem capitalize_first_frame (a : CStr) :
    (capitalize_first a).length = a.length ∧
    (∀ n, 0 < n → (capitalize_first a)[n]? = a[n]?) ∧
    (capitalize_first a)[0]? = a[0]?.map toupper := by
  cases a with
  | nil => exact ⟨rfl, fun _ _ => rfl, rfl⟩
  | cons c cs =>
    refine ⟨rfl, fun n hn => ?_, by simp [capitalize_first]⟩
    cases n with
    | zero => exact absurd hn (Nat.lt_irrefl 0)
    | succ m => simp [capitalize_first]

theorem capitalize_first_append {a : CStr} (h : a ≠ []) (b : CStr) :
    capitalize_first (a ++ b) = capitalize_first a ++ b := by
  cases a with
  | nil => exact absurd rfl h
  | cons c cs => rfl

theorem passphrase_eq_ok {L : Lexicon} {R : Rand} {i j : Nat} {s : CStr} :
    passphrase L R i = .ok (s, j) ↔
      ∃ a, passphrase_assembled L R i = .ok (a, j) ∧ s = capitalize_first a := by
  unfold passphrase
  simp only [bind_eq_ok, pure_eq_ok, Prod.mk.injEq, Prod.exists]
  constructor
  · rintro ⟨a, k, h, rfl, rfl⟩
    exact ⟨a, h, rfl⟩
  · rintro ⟨a, h, rfl⟩
    exact ⟨a, j, h, rfl, rfl⟩

/-- C18: the string `s` that `passphrase` returns has the length of the
assembled sentence `a`, agrees with it at every position but 0, and holds at
position 0 the ASCII upper-case of the first character of `a`.  The assembled
sentence is the base sentence when the first draw is not 0 and
`pp ++ separator ++ " " ++ base` when it is 0; in that case only the
prepositional phrase is changed and `s` ends with `" " ++ base`, the base
sentence as it was built.  For in-range draws on non-empty categories
`passphrase` does return a string. -/
theorem capitalization_frame (L : Lexicon) (R : Rand) (i : Nat) (hR : InRange R) :
    (∀ s j, passphrase L R i = .ok (s, j) →
      ∃ a, passphrase_assembled L R i = .ok (a, j) ∧ s.length = a.length ∧
        (∀ n, 0 < n → s[n]? = a[n]?) ∧ s[0]? = a[0]?.map toupper) ∧
    (∀ c, toupper c = c.toUpper) ∧
    (randomizer R 6 i ≠ 0 → ∀ a j, passphrase_assembled L R i = .ok (a, j) →
      base_sentence L R (randomizer R 6 (i + 1)) (i + 2) = .ok (a, j)) ∧
    (randomizer R 6 i = 0 → ∀ s j, passphrase L R i = .ok (s, j) →
      ∃ pp k base m, prepositional_phrase L R (i + 1) = .ok (pp, k) ∧
        base_sentence L R (randomizer R 6 k) (k + 1) = .ok (base, m) ∧ j = m + 1 ∧
        passphrase_assembled L R i = .ok (pp ++ [separator R m] ++ " ".toList ++ base, j) ∧
        s = capitalize_first (pp ++ [separator R m]) ++ " ".toList ++ base) ∧
    (NonemptyCategories L → ∃ s j, passphrase L R i = .ok (s, j)) := by
  refine ⟨fun s j h => ?_, toupper_eq_toUpper, fun h0 a j h => ?_, fun h0 s j h => ?_,
    fun hC => passphrase_ok hR hC i⟩
  · obtain ⟨a, ha, rfl⟩ := passphrase_eq_ok.1 h
    exact ⟨a, ha, capitalize_first_frame a⟩
  · rw [passphrase_assembled_unprefixed h0] at h
    exact h
  · obtain ⟨a, ha, rfl⟩ := passphrase_eq_ok.1 h
    have ha' := ha
    rw [passphrase_assembled_prefixed h0] at ha
    unfold prefixed_sentence at ha
    cases hpp : prepositional_phrase L R (i + 1) with
    | error f => simp [hpp] at ha
    | ok p =>
      obtain ⟨pp, k⟩ := p
      cases hb : base_sentence L R (randomizer R 6 k) (k + 1) with
      | error f => simp [hpp, hb] at ha
      | ok b =>
        obtain ⟨base, m⟩ := b
        simp only [hpp, hb, Except.ok.injEq, Prod.mk.injEq] at ha
        obtain ⟨rfl, rfl⟩ := ha
        refine ⟨pp, k, base, m, rfl, hb, rfl, ha', ?_⟩
        rw [List.append_assoc (pp ++ [separator R m]), capitalize_first_append (by simp),
          List.append_assoc]

/-- Witness of C18: in "Under red cats: red water sleeps." only the first
character of the prepositional phrase differs from the assembled sentence. -/
theorem capitalization_frame_witness :
    InRange colonRand ∧ randomizer colonRand 6 0 = 0 ∧
    passphrase_assembled demoLexicon colonRand 0 =
      .ok ("under red cats: red water sleeps.".toList, 16) ∧
    passphrase demoLexicon colonRand 0 =
      .ok ("Under red cats: red water sleeps.".toList, 16) ∧
    (∃ a, passphrase_assembled demoLexicon colonRand 0 = .ok (a, 16) ∧
      "Under red cats: red water sleeps.".toList.length = a.length ∧
      (∀ n, 0 < n → "Under red cats: red water sleeps.".toList[n]? = a[n]?) ∧
      "Under red cats: red water sleeps.".toList[0]? = a[0]?.map toupper) :=
  ⟨colonRand_inRange, by decide, rfl, rfl,
    (capitalization_frame demoLexicon colonRand 0 colonRand_inRange).1 _ _ rfl⟩

/-! ## Safety of the generation -/

/-- C20: when every one of the eleven categories is non-empty and the draws
are in range, every call `randomizer(n)` with positive `n` returns a value
below `n`; so every switch on a draw finds its case (a determiner for
`randomizer(12)`, a verb phrase form for `randomizer(4)`, an auxiliary for
`randomizer(11)`, a base sentence for `randomizer(6)`), every read of `digits`
yields one of its eight digits, and `passphrase` and every function it calls
return a string without a read outside an array and without the use of an
unassigned variable. -/
theorem generation_safe (L : Lexicon) (R : Rand) (hC : NonemptyCategories L)
    (hR : InRange R) :
    (∀ n j, 0 < n → randomizer R n j < n) ∧
    (∀ j, (∃ det, singular_determiner (randomizer R 12 j) = some det) ∧
      randomizer R 20 j < 20 ∧ randomizer R 4 j < 4 ∧
      (∃ aux, auxiliaries[randomizer R 11 j]? = some aux) ∧
      (∃ t, base_kind (randomizer R 6 j) = some t) ∧
      (∃ c, digits_get (randomizer R digit_count j) = .ok c ∧ c ∈ digits)) ∧
    (∀ i, (∃ s j, singular_noun_phrase L R i = .ok (s, j)) ∧
      (∃ s j, plural_noun_phrase L R i = .ok (s, j)) ∧
      (∃ s j, noun_phrase L R i = .ok (s, j)) ∧
      (∃ s j, prepositional_phrase L R i = .ok (s, j)) ∧
      (∃ s j, infinite_verb_phrase L R i = .ok (s, j)) ∧
      (∃ s j, singular_verb_phrase L R i = .ok (s, j)) ∧
      (∃ s j, plural_verb_phrase L R i = .ok (s, j)) ∧
      (∃ s j, assertion L R i = .ok (s, j)) ∧
      (∃ s j, question L R i = .ok (s, j)) ∧
      (∃ s j, command L R i = .ok (s, j)) ∧
      (∃ s j, passphrase L R i = .ok (s, j))) := by
  refine ⟨fun n j hn => randomizer_lt hR j hn, fun j => ⟨?_, ?_, ?_, ?_, ?_, ?_⟩, fun i =>
    ⟨singular_noun_phrase_ok hR hC i, plural_noun_phrase_ok hR hC i, noun_phrase_ok hR hC i,
      prepositional_phrase_ok hR hC i, infinite_verb_phrase_ok hR hC i,
      singular_verb_phrase_ok hR hC i, plural_verb_phrase_ok hR hC i, assertion_ok hR hC i,
      question_ok hR hC i, command_ok hR hC i, passphrase_ok hR hC i⟩⟩
  · exact singular_determiner_of_lt (randomizer_lt hR j (by norm_num))
  · exact randomizer_lt hR j (by norm_num)
  · exact randomizer_lt hR j (by norm_num)
  · have hlt := randomizer_lt hR j (by norm_num : 0 < 11)
    exact ⟨auxiliaries[randomizer R 11 j],
      List.getElem?_eq_getElem (by simpa [auxiliaries] using hlt)⟩
  · have hlt := randomizer_lt hR j (by norm_num : 0 < 6)
    generalize randomizer R 6 j = k at hlt
    interval_cases k <;> exact ⟨_, rfl⟩
  · exact digits_get_of_lt (randomizer_lt hR j (by decide : 0 < digit_count))

/-- Witness of C20: `demoLexicon` with the draws of "The cat sleeps.". -/
theorem generation_safe_witness :
    NonemptyCategories demoLexicon ∧ InRange catRand ∧
    passphrase demoLexicon catRand 0 = .ok ("The cat sleeps.".toList, 9) ∧
    (∃ s j, passphrase demoLexicon catRand 0 = .ok (s, j)) :=
  ⟨demoLexicon_categories, catRand_inRange, rfl,
    ((generation_safe demoLexicon catRand demoLexicon_categories catRand_inRange).2.2
      0).2.2.2.2.2.2.2.2.2.2⟩

/-! ## The retry loop and short words -/

theorem randomizer_of_rand_zero {R : Rand} {i : Nat} (h : R.rand i = 0) (n : Nat) :
    randomizer R n i = 0 := by
  simp [randomizer, randomizer_value, h]

theorem singular_noun_phrase_det_noun {L : Lexicon} {R : Rand} {i : Nat} {det noun : CStr}
    (h0 : randomizer R 2 i ≠ 0) (hd : singular_determiner (randomizer R 12 (i + 1)) = some det)
    (h1 : randomizer R 4 (i + 2) ≠ 0)
    (hn : L.singular_count_noun_array[randomizer R L.singular_count_noun_count (i + 3)]? =
      some noun) :
    singular_noun_phrase L R i = .ok (det ++ " ".toList ++ noun, i + 4) := by
  unfold singular_noun_phrase
  rw [if_neg h0]
  simp only [if_neg h1, hd, array_get_eq_ok.2 hn, use, bind, Except.bind, pure, Except.pure]

theorem noun_phrase_singular {L : Lexicon} {R : Rand} {i : Nat} (h0 : randomizer R 2 i ≠ 0) :
    noun_phrase L R i = singular_noun_phrase L R (i + 1) := by
  unfold noun_phrase
  rw [if_pos h0]

theorem infinite_verb_phrase_transitive {L : Lexicon} {R : Rand} {i j : Nat} {np verb : CStr}
    (h0 : randomizer R 2 i ≠ 0) (hnp : noun_phrase L R (i + 1) = .ok (np, j))
    (hv : L.transitive_array[randomizer R L.transitive_count j]? = some verb) :
    infinite_verb_phrase L R i = .ok (verb ++ " ".toList ++ np, j + 1) := by
  unfold infinite_verb_phrase
  rw [if_neg h0]
  simp only [hnp, array_get_eq_ok.2 hv, bind, Except.bind, pure, Except.pure]

theorem command_of_verb_phrase {L : Lexicon} {R : Rand} {i j : Nat} {vp : CStr}
    (h : infinite_verb_phrase L R i = .ok (vp, j)) :
    command L R i = .ok (vp ++ "!".toList, j) := by
  unfold command
  simp only [h, bind, Except.bind, pure, Except.pure]

theorem passphrase_of_base {L : Lexicon} {R : Rand} {i j : Nat} {a : CStr}
    (h0 : randomizer R 6 i ≠ 0)
    (h : base_sentence L R (randomizer R 6 (i + 1)) (i + 2) = .ok (a, j)) :
    passphrase L R i = .ok (capitalize_first a, j) :=
  passphrase_eq_ok.2 ⟨a, by rw [passphrase_assembled_unprefixed h0]; exact h, rfl⟩

theorem exists_first_word {a : List CStr} (h : 0 < a.length) : ∃ w, a[0]? = some w :=
  ⟨a[0], List.getElem?_eq_getElem h⟩

theorem shouldEveryRand_inRange : InRange shouldEveryRand :=
  listRand_inRange _ _ (by decide)

theorem shouldEvery_passphrase {L : Lexicon} {noun verb : CStr}
    (hn : L.singular_count_noun_array[0]? = some noun)
    (hv : L.transitive_array[0]? = some verb) :
    passphrase L shouldEveryRand 0 =
      .ok (capitalize_first ("should".toList ++ " ".toList ++
        ("every".toList ++ " ".toList ++ noun) ++ " ".toList ++
        (verb ++ " ".toList ++ ("every".toList ++ " ".toList ++ noun)) ++ "?".toList), 15) := by
  have z7 : randomizer shouldEveryRand L.singular_count_noun_count 7 = 0 :=
    randomizer_of_rand_zero rfl _
  have z8 : randomizer shouldEveryRand L.transitive_count 8 = 0 :=
    randomizer_of_rand_zero rfl _
  have z14 : randomizer shouldEveryRand L.singular_count_noun_count 14 = 0 :=
    randomizer_of_rand_zero rfl _
  have np1 : noun_phrase L shouldEveryRand 3 =
      .ok ("every".toList ++ " ".toList ++ noun, 8) := by
    rw [noun_phrase_singular (by decide)]
    exact singular_noun_phrase_det_noun (by decide) (by decide) (by decide)
      (by rw [z7]; exact hn)
  have vp : infinite_verb_phrase L shouldEveryRand 2 =
      .ok (verb ++ " ".toList ++ ("every".toList ++ " ".toList ++ noun), 9) :=
    infinite_verb_phrase_transitive (by decide) np1 (by rw [z8]; exact hv)
  have np2 : noun_phrase L shouldEveryRand 10 =
      .ok ("every".toList ++ " ".toList ++ noun, 15) := by
    rw [noun_phrase_singular (by decide)]
    exact singular_noun_phrase_det_noun (by decide) (by decide) (by decide)
      (by rw [z14]; exact hn)
  have q : question L shouldEveryRand 2 =
      .ok ("should".toList ++ " ".toList ++ ("every".toList ++ " ".toList ++ noun) ++
        " ".toList ++ (verb ++ " ".toList ++ ("every".toList ++ " ".toList ++ noun)) ++
        "?".toList, 15) := by
    rw [question_eq_form]
    exact question_form_eq_ok.2 ⟨_, 9, "should".toList, _, vp, by decide, np2, rfl⟩
  exact passphrase_of_base (by decide) q

theorem capitalize_first_length (a : CStr) : (capitalize_first a).length = a.length :=
  (capitalize_first_frame a).1

theorem shouldEvery_long (L : Lexicon) (h1 : 0 < L.singular_count_noun_count)
    (h2 : 0 < L.transitive_count) :
    ∃ s j, passphrase L shouldEveryRand 0 = .ok (s, j) ∧ 22 ≤ s.length := by
  obtain ⟨noun, hn⟩ := exists_first_word h1
  obtain ⟨verb, hv⟩ := exists_first_word h2
  refine ⟨_, _, shouldEvery_passphrase hn hv, ?_⟩
  rw [capitalize_first_length]
  have e1 : "should".toList.length = 6 := rfl
  have e2 : "every".toList.length = 5 := rfl
  have e3 : " ".toList.length = 1 := rfl
  have e4 : "?".toList.length = 1 := rfl
  simp only [List.length_append, e1, e2, e3, e4]
  omega

/-- C15 as stated fails: no lexicon with eleven non-empty categories of
lower-case words makes `passphrase` return fewer than 18 characters on every
sequence of in-range draws.  However short the words, the draws of
`shouldEveryRand` give "Should every <noun> <verb> every <noun>?", whose
literal words alone make 22 characters. -/
theorem no_lexicon_always_short :
    ¬ ∃ L : Lexicon, NonemptyCategories L ∧ LowerWords L ∧
      ∀ R, InRange R → ∀ i, ∃ s j, passphrase L R i = .ok (s, j) ∧ s.length < 18 := by
  rintro ⟨L, hC, -, h⟩
  obtain ⟨s, j, hs, hlen⟩ := h shouldEveryRand shouldEveryRand_inRange 0
  obtain ⟨s', j', hs', hlen'⟩ := shouldEvery_long L hC.1 hC.2.2.2.2.2.1
  rw [hs] at hs'
  simp only [Except.ok.injEq, Prod.mk.injEq] at hs'
  obtain ⟨rfl, -⟩ := hs'
  omega

theorem commandRand_inRange : InRange commandRand :=
  ⟨(by decide : 0 < glibc_RAND_MAX), fun _ => (by decide : raw 6 5 < glibc_RAND_MAX)⟩

theorem randomizer_commandRand (n j : Nat) :
    randomizer commandRand n j = raw 6 5 * n / glibc_RAND_MAX := rfl

theorem commandRand_draws (j : Nat) :
    randomizer commandRand 6 j = 5 ∧ randomizer commandRand 2 j = 1 ∧
    randomizer commandRand 12 j = 10 ∧ randomizer commandRand 4 j = 3 ∧
    randomizer commandRand 1 j = 0 := by
  simp only [randomizer_commandRand]
  decide

theorem commandRand_passphrase (i : Nat) :
    passphrase demoLexicon commandRand i = .ok ("Chase any cat!".toList, i + 9) := by
  have h6 := fun j => (commandRand_draws j).1
  have h2 := fun j => (commandRand_draws j).2.1
  have h12 := fun j => (commandRand_draws j).2.2.1
  have h4 := fun j => (commandRand_draws j).2.2.2.1
  have h1 := fun j => (commandRand_draws j).2.2.2.2
  have hn : demoLexicon.singular_count_noun_array[randomizer commandRand
      demoLexicon.singular_count_noun_count (i + 3 + 1 + 3)]? = some "cat".toList := by
    show demoLexicon.singular_count_noun_array[randomizer commandRand 1 _]? = _
    rw [h1]
    rfl
  have hd : singular_determiner (randomizer commandRand 12 (i + 3 + 1 + 1)) =
      some "any".toList := by
    rw [h12]
    rfl
  have snp : singular_noun_phrase demoLexicon commandRand (i + 3 + 1) =
      .ok ("any".toList ++ " ".toList ++ "cat".toList, i + 3 + 1 + 4) :=
    singular_noun_phrase_det_noun (by rw [h2]; decide) hd (by rw [h4]; decide) hn
  have np : noun_phrase demoLexicon commandRand (i + 2 + 1) =
      .ok ("any".toList ++ " ".toList ++ "cat".toList, i + 8) := by
    rw [noun_phrase_singular (by rw [h2]; decide)]
    exact snp
  have hv : demoLexicon.transitive_array[randomizer commandRand
      demoLexicon.transitive_count (i + 8)]? = some "chase".toList := by
    show demoLexicon.transitive_array[randomizer commandRand 1 _]? = _
    rw [h1]
    rfl
  have vp : infinite_verb_phrase demoLexicon commandRand (i + 2) =
      .ok ("chase".toList ++ " ".toList ++ ("any".toList ++ " ".toList ++ "cat".toList),
        i + 8 + 1) :=
    infinite_verb_phrase_transitive (by rw [h2]; decide) np hv
  have hb : base_sentence demoLexicon commandRand (randomizer commandRand 6 (i + 1)) (i + 2) =
      .ok ("chase".toList ++ " ".toList ++ ("any".toList ++ " ".toList ++ "cat".toList) ++
        "!".toList, i + 9) := by
    rw [h6]
    exact command_of_verb_phrase vp
  have h0 : randomizer commandRand 6 i ≠ 0 := by
    rw [h6]
    decide
  exact passphrase_of_base h0 hb

theorem main_do_while_commandRand (fuel : Nat) :
    ∀ i, main_do_while demoLexicon commandRand fuel i = none := by
  induction fuel with
  | zero => intro i; rfl
  | succ n ih =>
    intro i
    have hlt : "Chase any cat!".toList.length < 18 := by decide
    rw [main_do_while, commandRand_passphrase]
    simp only [if_pos hlt]
    exact ih (i + 9)

/-- C15, amended: there are a lexicon with eleven non-empty categories of
lower-case words and a sequence of in-range draws on which every call of
`passphrase` returns fewer than 18 characters ("Chase any cat!"), so that the
retry loop of `main` does not end on that sequence, whatever the number of
iterations allowed; but no lexicon makes the loop endless on every sequence:
for every lexicon with non-empty categories there are in-range draws on which
`passphrase` returns at least 18 characters. -/
theorem retry_loop_can_diverge :
    (NonemptyCategories demoLexicon ∧ LowerWords demoLexicon ∧ InRange commandRand ∧
      (∀ i, passphrase demoLexicon commandRand i = .ok ("Chase any cat!".toList, i + 9)) ∧
      "Chase any cat!".toList.length < 18 ∧
      ∀ fuel i, main_do_while demoLexicon commandRand fuel i = none) ∧
    (∀ L : Lexicon, NonemptyCategories L →
      ∃ R, InRange R ∧ ∃ s j, passphrase L R 0 = .ok (s, j) ∧ 18 ≤ s.length) := by
  refine ⟨⟨demoLexicon_categories, demoLexicon_words.lowerWords, commandRand_inRange,
    commandRand_passphrase, by decide, main_do_while_commandRand⟩, fun L hC => ?_⟩
  obtain ⟨s, j, hs, hlen⟩ := shouldEvery_long L hC.1 hC.2.2.2.2.2.1
  exact ⟨shouldEveryRand, shouldEveryRand_inRange, s, j, hs, by omega⟩

/-- Witness of C15: `demoLexicon` has draws with a passphrase of at least 18
characters, "Should every cat chase every cat?". -/
theorem retry_loop_can_diverge_witness :
    NonemptyCategories demoLexicon ∧
    passphrase demoLexicon shouldEveryRand 0 =
      .ok ("Should every cat chase every cat?".toList, 15) ∧
    (∃ R, InRange R ∧ ∃ s j, passphrase demoLexicon R 0 = .ok (s, j) ∧ 18 ≤ s.length) :=
  ⟨demoLexicon_categories, rfl, retry_loop_can_diverge.2 demoLexicon demoLexicon_categories⟩

/-! ## The number of passphrases -/

theorem to_int_of_range {v : Int} (h1 : -2147483648 ≤ v) (h2 : v ≤ 2147483647) :
    to_int v = v := by
  unfold to_int
  omega

theorem number_of_passwords_of_arg (prog arg : CStr) (rest : List CStr) :
    (0 < strtol arg → strtol arg ≤ INT_MAX →
      (number_of_passwords (prog :: arg :: rest) : Int) = strtol arg) ∧
    (-2147483648 ≤ strtol arg → strtol arg ≤ 0 →
      number_of_passwords (prog :: arg :: rest) = 1) := by
  have hlen : ¬ (prog :: arg :: rest).length ≤ 1 := by simp
  have hget : (prog :: arg :: rest).getD 1 [] = arg := rfl
  constructor
  · intro h1 h2
    unfold INT_MAX at h2
    unfold number_of_passwords
    rw [if_neg hlen]
    simp only [hget, to_int_of_range (by omega : -2147483648 ≤ strtol arg) h2, if_pos h1]
    exact Int.toNat_of_nonneg (by omega)
  · intro h1 h2
    unfold number_of_passwords
    rw [if_neg hlen]
    simp only [hget, to_int_of_range h1 (by omega : strtol arg ≤ 2147483647)]
    rw [if_neg (by omega)]

theorem leading_number_digits (s : List Char) (h : ∀ c ∈ s, c.isDigit = true) (acc : Nat) :
    leading_number s acc = s.foldl (fun acc c => acc * 10 + (c.toNat - 48)) acc := by
  induction s generalizing acc with
  | nil => rfl
  | cons c cs ih =>
    unfold leading_number
    rw [if_pos (h c (List.mem_cons_self _ _))]
    exact ih (fun d hd => h d (List.mem_cons_of_mem _ hd)) _

theorem digit_not_space_or_sign {c : Char} (h : c.isDigit = true) :
    ¬ isspace c ∧ c ≠ '-' ∧ c ≠ '+' := by
  refine ⟨?_, ?_, ?_⟩
  · unfold isspace
    rintro (rfl | rfl | rfl | rfl | rfl | rfl) <;> exact absurd h (by decide)
  · rintro rfl
    exact absurd h (by decide)
  · rintro rfl
    exact absurd h (by decide)

theorem strtol_digits {s : List Char} (hne : s ≠ []) (h : ∀ c ∈ s, c.isDigit = true) :
    strtol s = min LONG_MAX (decimal_value s) := by
  cases s with
  | nil => exact absurd rfl hne
  | cons c cs =>
    obtain ⟨h1, h2, h3⟩ := digit_not_space_or_sign (h c (List.mem_cons_self _ _))
    have hs : skip_space (c :: cs) = c :: cs := by
      unfold skip_space
      rw [if_neg h1]
    unfold strtol
    rw [hs]
    split
    · rename_i heq
      simp only [List.cons.injEq] at heq
      exact absurd heq.1 h2
    · rename_i heq
      simp only [List.cons.injEq] at heq
      exact absurd heq.1 h3
    · rw [leading_number_digits _ h]
      rfl

theorem strtol_no_number {s : List Char}
    (h : ∀ c cs, skip_space s = c :: cs → c.isDigit = false ∧ c ≠ '+' ∧ c ≠ '-') :
    strtol s = 0 := by
  unfold strtol
  cases hk : skip_space s with
  | nil => simp [leading_number, LONG_MAX]
  | cons c cs =>
    obtain ⟨h1, h2, h3⟩ := h c cs hk
    split
    · rename_i heq
      simp only [List.cons.injEq] at heq
      exact absurd heq.1 h3
    · rename_i heq
      simp only [List.cons.injEq] at heq
      exact absurd heq.1 h2
    · unfold leading_number
      simp [h1, LONG_MAX]

theorem main_while_eq_lines (L : Lexicon) (R : Rand) (N inner : Nat) (hN : (N : Int) < INT_MAX) :
    ∀ steps counter i, counter ≤ N → N - counter < steps →
      main_while L R N inner steps counter i = passphrase_lines L R inner (N - counter) i := by
  intro steps
  induction steps with
  | zero => intro counter i _ h; exact absurd h (Nat.not_lt_zero _)
  | succ n ih =>
    intro counter i hc hs
    have hov : ¬ INT_MAX ≤ (counter : Int) := by
      have : (counter : Int) ≤ (N : Int) := by exact_mod_cast hc
      omega
    unfold main_while
    rw [if_neg hov]
    by_cases hlt : counter < N
    · rw [if_pos hlt]
      have e : N - counter = (N - (counter + 1)) + 1 := by omega
      rw [e]
      unfold passphrase_lines
      cases main_do_while L R inner i with
      | none => rfl
      | some r =>
        cases r with
        | error f => rfl
        | ok p =>
          obtain ⟨pass, j⟩ := p
          simp only
          rw [ih (counter + 1) j (by omega) (by omega)]
    · rw [if_neg hlt]
      have e : N - counter = 0 := by omega
      rw [e]
      rfl

theorem passphrase_lines_spec (L : Lexicon) (R : Rand) (inner : Nat) :
    ∀ n i out k, passphrase_lines L R inner n i = some (.ok (out, k)) →
      out.length = n ∧ ∀ line ∈ out, ∃ pass j j', line = pass ++ "\n".toList ∧
        18 ≤ pass.length ∧ passphrase L R j = .ok (pass, j') := by
  intro n
  induction n with
  | zero =>
    intro i out k h
    simp only [passphrase_lines, Option.some.injEq, Except.ok.injEq, Prod.mk.injEq] at h
    obtain ⟨rfl, -⟩ := h
    exact ⟨rfl, fun line hl => absurd hl (List.not_mem_nil _)⟩
  | succ m ih =>
    intro i out k h
    unfold passphrase_lines at h
    cases hd : main_do_while L R inner i with
    | none => simp [hd] at h
    | some r =>
      cases r with
      | error f => simp [hd] at h
      | ok p =>
        obtain ⟨pass, j⟩ := p
        simp only [hd] at h
        cases hr : passphrase_lines L R inner m j with
        | none => simp [hr] at h
        | some r' =>
          cases r' with
          | error f => simp [hr] at h
          | ok q =>
            obtain ⟨out', k'⟩ := q
            simp only [hr, Option.some.injEq, Except.ok.injEq, Prod.mk.injEq] at h
            obtain ⟨rfl, rfl⟩ := h
            obtain ⟨hlen, hlines⟩ := ih j out' k' hr
            obtain ⟨h18, a, ha⟩ := main_do_while_spec L R inner i pass j hd
            refine ⟨by simp [hlen], fun line hl => ?_⟩
            rcases List.mem_cons.1 hl with rfl | hl'
            · exact ⟨pass, a, j, rfl, h18, ha⟩
            · exact hlines line hl'

theorem passphrase_lines_progress (L : Lexicon) (R : Rand) (inner : Nat)
    (h : ∀ j, ∃ pass k, main_do_while L R inner j = some (.ok (pass, k))) :
    ∀ n i, ∃ out k, passphrase_lines L R inner n i = some (.ok (out, k)) := by
  intro n
  induction n with
  | zero => intro i; exact ⟨[], i, rfl⟩
  | succ m ih =>
    intro i
    obtain ⟨pass, j, hd⟩ := h i
    obtain ⟨out, k, hr⟩ := ih j
    refine ⟨(pass ++ "\n".toList) :: out, k, ?_⟩
    unfold passphrase_lines
    simp only [hd, hr]

/-- C14 as stated fails.  The argument "2147483648" is a positive integer,
yet `number_of_passwords` is 1 and not 2147483648: the value does not fit the
`int` that receives it.  The argument "5 cats" is not a number, yet
`number_of_passwords` is 5 and not 1: `strtol` reads the leading digits and
ignores the rest. -/
theorem passphrase_count_counterexample :
    (decimal_value "2147483648".toList = 2147483648 ∧
      number_of_passwords ["passphrase-maker".toList, "2147483648".toList] = 1) ∧
    number_of_passwords ["passphrase-maker".toList, "5 cats".toList] = 5 := by
  decide

/-- C14, amended: `number_of_passwords` is 1 when no argument is given;
otherwise, with `v` the number that `strtol` reads at the start of the first
argument, it is `v` when `v` is positive and at most `INT_MAX` and 1 when `v`
is not positive and at least `INT_MIN`.  For an argument of decimal digits `v`
is its decimal value (at most `LONG_MAX`), and `v` is 0 when the argument,
after its leading whitespace, does not start with a digit or a sign.  When
`number_of_passwords` is below `INT_MAX`, the loop of `main` prints what the
specification asks for: that many passphrases, each the result of a retry
loop, of at least 18 characters and followed by a newline, in generation order;
it does so whenever every retry loop ends. -/
theorem passphrase_count (L : Lexicon) (R : Rand) (argv : List CStr) (inner steps i : Nat) :
    (argv.length ≤ 1 → number_of_passwords argv = 1) ∧
    (∀ prog arg rest, argv = prog :: arg :: rest →
      (0 < strtol arg → strtol arg ≤ INT_MAX → (number_of_passwords argv : Int) = strtol arg) ∧
      (-2147483648 ≤ strtol arg → strtol arg ≤ 0 → number_of_passwords argv = 1) ∧
      (arg ≠ [] → (∀ c ∈ arg, c.isDigit = true) →
        strtol arg = min LONG_MAX (decimal_value arg)) ∧
      ((∀ c cs, skip_space arg = c :: cs → c.isDigit = false ∧ c ≠ '+' ∧ c ≠ '-') →
        strtol arg = 0)) ∧
    ((number_of_passwords argv : Int) < INT_MAX → number_of_passwords argv < steps →
      main_while L R (number_of_passwords argv) inner steps 0 i =
        passphrase_lines L R inner (number_of_passwords argv) i) ∧
    (∀ n out k, passphrase_lines L R inner n i = some (.ok (out, k)) →
      out.length = n ∧ ∀ line ∈ out, ∃ pass j j', line = pass ++ "\n".toList ∧
        18 ≤ pass.length ∧ passphrase L R j = .ok (pass, j')) ∧
    ((∀ j, ∃ pass k, main_do_while L R inner j = some (.ok (pass, k))) →
      ∀ n, ∃ out k, passphrase_lines L R inner n i = some (.ok (out, k))) := by
  refine ⟨fun h => ?_, fun prog arg rest h => ?_, fun h1 h2 => ?_,
    fun n out k h => passphrase_lines_spec L R inner n i out k h,
    fun h n => passphrase_lines_progress L R inner h n i⟩
  · unfold number_of_passwords
    rw [if_pos h]
  · subst h
    exact ⟨(number_of_passwords_of_arg prog arg rest).1,
      (number_of_passwords_of_arg prog arg rest).2, strtol_digits, strtol_no_number⟩
  · exact main_while_eq_lines L R _ inner h1 steps 0 i (Nat.zero_le _) (by omega)

/-- Witness of C14: with the argument "2" and draws that are all 0, `main`
prints two passphrases of 33 characters, each on its own line. -/
theorem passphrase_count_witness :
    number_of_passwords ["passphrase-maker".toList, "2".toList] = 2 ∧
    main_while demoLexicon zeroRand 2 1 3 0 0 = passphrase_lines demoLexicon zeroRand 1 2 0 ∧
    passphrase_lines demoLexicon zeroRand 1 2 0 =
      some (.ok (["Under red cats, red water sleeps.\n".toList,
        "Under red cats, red water sleeps.\n".toList], 32)) :=
  ⟨by decide,
    (passphrase_count demoLexicon zeroRand ["passphrase-maker".toList, "2".toList] 1 3 0).2.2.1
      (by decide) (by decide),
    rfl⟩

/-! ## Loading the words -/

theorem read_word_loop_word (w rest : List Char) (hn : '\n' ∉ w) :
    ∀ pre suf : List Char, w.length ≤ suf.length → pre.length + w.length ≤ MAXWORD + 1 →
      read_word_loop (w ++ '\n' :: rest) (pre ++ suf) pre.length =
        some (pre ++ w ++ suf.drop w.length, pre.length + w.length, rest) := by
  induction w with
  | nil =>
    intro pre suf _ _
    simp [read_word_loop]
  | cons c w ih =>
    intro pre suf h1 h2
    have hc : c ≠ '\n' := fun h => hn (h ▸ List.mem_cons_self _ _)
    have hw : '\n' ∉ w := fun h => hn (List.mem_cons_of_mem _ h)
    cases suf with
    | nil => simp at h1
    | cons s suf =>
      simp only [List.length_cons] at h1 h2
      have hp : pre.length ≤ MAXWORD := by omega
      have hset : (pre ++ s :: suf).set pre.length c = (pre ++ [c]) ++ suf := by
        rw [List.set_append_right _ _ (Nat.le_refl _)]
        simp
      have hih := ih hw (pre ++ [c]) suf (by omega) (by simp; omega)
      simp only [List.length_append, List.length_singleton] at hih
      simp only [List.cons_append, read_word_loop, if_neg hc, if_pos hp, hset, hih,
        List.length_cons, List.drop_succ_cons]
      simp [Nat.add_assoc, Nat.add_comm 1]
      rw [show pre ++ c :: suf = pre ++ [c] ++ suf by simp, hih]
      simp [Nat.add_assoc, Nat.add_comm 1]

theorem cstr_append_nul {w : List Char} (h : NUL ∉ w) (tail : List Char) :
    cstr (w ++ NUL :: tail) = w := by
  unfold cstr
  rw [List.takeWhile_append_of_pos (fun a ha => by
    simp only [bne_iff_ne, ne_eq]
    exact fun e => h (e ▸ ha))]
  simp

theorem read_word_of_word {w : CStr} (hw : FileWord w) (rest word : List Char)
    (hlen : word.length = MAXWORD + 1) :
    ∃ word', word'.length = MAXWORD + 1 ∧
      read_word (w ++ '\n' :: rest) word = some (.ok (w, word', rest)) := by
  obtain ⟨h1, h2, h3⟩ := hw
  have hloop := read_word_loop_word w rest h2 [] word (by omega) (by simp; omega)
  simp only [List.nil_append, List.length_nil, Nat.zero_add] at hloop
  have hset : (w ++ List.drop w.length word).set w.length NUL =
      w ++ NUL :: List.drop (w.length + 1) word := by
    rw [List.set_append_right _ _ (Nat.le_refl _), Nat.sub_self]
    have hd : List.drop w.length word ≠ [] := by
      intro h
      have := congrArg List.length h
      simp at this
      omega
    cases hdw : List.drop w.length word with
    | nil => exact absurd hdw hd
    | cons x xs =>
      have : List.drop (w.length + 1) word = xs := by
        rw [← List.drop_drop, hdw]
        rfl
      rw [this]
      rfl
  refine ⟨w ++ NUL :: List.drop (w.length + 1) word, ?_, ?_⟩
  · simp
    omega
  · unfold read_word
    rw [hloop]
    simp only [if_pos h1, hset, cstr_append_nul h3]

theorem dyna_alloc_loop_step (fuel : Nat) {source : List Char} (h : source ≠ [])
    (word : List Char) (list : List CStr) (word_count : Nat) :
    dyna_alloc_loop (fuel + 1) source word list word_count =
      match read_word source word with
      | none => none
      | some (.error f) => some (.error f)
      | some (.ok (new_word, word, source)) =>
        dyna_alloc_loop fuel source word (new_word :: list) ((word_count + 1) % 2 ^ 32) := by
  cases source with
  | nil => exact absurd rfl h
  | cons ch source => rfl

theorem word_file_cons_length (w : CStr) (ws : List CStr) :
    (word_file (w :: ws)).length = w.length + 1 + (word_file ws).length := by
  simp [word_file]
  omega

theorem dyna_alloc_loop_words (ws : List CStr) (hws : ∀ w ∈ ws, FileWord w) :
    ∀ (fuel : Nat) (word : List Char) (list : List CStr) (word_count : Nat),
      word.length = MAXWORD + 1 → (word_file ws).length ≤ fuel → word_count < 2 ^ 32 →
      ∃ word', word'.length = MAXWORD + 1 ∧
        dyna_alloc_loop fuel (word_file ws) word list word_count =
          some (.ok (ws.reverse ++ list, (word_count + ws.length) % 2 ^ 32, word')) := by
  induction ws with
  | nil =>
    intro fuel word list word_count hlen _ hc
    refine ⟨word, hlen, ?_⟩
    have e : (word_count + ([] : List CStr).length) % 2 ^ 32 = word_count := by
      simp only [List.length_nil, Nat.add_zero]
      exact Nat.mod_eq_of_lt hc
    rw [e]
    cases fuel <;> rfl
  | cons w ws ih =>
    intro fuel word list word_count hlen hfuel hc
    rw [word_file_cons_length] at hfuel
    obtain ⟨f, rfl⟩ : ∃ f, fuel = f + 1 := ⟨fuel - 1, by omega⟩
    obtain ⟨word₁, hlen₁, hread⟩ :=
      read_word_of_word (hws w (List.mem_cons_self _ _)) (word_file ws) word hlen
    obtain ⟨word₂, hlen₂, hrest⟩ := ih (fun v hv => hws v (List.mem_cons_of_mem _ hv)) f word₁
      (w :: list) ((word_count + 1) % 2 ^ 32) hlen₁ (by omega) (Nat.mod_lt _ (by norm_num))
    refine ⟨word₂, hlen₂, ?_⟩
    have hne : word_file (w :: ws) ≠ [] := by simp [word_file]
    rw [dyna_alloc_loop_step f hne]
    have hfile : word_file (w :: ws) = w ++ '\n' :: word_file ws := rfl
    rw [hfile, hread]
    have e : ((word_count + 1) % 2 ^ 32 + ws.length) % 2 ^ 32 =
        (word_count + (ws.length + 1)) % 2 ^ 32 := by omega
    simp only [hrest, List.reverse_cons, List.append_assoc, List.singleton_append,
      List.length_cons, e]

theorem dyna_alloc_fill_nil_result {list : List CStr} (h : list ≠ []) (position : Nat) :
    dyna_alloc_fill list [] position = .error .outOfBounds := by
  cases list with
  | nil => exact absurd rfl h
  | cons w list => rfl

theorem dyna_alloc_fill_down (list : List CStr) :
    ∀ (result : List (Option CStr)) (position : Nat), list.length ≤ position + 1 →
      position < result.length → position < 2 ^ 32 →
      dyna_alloc_fill list result position =
        .ok (result.take (position + 1 - list.length) ++ list.reverse.map some ++
          result.drop (position + 1)) := by
  induction list with
  | nil =>
    intro result position _ _ _
    simp [dyna_alloc_fill]
  | cons w list ih =>
    intro result position h1 h2 h3
    simp only [List.length_cons] at h1
    unfold dyna_alloc_fill
    rw [if_pos h2]
    have hset : result.set position (some w) =
        result.take position ++ some w :: result.drop (position + 1) :=
      List.set_eq_take_cons_drop _ h2
    cases list with
    | nil =>
      simp [dyna_alloc_fill, hset]
    | cons v list =>
      simp only [List.length_cons] at h1
      have hp : (position + 2 ^ 32 - 1) % 2 ^ 32 = position - 1 := by omega
      rw [hp, ih (result.set position (some w)) (position - 1)
        (by simp only [List.length_cons]; omega) (by simp; omega) (by omega)]
      have e1 : position - 1 + 1 = position := by omega
      have htake : List.take (position - (v :: list).length)
          (result.set position (some w)) =
          List.take (position + 1 - (w :: v :: list).length) result := by
        have e2 : position + 1 - (w :: v :: list).length = position - (v :: list).length := by
          simp only [List.length_cons]
          omega
        rw [hset, List.take_append_of_le_length (by simp; omega), List.take_take, e2,
          Nat.min_eq_left (Nat.sub_le _ _)]
      have hdrop : List.drop position (result.set position (some w)) =
          some w :: List.drop (position + 1) result := by
        rw [hset, List.drop_append_of_le_length (by simp; omega)]
        simp [List.drop_take]
      rw [e1, htake, hdrop]
      simp

theorem dyna_alloc_of_loop {source word word' : List Char} {list : List CStr} {word_count : Nat}
    (h : dyna_alloc_loop source.length source word [] 0 = some (.ok (list, word_count, word'))) :
    dyna_alloc source word =
      match dyna_alloc_fill list (List.replicate word_count none)
          ((word_count + 2 ^ 32 - 1) % 2 ^ 32) with
      | .error f => some (.error f)
      | .ok result => some (.ok (word_count, result, word')) := by
  unfold dyna_alloc
  rw [h]

/-- C19, amended: for every word file that consists of `n` words `w_0 ..
w_(n-1)`, each followed by a newline, of at most `MAXWORD` characters and
without NUL, with `n` below `2 ^ 32`, `dyna_alloc` returns `n` and an array of
`n` strings with `array[i] = w_i` for every `i < n`, in file order; for `n = 0`
the initial position `word_count - 1` is 4294967295 and no store is made. -/
theorem word_loading (ws : List CStr) (word : List Char) (hws : ∀ w ∈ ws, FileWord w)
    (hn : ws.length < 2 ^ 32) (hword : word.length = MAXWORD + 1) :
    (∃ word', dyna_alloc (word_file ws) word = some (.ok (ws.length, ws.map some, word'))) ∧
    (∀ (i : Nat) (w : CStr), ws[i]? = some w →
      (List.map Option.some ws)[i]? = Option.some (Option.some w)) ∧
    (ws = [] → (ws.length + 2 ^ 32 - 1) % 2 ^ 32 = 4294967295 ∧
      dyna_alloc (word_file ws) word = some (.ok (0, [], word))) := by
  obtain ⟨word', -, hloop⟩ := dyna_alloc_loop_words ws hws (word_file ws).length word [] 0
    hword (Nat.le_refl _) (by norm_num)
  have hcount : (0 + ws.length) % 2 ^ 32 = ws.length := by
    rw [Nat.zero_add]
    exact Nat.mod_eq_of_lt hn
  rw [hcount, List.append_nil] at hloop
  refine ⟨⟨word', ?_⟩, fun i w h => by simp [h], ?_⟩
  · rw [dyna_alloc_of_loop hloop]
    rcases Nat.eq_zero_or_pos ws.length with h0 | hpos
    · have hnil : ws = [] := List.length_eq_zero.1 h0
      subst hnil
      rfl
    · have hp : (ws.length + 2 ^ 32 - 1) % 2 ^ 32 = ws.length - 1 := by omega
      rw [hp, dyna_alloc_fill_down ws.reverse (List.replicate ws.length none) (ws.length - 1)
        (by simp; omega) (by simp; omega) (by omega)]
      have e1 : ws.length - 1 + 1 = ws.length := by omega
      simp [e1]
  · rintro rfl
    exact ⟨by norm_num, rfl⟩

/-- Witness of C19: a file of four lines, one of them empty. -/
theorem word_loading_witness :
    (∀ w ∈ ["cat".toList, "dog".toList, [], "emu".toList], FileWord w) ∧
    word_file ["cat".toList, "dog".toList, [], "emu".toList] = "cat\ndog\n\nemu\n".toList ∧
    (∃ word', dyna_alloc "cat\ndog\n\nemu\n".toList initial_word =
      some (.ok (4, [some "cat".toList, some "dog".toList, some [], some "emu".toList],
        word'))) := by
  have hws : ∀ w ∈ ["cat".toList, "dog".toList, [], "emu".toList], FileWord w := by
    unfold FileWord
    decide
  exact ⟨hws, rfl,
    (word_loading ["cat".toList, "dog".toList, [], "emu".toList] initial_word hws
      (by decide) rfl).1⟩

theorem dyna_alloc_wraps (ws : List CStr) (word : List Char) (hws : ∀ w ∈ ws, FileWord w)
    (hlen : ws.length = 4294967296) (hword : word.length = MAXWORD + 1) :
    dyna_alloc (word_file ws) word = some (.error .outOfBounds) := by
  obtain ⟨word', -, hloop⟩ := dyna_alloc_loop_words ws hws (word_file ws).length word [] 0
    hword (Nat.le_refl _) (by norm_num)
  have hz : (0 + ws.length) % 2 ^ 32 = 0 := by
    rw [hlen]
    norm_num
  rw [hz] at hloop
  have hne : ws.reverse ++ [] ≠ [] := by
    intro h
    have := congrArg List.length h
    rw [List.length_append, List.length_reverse, hlen] at this
    exact absurd this (by norm_num)
  rw [dyna_alloc_of_loop hloop]
  simp only [List.replicate_zero]
  rw [dyna_alloc_fill_nil_result hne]

/-- C19 as stated fails for a file of `2 ^ 32` words: the `unsigned int`
`word_count` wraps around to 0, `calloc` allocates an array of no entries, and
the first store, at index `word_count - 1 = 4294967295`, is outside the array. -/
theorem word_loading_counterexample :
    (∀ w ∈ List.replicate 4294967296 ([] : CStr), FileWord w) ∧
    (List.replicate 4294967296 ([] : CStr)).length = 4294967296 ∧
    dyna_alloc (word_file (List.replicate 4294967296 [])) initial_word =
      some (.error .outOfBounds) := by
  have hws : ∀ w ∈ List.replicate 4294967296 ([] : CStr), FileWord w := by
    intro w hw
    rw [List.eq_of_mem_replicate hw]
    exact ⟨Nat.zero_le _, List.not_mem_nil _, List.not_mem_nil _⟩
  have hlen : (List.replicate 4294967296 ([] : CStr)).length = 4294967296 :=
    List.length_replicate _ _
  exact ⟨hws, hlen, dyna_alloc_wraps _ initial_word hws hlen rfl⟩

/-! ## The buffer of `read_word` -/

theorem read_word_loop_append (w tail : List Char) (hn : '\n' ∉ w) :
    ∀ pre suf : List Char, w.length ≤ suf.length → pre.length + w.length ≤ MAXWORD + 1 →
      read_word_loop (w ++ tail) (pre ++ suf) pre.length =
        read_word_loop tail (pre ++ w ++ suf.drop w.length) (pre.length + w.length) := by
  induction w with
  | nil =>
    intro pre suf _ _
    simp
  | cons c w ih =>
    intro pre suf h1 h2
    have hc : c ≠ '\n' := fun h => hn (h ▸ List.mem_cons_self _ _)
    have hw : '\n' ∉ w := fun h => hn (List.mem_cons_of_mem _ h)
    cases suf with
    | nil => simp at h1
    | cons s suf =>
      simp only [List.length_cons] at h1 h2
      have hp : pre.length ≤ MAXWORD := by omega
      have hset : (pre ++ s :: suf).set pre.length c = (pre ++ [c]) ++ suf := by
        rw [List.set_append_right _ _ (Nat.le_refl _)]
        simp
      have hih := ih hw (pre ++ [c]) suf (by omega) (by simp; omega)
      simp only [List.length_append, List.length_singleton] at hih
      simp only [List.cons_append, read_word_loop, if_neg hc, if_pos hp, hset, hih,
        List.length_cons, List.drop_succ_cons]
      rw [List.append_eq, hih]
      simp [Nat.add_assoc, Nat.add_comm 1]

theorem read_word_loop_full (w rest word : List Char) (hn : '\n' ∉ w) :
    read_word_loop (w ++ '\n' :: rest) word (MAXWORD + 1) = some (word, MAXWORD + 1, rest) := by
  induction w with
  | nil => simp [read_word_loop]
  | cons c w ih =>
    have hc : c ≠ '\n' := fun h => hn (h ▸ List.mem_cons_self _ _)
    have hw : '\n' ∉ w := fun h => hn (List.mem_cons_of_mem _ h)
    simp only [List.cons_append, read_word_loop, if_neg hc,
      if_neg (Nat.not_succ_le_self MAXWORD), List.append_eq, ih hw]

theorem read_word_loop_long_line (w rest word : List Char) (hn : '\n' ∉ w)
    (hlong : MAXWORD < w.length) (hlen : word.length = MAXWORD + 1) :
    read_word_loop (w ++ '\n' :: rest) word 0 =
      some (w.take (MAXWORD + 1), MAXWORD + 1, rest) := by
  have htake : (w.take (MAXWORD + 1)).length = MAXWORD + 1 := by
    rw [List.length_take]
    omega
  have hn1 : '\n' ∉ w.take (MAXWORD + 1) := fun h => hn (List.mem_of_mem_take h)
  have hn2 : '\n' ∉ w.drop (MAXWORD + 1) := fun h => hn (List.mem_of_mem_drop h)
  have h := read_word_loop_append (w.take (MAXWORD + 1)) (w.drop (MAXWORD + 1) ++ '\n' :: rest)
    hn1 [] word (by omega) (by simp only [List.length_nil]; omega)
  rw [← List.append_assoc, List.take_append_drop] at h
  simp only [List.nil_append, List.length_nil, Nat.zero_add, htake] at h
  have hd : List.drop (MAXWORD + 1) word = [] := List.drop_of_length_le (by omega)
  rw [h, hd, List.append_nil]
  exact read_word_loop_full _ rest _ hn2

theorem read_word_long_line (w rest word : List Char) (hn : '\n' ∉ w)
    (hlong : MAXWORD < w.length) (hlen : word.length = MAXWORD + 1) :
    read_word (w ++ '\n' :: rest) word = some (.error .outOfBounds) := by
  unfold read_word
  rw [read_word_loop_long_line w rest word hn hlong hlen]
  simp only [if_neg (Nat.not_succ_le_self MAXWORD)]

set_option maxRecDepth 8192 in
/-- C21: on a line of `MAXWORD + 1 = 71` letters followed by a newline, the
loop of `read_word` keeps all 71 letters, which is one more than `MAXWORD`, and
leaves `position` at 71, so that the store of the terminating NUL is at index
71, outside the buffer `word[MAXWORD + 1]`: `read_word` does not stay inside
its buffer.  On a line of `MAXWORD = 70` letters it returns the line. -/
theorem read_word_overrun :
    long_line.length = MAXWORD + 1 ∧ initial_word.length = MAXWORD + 1 ∧
      read_word_loop (long_line ++ ['\n']) initial_word 0 =
        some (long_line, MAXWORD + 1, []) ∧
      read_word (long_line ++ ['\n']) initial_word = some (.error .outOfBounds) ∧
      read_word (full_line ++ ['\n']) initial_word =
        some (.ok (full_line, full_line ++ [NUL], [])) :=
  ⟨by decide, by decide, by rfl, by rfl, by rfl⟩

end Passphrase
